import Mathlib

/-! # Cumulative-to-delta processor

A shallow embedding of `processor/cumulativetodeltaprocessor/processor.go`.

The pdata containers are value types here: a Go method that mutates a data point, a metric or
a slice in place becomes a function returning the updated value, and the metric tracker the
processor shares between calls becomes an explicit state `σ` threaded through every callback
in the order the Go closures run.
-/

namespace CumulativeToDelta

/-! ## pdata: the telemetry data model -/

/-- Nanoseconds since the epoch (`pcommon.Timestamp`, an unsigned 64-bit value). -/
abbrev Timestamp := Nat

/-- An IEEE 754 binary64 value, carried as its 64-bit pattern. -/
structure Float64 where
  bits : Nat
deriving DecidableEq, Repr, Inhabited

/-- The function `math.IsNaN`: the exponent field is all ones and the mantissa is not zero. -/
def Float64.IsNaN (f : Float64) : Bool :=
  (f.bits / 2 ^ 52) % 2 ^ 11 == 2047 && f.bits % 2 ^ 52 != 0

/-- The double `+0.0`, the zero value of a Go `float64`. -/
def Float64.zero : Float64 := ⟨0⟩

/-- A quiet NaN (`0x7FF8000000000001`, the pattern Go uses for `math.NaN()`). -/
def Float64.nan : Float64 := ⟨0x7FF8000000000001⟩

/-- An attribute value (`pcommon.Value`). -/
inductive AttrValue where
  | str (s : String)
  | int (i : Int)
  | double (f : Float64)
  | bool (b : Bool)
deriving DecidableEq, Repr, Inhabited

/-- An attribute collection (`pcommon.Map`), in insertion order. -/
abbrev AttrMap := List (String × AttrValue)

/-- The type `pcommon.Resource`. -/
structure Resource where
  Attributes : AttrMap := []
deriving DecidableEq, Repr, Inhabited

/-- The type `pcommon.InstrumentationScope`. -/
structure InstrumentationScope where
  Name : String := ""
  Version : String := ""
deriving DecidableEq, Repr, Inhabited

/-- The enumeration `pmetric.MetricAggregationTemporality`. -/
inductive AggregationTemporality where
  | Unspecified
  | Delta
  | Cumulative
deriving DecidableEq, Repr, Inhabited

/-- The enumeration `pmetric.NumberDataPointValueType`; `None` is its zero value. -/
inductive NumberDataPointValueType where
  | None
  | Int
  | Double
deriving DecidableEq, Repr, Inhabited

/-- The enumeration `pmetric.MetricDataType`. -/
inductive MetricDataType where
  | None
  | Gauge
  | Sum
  | Histogram
  | ExponentialHistogram
  | Summary
deriving DecidableEq, Repr, Inhabited

/-- The value of a number data point: unset, a 64-bit integer, or a double. -/
inductive NumberValue where
  | none
  | int (v : Int)
  | double (v : Float64)
deriving DecidableEq, Repr, Inhabited

/-- The type `pmetric.NumberDataPoint`. -/
structure NumberDataPoint where
  Attributes : AttrMap := []
  StartTimestamp : Timestamp := 0
  Timestamp : Timestamp := 0
  Value : NumberValue := .none
  Flags : Nat := 0
deriving DecidableEq, Repr, Inhabited

/-- The getter `NumberDataPoint.ValueType`. -/
def NumberDataPoint.ValueType (dp : NumberDataPoint) : NumberDataPointValueType :=
  match dp.Value with
  | .none => .None
  | .int _ => .Int
  | .double _ => .Double

/-- The getter `NumberDataPoint.IntVal`: the integer value, `0` when the value is not an integer. -/
def NumberDataPoint.IntVal (dp : NumberDataPoint) : Int :=
  match dp.Value with
  | .int v => v
  | _ => 0

/-- The getter `NumberDataPoint.DoubleVal`: the double value, `+0.0` when the value is not a
double. -/
def NumberDataPoint.DoubleVal (dp : NumberDataPoint) : Float64 :=
  match dp.Value with
  | .double v => v
  | _ => Float64.zero

/-- The setter `NumberDataPoint.SetStartTimestamp`. -/
def NumberDataPoint.SetStartTimestamp (dp : NumberDataPoint) (t : Nat) : NumberDataPoint :=
  { dp with StartTimestamp := t }

/-- The setter `NumberDataPoint.SetIntVal`. -/
def NumberDataPoint.SetIntVal (dp : NumberDataPoint) (v : Int) : NumberDataPoint :=
  { dp with Value := .int v }

/-- The setter `NumberDataPoint.SetDoubleVal`. -/
def NumberDataPoint.SetDoubleVal (dp : NumberDataPoint) (v : Float64) : NumberDataPoint :=
  { dp with Value := .double v }

/-- The type `pmetric.HistogramDataPoint`; the sum is an optional field. -/
structure HistogramDataPoint where
  Attributes : AttrMap := []
  StartTimestamp : Timestamp := 0
  Timestamp : Timestamp := 0
  Count : Nat := 0
  OptSum : Option Float64 := none
  BucketCounts : List Nat := []
  ExplicitBounds : List Float64 := []
  Flags : Nat := 0
deriving DecidableEq, Repr, Inhabited

/-- The getter `HistogramDataPoint.HasSum`. -/
def HistogramDataPoint.HasSum (dp : HistogramDataPoint) : Bool := dp.OptSum.isSome

/-- The getter `HistogramDataPoint.Sum`: `+0.0` when the sum is absent. -/
def HistogramDataPoint.Sum (dp : HistogramDataPoint) : Float64 := dp.OptSum.getD Float64.zero

/-- The setter `HistogramDataPoint.SetStartTimestamp`. -/
def HistogramDataPoint.SetStartTimestamp (dp : HistogramDataPoint) (t : Nat) :
    HistogramDataPoint :=
  { dp with StartTimestamp := t }

/-- The setter `HistogramDataPoint.SetCount`. -/
def HistogramDataPoint.SetCount (dp : HistogramDataPoint) (c : Nat) : HistogramDataPoint :=
  { dp with Count := c }

/-- The setter `HistogramDataPoint.SetSum`. -/
def HistogramDataPoint.SetSum (dp : HistogramDataPoint) (s : Float64) : HistogramDataPoint :=
  { dp with OptSum := some s }

/-- The call `dp.BucketCounts().FromRaw(b)`: replaces the bucket counts. -/
def HistogramDataPoint.SetBucketCounts (dp : HistogramDataPoint) (b : List Nat) :
    HistogramDataPoint :=
  { dp with BucketCounts := b }

/-- The type `pmetric.ExponentialHistogramDataPoint`. -/
structure ExponentialHistogramDataPoint where
  Attributes : AttrMap := []
  StartTimestamp : Timestamp := 0
  Timestamp : Timestamp := 0
  Count : Nat := 0
  Sum : Float64 := Float64.zero
  Scale : Int := 0
  ZeroCount : Nat := 0
  Positive : List Nat := []
  Negative : List Nat := []
deriving DecidableEq, Repr, Inhabited

/-- The type `pmetric.SummaryDataPoint`. -/
structure SummaryDataPoint where
  Attributes : AttrMap := []
  StartTimestamp : Timestamp := 0
  Timestamp : Timestamp := 0
  Count : Nat := 0
  Sum : Float64 := Float64.zero
  QuantileValues : List (Float64 × Float64) := []
deriving DecidableEq, Repr, Inhabited

/-- The type `pmetric.Sum`. -/
structure Sum where
  AggregationTemporality : AggregationTemporality := .Unspecified
  IsMonotonic : Bool := false
  DataPoints : List NumberDataPoint := []
deriving DecidableEq, Repr, Inhabited

/-- The type `pmetric.Histogram`. -/
structure Histogram where
  AggregationTemporality : AggregationTemporality := .Unspecified
  DataPoints : List HistogramDataPoint := []
deriving DecidableEq, Repr, Inhabited

/-- The type `pmetric.ExponentialHistogram`. -/
structure ExponentialHistogram where
  AggregationTemporality : AggregationTemporality := .Unspecified
  DataPoints : List ExponentialHistogramDataPoint := []
deriving DecidableEq, Repr, Inhabited

/-- The data carried by a metric: one variant per `pmetric.MetricDataType`. -/
inductive MetricData where
  | none
  | gauge (dps : List NumberDataPoint)
  | sum (s : Sum)
  | histogram (h : Histogram)
  | exponentialHistogram (e : ExponentialHistogram)
  | summary (dps : List SummaryDataPoint)
deriving DecidableEq, Repr, Inhabited

/-- The type `pmetric.Metric`. -/
structure Metric where
  Name : String := ""
  Description : String := ""
  Unit : String := ""
  Data : MetricData := .none
deriving DecidableEq, Repr, Inhabited

/-- The getter `Metric.DataType`. -/
def Metric.DataType (m : Metric) : MetricDataType :=
  match m.Data with
  | .none => .None
  | .gauge _ => .Gauge
  | .sum _ => .Sum
  | .histogram _ => .Histogram
  | .exponentialHistogram _ => .ExponentialHistogram
  | .summary _ => .Summary

/-- The type `pmetric.ScopeMetrics`. -/
structure ScopeMetrics where
  Scope : InstrumentationScope := {}
  SchemaUrl : String := ""
  Metrics : List Metric := []
deriving DecidableEq, Repr, Inhabited

/-- The type `pmetric.ResourceMetrics`. -/
structure ResourceMetrics where
  Resource : Resource := {}
  SchemaUrl : String := ""
  ScopeMetrics : List ScopeMetrics := []
deriving DecidableEq, Repr, Inhabited

/-- The type `pmetric.Metrics`: one batch. -/
structure Metrics where
  ResourceMetrics : List ResourceMetrics := []
deriving DecidableEq, Repr, Inhabited

/-- The method `RemoveIf` of the pdata slices: calls `f` on every element in order, front to
back, and keeps the elements for which it returns `false`. The callback works on the element
in place and on the state it closes over, so it returns the element as it left it and the
new state beside its verdict. -/
def RemoveIf {α σ : Type} (f : σ → α → (Bool × α) × σ) : σ → List α → List α × σ
  | st, [] => ([], st)
  | st, x :: xs =>
    let r := f st x
    let rest := RemoveIf f r.2 xs
    (if r.1.1 then rest.1 else r.1.2 :: rest.1, rest.2)

/-! ## The tracking package, as the processor uses it -/

/-- Modelled from the spec: the type `tracking.MetricIdentity`, whose declaration is not among
the sources. The fields are the ones the processor assigns; an unassigned field has its Go
zero value. -/
structure MetricIdentity where
  Resource : Resource := {}
  InstrumentationLibrary : InstrumentationScope := {}
  MetricDataType : MetricDataType := .None
  MetricIsMonotonic : Bool := false
  MetricName : String := ""
  MetricUnit : String := ""
  StartTimestamp : Timestamp := 0
  Attributes : AttrMap := []
  MetricValueType : NumberDataPointValueType := .None
deriving DecidableEq, Repr, Inhabited

/-- Modelled from the spec: the method `MetricIdentity.IsFloatVal`, not among the sources.
The value kind of an identity is Int or Float; the method tells whether it is Float. -/
def MetricIdentity.IsFloatVal (id : MetricIdentity) : Bool :=
  id.MetricValueType == .Double

/-- Modelled from the spec: the type `tracking.HistogramPoint` (count, sum, ordered bucket
counts), with the fields the processor fills in. -/
structure HistogramPoint where
  Count : Nat := 0
  Sum : Float64 := Float64.zero
  Buckets : List Nat := []
deriving DecidableEq, Repr, Inhabited

/-- Modelled from the spec: the type `tracking.ValuePoint`: the observed timestamp, the
integer and floating values, and the histogram payload, a pointer that is nil for a number
point. -/
structure ValuePoint where
  ObservedTimestamp : Timestamp := 0
  FloatValue : Float64 := Float64.zero
  IntValue : Int := 0
  HistogramValue : Option HistogramPoint := none
deriving DecidableEq, Repr, Inhabited

/-- Modelled from the spec: the type `tracking.MetricPoint`, an identity with its value. -/
structure MetricPoint where
  Identity : MetricIdentity := {}
  Value : ValuePoint := {}
deriving DecidableEq, Repr, Inhabited

/-- Modelled from the spec: the result type of `Convert` (DeltaResult in the spec): the new
start timestamp and the scalar or histogram delta. The processor reads
`delta.HistogramValue.Count` without a guard, so the payload is a plain field here. -/
structure DeltaValue where
  StartTimestamp : Timestamp := 0
  FloatValue : Float64 := Float64.zero
  IntValue : Int := 0
  HistogramValue : HistogramPoint := {}
deriving DecidableEq, Repr, Inhabited

/-- The method `MetricTracker.Convert` as the processor sees it: from the tracker state and a
point to the delta, the `valid` flag and the next tracker state. The tracker is a parameter
of the processor model. -/
abbrev ConvertFn (σ : Type) := σ → MetricPoint → (DeltaValue × Bool) × σ

/-! ## The processor -/

/-- The interface `filterset.FilterSet`: its one method, `Matches`. -/
abbrev FilterSet := String → Bool

/-- The type `filterset.Config`: how the filter strings are to be read. -/
structure FilterConfig where
  MatchType : String := ""
deriving DecidableEq, Repr, Inhabited

/-- The type `MatchMetrics` of the processor configuration. -/
structure MatchMetrics where
  Config : FilterConfig := {}
  Metrics : List String := []
deriving DecidableEq, Repr, Inhabited

/-- The processor configuration; `MaxStaleness` is in nanoseconds. -/
structure Config where
  Include : MatchMetrics := {}
  Exclude : MatchMetrics := {}
  MaxStaleness : Nat := 0
deriving DecidableEq, Repr, Inhabited

/-- The struct `cumulativeToDeltaProcessor`. A nil filter set is `none`. The tracker behind
`deltaCalculator` is passed to the methods as an explicit `ConvertFn` and state. -/
structure cumulativeToDeltaProcessor where
  includeFS : Option FilterSet := none
  excludeFS : Option FilterSet := none
  histogramSupportEnabled : Bool := false

/-- The function `newCumulativeToDeltaProcessor`. `createFilterSet` stands for
`filterset.CreateFilterSet`, whose error the constructor discards: on an error the filter set
stays nil. `gateEnabled` is what the feature-gate registry answers for the histogram gate. -/
def newCumulativeToDeltaProcessor
    (createFilterSet : List String → FilterConfig → Option FilterSet)
    (gateEnabled : Bool) (config : Config) : cumulativeToDeltaProcessor :=
  let p : cumulativeToDeltaProcessor := { histogramSupportEnabled := gateEnabled }
  let p := if config.Include.Metrics.length > 0 then
      { p with includeFS := createFilterSet config.Include.Metrics config.Include.Config }
    else p
  let p := if config.Exclude.Metrics.length > 0 then
      { p with excludeFS := createFilterSet config.Exclude.Metrics config.Exclude.Config }
    else p
  p

/-- The registered default of the histogram feature gate (`Enabled: false`). -/
def enableHistogramSupportGateDefault : Bool := false

/-- The method `shouldConvertMetric`. -/
def shouldConvertMetric (ctdp : cumulativeToDeltaProcessor) (metricName : String) : Bool :=
  (match ctdp.includeFS with
    | none => true
    | some fs => fs metricName) &&
  (match ctdp.excludeFS with
    | none => true
    | some fs => !fs metricName)

/-- The identity of one number data point (the first lines of the `convertDataPoints`
callback): the base identity with the start timestamp, attributes and value type of the
point. -/
def numberPointIdentity (baseIdentity : MetricIdentity) (dp : NumberDataPoint) : MetricIdentity :=
  { baseIdentity with
    StartTimestamp := dp.StartTimestamp
    Attributes := dp.Attributes
    MetricValueType := dp.ValueType }

/-- The second half of the `convertDataPoints` callback: the call to `Convert` and the
rewriting of the point; the point is removed when `valid` is false. -/
def submitNumberPoint {σ : Type} (conv : ConvertFn σ) (id : MetricIdentity) (point : ValuePoint)
    (st : σ) (dp : NumberDataPoint) : (Bool × NumberDataPoint) × σ :=
  let r := conv st { Identity := id, Value := point }
  let delta := r.1.1
  let valid := r.1.2
  if !valid then ((true, dp), r.2)
  else
    let dp := dp.SetStartTimestamp delta.StartTimestamp
    let dp := if id.IsFloatVal then dp.SetDoubleVal delta.FloatValue
      else dp.SetIntVal delta.IntValue
    ((false, dp), r.2)

/-- The callback that `convertDataPoints` hands to `RemoveIf`. -/
def convertDataPoint {σ : Type} (conv : ConvertFn σ) (baseIdentity : MetricIdentity)
    (st : σ) (dp : NumberDataPoint) : (Bool × NumberDataPoint) × σ :=
  let id := numberPointIdentity baseIdentity dp
  let point : ValuePoint := { ObservedTimestamp := dp.Timestamp }
  if id.IsFloatVal then
    if dp.DoubleVal.IsNaN then ((false, dp), st)
    else submitNumberPoint conv id { point with FloatValue := dp.DoubleVal } st dp
  else submitNumberPoint conv id { point with IntValue := dp.IntVal } st dp

/-- The method `convertDataPoints`, on the number data points of a sum. -/
def convertDataPoints {σ : Type} (conv : ConvertFn σ) (baseIdentity : MetricIdentity)
    (st : σ) (dps : List NumberDataPoint) : List NumberDataPoint × σ :=
  RemoveIf (convertDataPoint conv baseIdentity) st dps

/-- The identity of one histogram data point: the base identity with the start timestamp and
attributes of the point. -/
def histogramPointIdentity (baseIdentity : MetricIdentity) (dp : HistogramDataPoint) :
    MetricIdentity :=
  { baseIdentity with
    StartTimestamp := dp.StartTimestamp
    Attributes := dp.Attributes }

/-- The value `convertHistogramDataPoints` submits for one histogram data point. -/
def histogramValuePoint (dp : HistogramDataPoint) : ValuePoint :=
  { ObservedTimestamp := dp.Timestamp
    HistogramValue := some { Count := dp.Count, Sum := dp.Sum, Buckets := dp.BucketCounts } }

/-- The callback that `convertHistogramDataPoints` hands to `RemoveIf`. -/
def convertHistogramDataPoint {σ : Type} (conv : ConvertFn σ) (baseIdentity : MetricIdentity)
    (st : σ) (dp : HistogramDataPoint) : (Bool × HistogramDataPoint) × σ :=
  let id := histogramPointIdentity baseIdentity dp
  let point := histogramValuePoint dp
  let r := conv st { Identity := id, Value := point }
  let delta := r.1.1
  let valid := r.1.2
  if valid then
    let dp := dp.SetStartTimestamp delta.StartTimestamp
    let dp := dp.SetCount delta.HistogramValue.Count
    let dp := if dp.HasSum && !dp.Sum.IsNaN then dp.SetSum delta.HistogramValue.Sum else dp
    let dp := dp.SetBucketCounts delta.HistogramValue.Buckets
    ((false, dp), r.2)
  else ((!valid, dp), r.2)

/-- The method `convertHistogramDataPoints`, on the data points of a histogram. -/
def convertHistogramDataPoints {σ : Type} (conv : ConvertFn σ) (baseIdentity : MetricIdentity)
    (st : σ) (dps : List HistogramDataPoint) : List HistogramDataPoint × σ :=
  RemoveIf (convertHistogramDataPoint conv baseIdentity) st dps

/-- The base identity `processMetrics` builds for a sum. -/
def sumBaseIdentity (resource : Resource) (scope : InstrumentationScope) (m : Metric) (ms : Sum) :
    MetricIdentity :=
  { Resource := resource
    InstrumentationLibrary := scope
    MetricDataType := m.DataType
    MetricName := m.Name
    MetricUnit := m.Unit
    MetricIsMonotonic := ms.IsMonotonic }

/-- The base identity `processMetrics` builds for a histogram. -/
def histogramBaseIdentity (resource : Resource) (scope : InstrumentationScope) (m : Metric) :
    MetricIdentity :=
  { Resource := resource
    InstrumentationLibrary := scope
    MetricDataType := m.DataType
    MetricName := m.Name
    MetricUnit := m.Unit
    MetricIsMonotonic := true
    MetricValueType := .Int }

/-- The innermost callback of `processMetrics`, run on every metric of a scope. -/
def processMetric {σ : Type} (ctdp : cumulativeToDeltaProcessor) (conv : ConvertFn σ)
    (resource : Resource) (scope : InstrumentationScope) (st : σ) (m : Metric) :
    (Bool × Metric) × σ :=
  if !shouldConvertMetric ctdp m.Name then ((false, m), st)
  else
    match m.Data with
    | .sum ms =>
      if ms.AggregationTemporality != .Cumulative then ((false, m), st)
      else if !ms.IsMonotonic then ((false, m), st)
      else
        let baseIdentity := sumBaseIdentity resource scope m ms
        let r := convertDataPoints conv baseIdentity st ms.DataPoints
        let ms := { ms with DataPoints := r.1, AggregationTemporality := .Delta }
        ((ms.DataPoints.length == 0, { m with Data := .sum ms }), r.2)
    | .histogram ms =>
      if !ctdp.histogramSupportEnabled then ((false, m), st)
      else if ms.AggregationTemporality != .Cumulative then ((false, m), st)
      else if ms.DataPoints.length == 0 then ((false, m), st)
      else
        let baseIdentity := histogramBaseIdentity resource scope m
        let r := convertHistogramDataPoints conv baseIdentity st ms.DataPoints
        let ms := { ms with DataPoints := r.1, AggregationTemporality := .Delta }
        ((ms.DataPoints.length == 0, { m with Data := .histogram ms }), r.2)
    | _ => ((false, m), st)

/-- The middle callback of `processMetrics`, run on every scope of a resource. -/
def processScopeMetrics {σ : Type} (ctdp : cumulativeToDeltaProcessor) (conv : ConvertFn σ)
    (resource : Resource) (st : σ) (ilm : ScopeMetrics) : (Bool × ScopeMetrics) × σ :=
  let r := RemoveIf (processMetric ctdp conv resource ilm.Scope) st ilm.Metrics
  let ilm := { ilm with Metrics := r.1 }
  ((ilm.Metrics.length == 0, ilm), r.2)

/-- The outer callback of `processMetrics`, run on every resource of the batch. -/
def processResourceMetrics {σ : Type} (ctdp : cumulativeToDeltaProcessor) (conv : ConvertFn σ)
    (st : σ) (rm : ResourceMetrics) : (Bool × ResourceMetrics) × σ :=
  let r := RemoveIf (processScopeMetrics ctdp conv rm.Resource) st rm.ScopeMetrics
  let rm := { rm with ScopeMetrics := r.1 }
  ((rm.ScopeMetrics.length == 0, rm), r.2)

/-- The method `processMetrics`: the batch as the processor leaves it, the returned error
(`none` is a nil error) and the tracker state afterwards. -/
def processMetrics {σ : Type} (ctdp : cumulativeToDeltaProcessor) (conv : ConvertFn σ)
    (st : σ) (md : Metrics) : (Metrics × Option String) × σ :=
  let r := RemoveIf (processResourceMetrics ctdp conv) st md.ResourceMetrics
  (({ md with ResourceMetrics := r.1 }, none), r.2)

/-- A tracker that also keeps the log of the points submitted to it, oldest first. -/
def recording {σ : Type} (conv : ConvertFn σ) : ConvertFn (σ × List MetricPoint) :=
  fun st mp => ((conv st.1 mp).1, ((conv st.1 mp).2, st.2 ++ [mp]))

/-! ## The metric tracker

The tracking package is not among the sources. The processor model above works with any
tracker; the definitions below are the tracker of section 4.3 of the specification. -/

/-- Modelled from the spec: floating-point subtraction and comparison, which the delta
computer of section 4.4 takes from the machine. -/
structure FloatArith where
  sub : Float64 → Float64 → Float64
  lt : Float64 → Float64 → Bool

/-- Subtraction of unsigned 64-bit counters. -/
def subUint64 (a b : Nat) : Nat := (a % 2 ^ 64 + 2 ^ 64 - b % 2 ^ 64) % 2 ^ 64

/-- Subtraction of signed 64-bit values, in two's complement. -/
def subInt64 (a b : Int) : Int := (a - b + 2 ^ 63) % 2 ^ 64 - 2 ^ 63

/-- Modelled from the spec: series equality of two identities (section 3). Every field but
the start timestamp takes part, and the attribute set is compared without regard to
insertion order. -/
def sameSeries (a b : MetricIdentity) : Bool :=
  a.Resource == b.Resource && a.InstrumentationLibrary == b.InstrumentationLibrary &&
  a.MetricName == b.MetricName && a.MetricUnit == b.MetricUnit &&
  a.MetricDataType == b.MetricDataType && a.MetricIsMonotonic == b.MetricIsMonotonic &&
  a.MetricValueType == b.MetricValueType && a.Attributes.isPerm b.Attributes

/-- Modelled from the spec: a TrackerEntry, the baseline of one identity with its last-seen
mark. -/
structure TrackerEntry where
  Identity : MetricIdentity
  Point : ValuePoint
  LastSeen : Nat
deriving DecidableEq, Repr, Inhabited

/-- Modelled from the spec: the state of the Metric Tracker, its entry store and the reading
of the wall clock. -/
structure TrackerState where
  Entries : List TrackerEntry := []
  Now : Nat := 0
deriving DecidableEq, Repr, Inhabited

/-- The entry stored for an identity, if there is one. -/
def TrackerState.lookup (st : TrackerState) (id : MetricIdentity) : Option TrackerEntry :=
  st.Entries.find? (fun e => sameSeries e.Identity id)

/-- Stores a point as the baseline of an identity, with last-seen set to now. -/
def TrackerState.store (st : TrackerState) (id : MetricIdentity) (p : ValuePoint) : TrackerState :=
  { st with
    Entries := ⟨id, p, st.Now⟩ :: st.Entries.filter (fun e => !sameSeries e.Identity id) }

/-- Modelled from the spec: histogramDelta of section 4.4, elementwise subtraction of bucket
counts of equal length. -/
def histogramDelta (cur prev : List Nat) : List Nat :=
  List.zipWith subUint64 cur prev

/-- Modelled from the spec: the reset test of section 4.3. A scalar resets when its value is
below the stored one, a histogram when its bucket layout differs from the stored one. -/
def isReset (fa : FloatArith) (id : MetricIdentity) (cur prev : ValuePoint) : Bool :=
  match cur.HistogramValue, prev.HistogramValue with
  | some c, some p => c.Buckets.length != p.Buckets.length
  | _, _ =>
    if id.IsFloatVal then fa.lt cur.FloatValue prev.FloatValue
    else decide (cur.IntValue < prev.IntValue)

/-- Modelled from the spec: the delta on a reset, the absolute value of the point. -/
def resetDelta (start : Timestamp) (cur : ValuePoint) : DeltaValue :=
  { StartTimestamp := start
    FloatValue := cur.FloatValue
    IntValue := cur.IntValue
    HistogramValue := cur.HistogramValue.getD {} }

/-- Modelled from the spec: the delta of a normal advance (section 4.3 and the delta computer
of section 4.4). The sum delta is skipped, the incoming sum kept, if either sum is NaN. -/
def advanceDelta (fa : FloatArith) (id : MetricIdentity) (start : Timestamp)
    (cur prev : ValuePoint) : DeltaValue :=
  match cur.HistogramValue, prev.HistogramValue with
  | some c, some p =>
    { StartTimestamp := start
      HistogramValue :=
        { Count := subUint64 c.Count p.Count
          Sum := if c.Sum.IsNaN || p.Sum.IsNaN then c.Sum else fa.sub c.Sum p.Sum
          Buckets := histogramDelta c.Buckets p.Buckets } }
  | _, _ =>
    if id.IsFloatVal then
      { StartTimestamp := start, FloatValue := fa.sub cur.FloatValue prev.FloatValue }
    else
      { StartTimestamp := start, IntValue := subInt64 cur.IntValue prev.IntValue }

/-- Modelled from the spec: `MetricTracker.Convert` of the tracking package (section 4.3),
which is not among the sources. -/
def Convert (fa : FloatArith) : ConvertFn TrackerState :=
  fun st mp =>
    match st.lookup mp.Identity with
    | none => (({}, false), st.store mp.Identity mp.Value)
    | some e =>
      if mp.Value.ObservedTimestamp ≤ e.Point.ObservedTimestamp then (({}, false), st)
      else if mp.Identity.IsFloatVal && mp.Value.FloatValue.IsNaN then (({}, false), st)
      else if mp.Identity.MetricIsMonotonic && isReset fa mp.Identity mp.Value e.Point then
        ((resetDelta e.Point.ObservedTimestamp mp.Value, true), st.store mp.Identity mp.Value)
      else
        ((advanceDelta fa mp.Identity e.Point.ObservedTimestamp mp.Value e.Point, true),
          st.store mp.Identity mp.Value)

/-- A stand-in for the machine arithmetic on doubles, for examples that stay on integers. -/
def FloatArith.bitwise : FloatArith where
  sub := fun a b => ⟨a.bits - b.bits⟩
  lt := fun a b => decide (a.bits < b.bits)

/-! ## What the claims speak of -/

/-- A metric the processor converts, in the words of the specification: its name is eligible
and it is a monotonic cumulative sum, or, with histogram support enabled, a cumulative
histogram with at least one data point. -/
def convertible (ctdp : cumulativeToDeltaProcessor) (m : Metric) : Bool :=
  shouldConvertMetric ctdp m.Name &&
  (match m.Data with
    | .sum s => s.AggregationTemporality == .Cumulative && s.IsMonotonic
    | .histogram h =>
      ctdp.histogramSupportEnabled && h.AggregationTemporality == .Cumulative &&
        !h.DataPoints.isEmpty
    | _ => false)

/-- A number data point the callback leaves alone: a double whose value is NaN. -/
def isNaNPoint (dp : NumberDataPoint) : Bool :=
  dp.ValueType == .Double && dp.DoubleVal.IsNaN

/-- The point submitted to `Convert` for a number data point: its identity, its timestamp and
its value, in the float field for a double and in the integer field otherwise. -/
def numberMetricPoint (baseIdentity : MetricIdentity) (dp : NumberDataPoint) : MetricPoint :=
  { Identity := numberPointIdentity baseIdentity dp
    Value :=
      if dp.ValueType == .Double then
        { ObservedTimestamp := dp.Timestamp, FloatValue := dp.DoubleVal }
      else { ObservedTimestamp := dp.Timestamp, IntValue := dp.IntVal } }

/-- The point submitted to `Convert` for a histogram data point. -/
def histogramMetricPoint (baseIdentity : MetricIdentity) (dp : HistogramDataPoint) :
    MetricPoint :=
  { Identity := histogramPointIdentity baseIdentity dp, Value := histogramValuePoint dp }

/-- The batch holding one resource with one scope with the given metrics. -/
def singleScopeBatch (ms : List Metric) : Metrics :=
  { ResourceMetrics := [{ ScopeMetrics := [{ Metrics := ms }] }] }

/-- A monotonic cumulative sum named "requests_total" with the given points. -/
def requestsTotal (dps : List NumberDataPoint) : Metric :=
  { Name := "requests_total"
    Data := .sum { AggregationTemporality := .Cumulative, IsMonotonic := true, DataPoints := dps } }

/-- A gauge named "temperature" with one integer point. -/
def temperatureGauge : Metric :=
  { Name := "temperature", Data := .gauge [{ Timestamp := 100, Value := .int 21 }] }

/-- The base identity of a monotonic sum named "requests_total". -/
def requestsTotalIdentity : MetricIdentity :=
  { MetricDataType := .Sum, MetricName := "requests_total", MetricIsMonotonic := true }

/-- The tracker of the specification after one number point of "requests_total" went through
the processor on a fresh tracker. -/
def trackerAfterNumberPoint (dp : NumberDataPoint) : TrackerState :=
  (convertDataPoints (Convert FloatArith.bitwise) requestsTotalIdentity {} [dp]).2

/-- The base identity of a histogram named "latency". -/
def latencyIdentity : MetricIdentity :=
  { MetricDataType := .Histogram, MetricName := "latency", MetricIsMonotonic := true,
    MetricValueType := .Int }

/-- The tracker of the specification after one histogram point of "latency" went through the
processor on a fresh tracker. -/
def trackerAfterHistogramPoint (dp : HistogramDataPoint) : TrackerState :=
  (convertHistogramDataPoints (Convert FloatArith.bitwise) latencyIdentity {} [dp]).2

/-- The number of data points a metric carries. -/
def Metric.pointCount (m : Metric) : Nat :=
  match m.Data with
  | .none => 0
  | .gauge dps => dps.length
  | .sum s => s.DataPoints.length
  | .histogram h => h.DataPoints.length
  | .exponentialHistogram e => e.DataPoints.length
  | .summary dps => dps.length

/-- The aggregation temporality of a metric, for the data types that have one. -/
def Metric.temporality (m : Metric) : Option AggregationTemporality :=
  match m.Data with
  | .sum s => some s.AggregationTemporality
  | .histogram h => some h.AggregationTemporality
  | .exponentialHistogram e => some e.AggregationTemporality
  | _ => none

/-- What the callback submits for one number data point: nothing for a NaN double, the
point otherwise. -/
def pointSubmissions (baseIdentity : MetricIdentity) (dp : NumberDataPoint) : List MetricPoint :=
  if isNaNPoint dp then [] else [numberMetricPoint baseIdentity dp]

/-- The points of one metric that are to be submitted, in order: those of a converted sum
that are not NaN, and all those of a converted histogram. -/
def metricSubmissions (ctdp : cumulativeToDeltaProcessor) (resource : Resource)
    (scope : InstrumentationScope) (m : Metric) : List MetricPoint :=
  if convertible ctdp m then
    match m.Data with
    | .sum ms =>
      (ms.DataPoints.map (pointSubmissions (sumBaseIdentity resource scope m ms))).flatten
    | .histogram ms =>
      ms.DataPoints.map (histogramMetricPoint (histogramBaseIdentity resource scope m))
    | _ => []
  else []

/-- The points of one scope that are to be submitted, metric after metric. -/
def scopeSubmissions (ctdp : cumulativeToDeltaProcessor) (resource : Resource)
    (ilm : ScopeMetrics) : List MetricPoint :=
  (ilm.Metrics.map (metricSubmissions ctdp resource ilm.Scope)).flatten

/-- The points of one resource that are to be submitted, scope after scope. -/
def resourceSubmissions (ctdp : cumulativeToDeltaProcessor) (rm : ResourceMetrics) :
    List MetricPoint :=
  (rm.ScopeMetrics.map (scopeSubmissions ctdp rm.Resource)).flatten

/-- The points of a batch that are to be submitted, in document order: resource, scope,
metric, point. -/
def submissions (ctdp : cumulativeToDeltaProcessor) (md : Metrics) : List MetricPoint :=
  (md.ResourceMetrics.map (resourceSubmissions ctdp)).flatten

/-- The context `newCumulativeToDeltaProcessor` creates with `context.WithCancel` for the
sweep of the tracker: whether it is cancelled, and how often its cancel function was
called. -/
structure SweepContext where
  Cancelled : Bool := false
  CancelCalls : Nat := 0
deriving DecidableEq, Repr, Inhabited

/-- The context as the constructor leaves it: not cancelled. -/
def newSweepContext : SweepContext := {}

/-- The field `cancelFunc`, the `context.CancelFunc` of the sweep context: it cancels the
context; on a cancelled context it changes nothing but the count of its calls. -/
def cancelFunc (ctx : SweepContext) : SweepContext :=
  { Cancelled := true, CancelCalls := ctx.CancelCalls + 1 }

/-- The method `shutdown`: calls the cancel function and returns a nil error. -/
def shutdown (ctx : SweepContext) : Option String × SweepContext :=
  (none, cancelFunc ctx)

/-- The context after `n` calls of `shutdown` in a row. -/
def shutdownTimes : Nat → SweepContext → SweepContext
  | 0, ctx => ctx
  | n + 1, ctx => shutdownTimes n (shutdown ctx).2

/-- One observation of the series "requests_total": a batch holding the integer value `v`
observed at time `t`, run through the processor on the tracker of the specification. -/
def observeRequestsTotal (fa : FloatArith) (st : TrackerState) (t : Nat) (v : Int) :
    (Metrics × Option String) × TrackerState :=
  processMetrics {} (Convert fa) st
    (singleScopeBatch [requestsTotal [{ Timestamp := t, Value := .int v }]])

/-- The batch that carries one delta point of "requests_total". -/
def emittedRequestsTotal (start t : Nat) (v : Int) : Metrics :=
  singleScopeBatch
    [{ Name := "requests_total"
       Data := .sum
        { AggregationTemporality := .Delta, IsMonotonic := true,
          DataPoints := [{ StartTimestamp := start, Timestamp := t, Value := .int v }] } }]

/-- The identity of the integer series "requests_total". -/
def requestsTotalIntIdentity : MetricIdentity :=
  { requestsTotalIdentity with MetricValueType := .Int }

/-- The sign bit of a double. -/
def Float64.signBit (f : Float64) : Nat := (f.bits / 2 ^ 63) % 2

/-- The exponent field of a double, 11 bits. -/
def Float64.expField (f : Float64) : Nat := (f.bits / 2 ^ 52) % 2 ^ 11

/-- The mantissa field of a double, 52 bits. -/
def Float64.mantField (f : Float64) : Nat := f.bits % 2 ^ 52

/-- The double built from a sign bit, an exponent field and a mantissa field. -/
def Float64.ofFields (sign expField mantField : Nat) : Float64 :=
  ⟨sign * 2 ^ 63 + expField * 2 ^ 52 + mantField⟩

/-- The significand of a finite double: its value is the significand times two to the power
`scale - 1074`, negated when the sign bit is set. -/
def Float64.significand (f : Float64) : Nat :=
  if f.expField == 0 then f.mantField else 2 ^ 52 + f.mantField

/-- The scale of a finite double, see `Float64.significand`. -/
def Float64.scale (f : Float64) : Nat :=
  if f.expField == 0 then 0 else f.expField - 1

/-- The number of binary digits of `n`, for `n` below two to the power `fuel`. -/
def bitLength : Nat → Nat → Nat
  | 0, _ => 0
  | fuel + 1, n => if n = 0 then 0 else bitLength fuel (n / 2) + 1

/-- The double nearest to `n * 2 ^ (scale - 1074)` for `n > 0`, ties to even, with the given
sign bit; infinity when the value is out of range. -/
def Float64.round (sign n scale : Nat) : Float64 :=
  let len := bitLength 2200 n
  if len ≤ 53 then
    let t := min (53 - len) scale
    let m := n * 2 ^ t
    if m ≥ 2 ^ 52 then Float64.ofFields sign (scale - t + 1) (m - 2 ^ 52)
    else Float64.ofFields sign 0 m
  else
    let k := len - 53
    let q := n / 2 ^ k
    let r := n % 2 ^ k
    let up := decide (r > 2 ^ (k - 1)) || (r == 2 ^ (k - 1) && q % 2 == 1)
    let q1 := if up then q + 1 else q
    let q2 := if q1 == 2 ^ 53 then 2 ^ 52 else q1
    let k2 := if q1 == 2 ^ 53 then k + 1 else k
    if scale + k2 + 1 ≥ 2047 then Float64.ofFields sign 2047 0
    else Float64.ofFields sign (scale + k2 + 1) (q2 - 2 ^ 52)

/-- A NaN with its quiet bit set. -/
def Float64.quiet (f : Float64) : Float64 :=
  ⟨f.bits % 2 ^ 64 / 2 ^ 52 * 2 ^ 52 + 2 ^ 51 + f.mantField % 2 ^ 51⟩

/-- IEEE 754 subtraction of doubles, rounding to nearest, ties to even. A NaN operand comes
back quieted, the first one if both are NaN; infinity minus the same infinity is the default
NaN of the amd64 architecture. -/
def Float64.sub (a b : Float64) : Float64 :=
  if a.IsNaN then a.quiet
  else if b.IsNaN then b.quiet
  else if a.expField == 2047 then
    if b.expField == 2047 && a.signBit == b.signBit then ⟨0xFFF8000000000000⟩
    else Float64.ofFields a.signBit 2047 0
  else if b.expField == 2047 then Float64.ofFields (1 - b.signBit) 2047 0
  else
    let s := min a.scale b.scale
    let ia : Int := (a.significand * 2 ^ (a.scale - s) : Nat)
    let ib : Int := (b.significand * 2 ^ (b.scale - s) : Nat)
    let d : Int := (if a.signBit == 1 then -ia else ia) - (if b.signBit == 1 then -ib else ib)
    if d == 0 then
      if a.signBit == 1 && b.signBit == 0 then Float64.ofFields 1 0 0 else Float64.ofFields 0 0 0
    else Float64.round (if d < 0 then 1 else 0) d.natAbs s

/-- The order key of a double that is not NaN: doubles compare as their keys do. -/
def Float64.orderKey (f : Float64) : Int :=
  if f.signBit == 1 then -((f.bits % 2 ^ 63 : Nat) : Int) else ((f.bits % 2 ^ 63 : Nat) : Int)

/-- IEEE 754 comparison `a < b` of doubles: false when either is NaN. -/
def Float64.lt (a b : Float64) : Bool :=
  !a.IsNaN && !b.IsNaN && decide (a.orderKey < b.orderKey)

/-- The machine arithmetic on doubles that Go uses: IEEE 754 subtraction and comparison. -/
def FloatArith.ieee : FloatArith where
  sub := Float64.sub
  lt := Float64.lt

/-- The double 100.0. -/
def Float64.f100 : Float64 := ⟨0x4059000000000000⟩

/-- The double 250.0. -/
def Float64.f250 : Float64 := ⟨0x406F400000000000⟩

/-- The double 150.0. -/
def Float64.f150 : Float64 := ⟨0x4062C00000000000⟩

/-- The histogram point of the example of the specification observed first: buckets 4, 2, 3,
7, sum 100, count 16, at time 100. -/
def latencyFirst : HistogramDataPoint :=
  { Timestamp := 100, Count := 16, OptSum := some Float64.f100, BucketCounts := [4, 2, 3, 7] }

/-- The histogram point of the example observed second: buckets 10, 5, 9, 20, sum 250, count
40, at time 200. -/
def latencySecond : HistogramDataPoint :=
  { Timestamp := 200, Count := 40, OptSum := some Float64.f250, BucketCounts := [10, 5, 9, 20] }

/-- The tracker of the specification, with IEEE arithmetic, after one histogram point of
"latency" went through the processor on a fresh tracker. -/
def ieeeTrackerAfterHistogramPoint (dp : HistogramDataPoint) : TrackerState :=
  (convertHistogramDataPoints (Convert FloatArith.ieee) latencyIdentity {} [dp]).2

/-- A sequence of `Convert` calls on the tracker of the specification: the state after the
last one. -/
def convertAll (fa : FloatArith) : TrackerState → List MetricPoint → TrackerState
  | st, [] => st
  | st, mp :: mps => convertAll fa (Convert fa st mp).2 mps

/-- The wall clock moving on by `d`. -/
def TrackerState.advanceClock (st : TrackerState) (d : Nat) : TrackerState :=
  { st with Now := st.Now + d }

/-- Modelled from the spec: one pass of the staleness sweep of section 4.3, which is not
among the sources: it scans all entries and removes those whose last-seen mark is older than
`maxStaleness`. -/
def TrackerState.sweep (st : TrackerState) (maxStaleness : Nat) : TrackerState :=
  { st with Entries := st.Entries.filter (fun e => !decide (st.Now - e.LastSeen > maxStaleness)) }

/-- A number point of "requests_total" with the attributes `attrs`. -/
def attributedPoint (attrs : AttrMap) (t : Nat) (v : Int) : NumberDataPoint :=
  { Attributes := attrs, Timestamp := t, Value := .int v }

end CumulativeToDelta

/-! # Solace receiver: `receiveMessage`

The receiver itself (`receiver/solacereceiver/receiver.go`) is not among the sources; its
test `receiver_test.go` is. The table of `TestReceiveMessage` is embedded below as it stands
in the test, next to a model of the method under test. -/

namespace SolaceReceiver

/-- The errors `TestReceiveMessage` tells apart: the two unmarshalling errors of the
receiver (spelt as in the Go identifiers) and any other error, by its text. -/
inductive Error where
  | errUnknownTraceMessgeType
  | errUnknownTraceMessgeVersion
  | other (text : String)
deriving DecidableEq, Repr, Inhabited

/-- An error of the next consumer; it is permanent when built with
`consumererror.NewPermanent`. -/
structure ConsumeError where
  err : Error
  permanent : Bool
deriving DecidableEq, Repr, Inhabited

/-- What the collaborators of one `receiveMessage` call answer, as the test sets them up:
the messaging service on receive, ack and nack, the unmarshaller, and the next consumer. -/
structure Collaborators where
  receiveMessageErr : Option Error := none
  unmarshalErr : Option Error := none
  consumeErr : Option ConsumeError := none
  ackErr : Option Error := none
  nackErr : Option Error := none
deriving DecidableEq, Repr, Inhabited

/-- A call `receiveMessage` makes on a collaborator. -/
inductive Call where
  | receive
  | unmarshal
  | consumeTraces
  | ack
  | nack
deriving DecidableEq, Repr, Inhabited

/-- What one `receiveMessage` call did: the error it returned and the calls it made, in
order. -/
structure Outcome where
  err : Option Error
  calls : List Call
deriving DecidableEq, Repr, Inhabited

/-- Modelled from the spec: the end of `receiveMessage`, where the message is settled with
ack or nack; an error of ack or nack is returned unless an error is on its way already. -/
def settle (c : Collaborators) (reject : Bool) (err : Option Error) (calls : List Call) :
    Outcome :=
  let actionErr := if reject then c.nackErr else c.ackErr
  { err := match err with
      | some e => some e
      | none => actionErr
    calls := calls ++ [if reject then .nack else .ack] }

/-- Modelled from the spec: the method `receiveMessage` of the solace receiver, which is not
among the sources. The model follows what `TestReceiveMessage` documents case by case: a
receive error is returned at once; an unknown message version is propagated and the message
rejected; any other unmarshalling error is swallowed and the message acknowledged; a
permanent error of the next consumer is swallowed with an ack, a temporary one with a
nack. -/
def receiveMessage (c : Collaborators) : Outcome :=
  match c.receiveMessageErr with
  | some e => { err := some e, calls := [.receive] }
  | none =>
    match c.unmarshalErr with
    | some ue =>
      if ue = .errUnknownTraceMessgeVersion then settle c true (some ue) [.receive, .unmarshal]
      else settle c false none [.receive, .unmarshal]
    | none =>
      match c.consumeErr with
      | none => settle c false none [.receive, .unmarshal, .consumeTraces]
      | some ce => settle c (!ce.permanent) none [.receive, .unmarshal, .consumeTraces]

/-- One row of the table of `TestReceiveMessage`. -/
structure TestCase where
  name : String
  collaborators : Collaborators
  expectNack : Bool := false
  expectedErr : Option Error := none
deriving DecidableEq, Repr, Inhabited

/-- The error `someError` of the test. -/
def someError : Error := .other "some error"

/-- The table `cases` of `TestReceiveMessage`, row by row. -/
def testCases : List TestCase :=
  [ { name := "Receive Message Success", collaborators := {} },
    { name := "Receive Messages Error"
      collaborators := { receiveMessageErr := some someError }
      expectedErr := some someError },
    { name := "Unmarshal Error"
      collaborators := { unmarshalErr := some .errUnknownTraceMessgeType } },
    { name := "Unmarshal Version Error"
      collaborators := { unmarshalErr := some .errUnknownTraceMessgeVersion }
      expectedErr := some .errUnknownTraceMessgeVersion
      expectNack := true },
    { name := "Forward Permanent Error"
      collaborators := { consumeErr := some ⟨.other "a permanent error", true⟩ } },
    { name := "Forward Temporary Error"
      collaborators := { consumeErr := some ⟨.other "a temporary error", false⟩ }
      expectNack := true },
    { name := "Forward Permanent Error with Ack Error"
      collaborators :=
        { consumeErr := some ⟨.other "a permanent error", true⟩, ackErr := some someError }
      expectedErr := some someError },
    { name := "Forward Temporary Error with Nack Error"
      collaborators :=
        { consumeErr := some ⟨.other "a temporary error", false⟩, nackErr := some someError }
      expectNack := true
      expectedErr := some someError } ]

/-- The assertions the test makes after the call: the returned error is the expected one,
receive was called, and, when receiving succeeded, unmarshal was called and nack or ack was
called as expected. -/
def TestCase.passes (tc : TestCase) : Bool :=
  let out := receiveMessage tc.collaborators
  out.err == tc.expectedErr && out.calls.contains .receive &&
  (tc.collaborators.receiveMessageErr.isSome ||
    (out.calls.contains .unmarshal && out.calls.contains .nack == tc.expectNack &&
      out.calls.contains .ack == !tc.expectNack))

/-- The condition under which the message is rejected: unmarshalling fails with the
unknown-message-version error, or the next consumer is reached and returns an error that is
not permanent. -/
def rejects (c : Collaborators) : Bool :=
  c.unmarshalErr == some .errUnknownTraceMessgeVersion ||
  (c.unmarshalErr.isNone &&
    match c.consumeErr with
    | some ce => !ce.permanent
    | none => false)

end SolaceReceiver

/-! # SignalFx exporter: `ConvertDimension`

The converter itself (`exporter/signalfxexporter/internal/translation/converter.go`) is not
among the sources; its test `converter_test.go` is. The rows of the tests that exercise the
conversion of dimension keys are embedded below, next to a model of the method under test. -/

namespace SignalFx

/-- The mapping of a rule `ActionRenameDimensionKeys` of the metric translator, from old to
new dimension keys. -/
abbrev DimensionMapping := List (String × String)

/-- Modelled from the spec: the renaming of dimension keys by the metric translator, which
is not among the sources: the new key of a dimension the mapping renames, the dimension
itself otherwise. -/
def translateDimension (mapping : DimensionMapping) (dim : String) : String :=
  match mapping.lookup dim with
  | some renamed => renamed
  | none => dim

/-- The character a dimension key keeps in place of `r`: `r` itself when it is alphanumeric
or one of the allowed characters, an underscore otherwise. -/
def filterChar (alnum : Char → Bool) (nonAlphanumericDimChars : String) (r : Char) : Char :=
  if alnum r || nonAlphanumericDimChars.data.contains r then r else '_'

/-- Modelled from the spec: the filter on the characters of a dimension key: every character
that is neither alphanumeric nor one of `nonAlphanumericDimChars` is replaced by an
underscore. Which characters count as alphanumeric is a parameter. -/
def filterKeyChars (alnum : Char → Bool) (nonAlphanumericDimChars : String) (str : String) :
    String :=
  String.mk (str.data.map (filterChar alnum nonAlphanumericDimChars))

/-- The fields of a `MetricsConverter` that `ConvertDimension` reads: the metric translator,
which may be nil, and the allowed characters. -/
structure MetricsConverter where
  metricTranslator : Option DimensionMapping := none
  nonAlphanumericDimChars : String := ""
deriving DecidableEq, Repr, Inhabited

/-- Modelled from the spec: the method `MetricsConverter.ConvertDimension`, which is not
among the sources. The model follows what its tests document: the renaming of the
translator, if there is one, comes first, then the filter on the characters. -/
def ConvertDimension (alnum : Char → Bool) (c : MetricsConverter) (dim : String) : String :=
  let res :=
    match c.metricTranslator with
    | some mapping => translateDimension mapping dim
    | none => dim
  filterKeyChars alnum c.nonAlphanumericDimChars res

/-- One row of the tests on dimension keys: the converter, the dimension, the key wanted. -/
structure TestCase where
  name : String
  converter : MetricsConverter
  dim : String
  want : String
deriving DecidableEq, Repr, Inhabited

/-- The two rows of `TestMetricsConverter_ConvertDimension`, and the dimension keys of
`TestDimensionKeyCharsWithPeriod` and `TestMetricDataToSignalFxV2WithTranslation`. -/
def testCases : List TestCase :=
  [ { name := "No translations"
      converter := { metricTranslator := none, nonAlphanumericDimChars := "_-" }
      dim := "d.i.m"
      want := "d_i_m" },
    { name := "With translations"
      converter :=
        { metricTranslator := some [("d.i.m", "di.m")], nonAlphanumericDimChars := "_-" }
      dim := "d.i.m"
      want := "di_m" },
    { name := "TestDimensionKeyCharsWithPeriod"
      converter :=
        { metricTranslator := some [("old.dim.with.periods", "new.dim.with.periods")],
          nonAlphanumericDimChars := "_-." }
      dim := "old.dim.with.periods"
      want := "new.dim.with.periods" },
    { name := "TestMetricDataToSignalFxV2WithTranslation"
      converter :=
        { metricTranslator := some [("old.dim", "new.dim")], nonAlphanumericDimChars := "" }
      dim := "old.dim"
      want := "new_dim" } ]

/-- The assertion of the tests: the converted dimension is the key wanted. The dimensions of
the tests are ASCII, where the alphanumeric characters are the letters and digits. -/
def TestCase.passes (tc : TestCase) : Bool :=
  ConvertDimension Char.isAlphanum tc.converter tc.dim == tc.want

end SignalFx

/-! # OTTL functions: `Set` and `ReplaceMatch`

A shallow embedding of `func_set.go` and `func_replace_match.go` of
`pkg/oteltransformationlanguage/functions/ottlcommon`. The transform context is a value of a
type `Ctx`; a setter, which works on the context in place, returns the context it leaves. -/

namespace ottlcommon

/-- A value of the Go type `interface{}` that is not nil. -/
inductive Value where
  | str (s : String)
  | int (i : Int)
  | double (bits : Nat)
  | bool (b : Bool)
deriving DecidableEq, Repr, Inhabited

/-- The interface `ottl.Getter`; a nil result is `none`. -/
structure Getter (Ctx : Type) where
  Get : Ctx → Option Value

/-- The interface `ottl.Setter`. -/
structure Setter (Ctx : Type) where
  Set : Ctx → Value → Ctx

/-- The interface `ottl.GetSetter`. -/
structure GetSetter (Ctx : Type) where
  Get : Ctx → Option Value
  Set : Ctx → Value → Ctx

/-- The type `ottl.ExprFunc`: from the context to the result, which may be nil, and the
context as the function leaves it. -/
abbrev ExprFunc (Ctx : Type) := Ctx → Option Value × Ctx

/-- The function `Set`. -/
def Set {Ctx : Type} (target : Setter Ctx) (value : Getter Ctx) : Except String (ExprFunc Ctx) :=
  .ok (fun ctx =>
    let val := value.Get ctx
    match val with
    | some v => (none, target.Set ctx v)
    | none => (none, ctx))

/-- A compiled glob of `github.com/gobwas/glob`: its method `Match`. -/
abbrev Glob := String → Bool

/-- The function `ReplaceMatch`. `compile` stands for `glob.Compile` of the library
`github.com/gobwas/glob`, which returns the compiled glob or an error. -/
def ReplaceMatch {Ctx : Type} (compile : String → Except String Glob) (target : GetSetter Ctx)
    (pattern : String) (replacement : String) : Except String (ExprFunc Ctx) :=
  match compile pattern with
  | .error err =>
    .error ("the pattern supplied to replace_match is not a valid pattern: " ++ err)
  | .ok glob =>
    .ok (fun ctx =>
      let val := target.Get ctx
      match val with
      | none => (none, ctx)
      | some (.str valStr) =>
        if glob valStr then (none, target.Set ctx (.str replacement)) else (none, ctx)
      | some _ => (none, ctx))

/-- A context with a single field, which may be nil. -/
abbrev FieldContext := Option Value

/-- The getter and setter of the field of a `FieldContext`. -/
def fieldTarget : GetSetter FieldContext where
  Get := fun ctx => ctx
  Set := fun _ v => some v

/-- A stand-in for `glob.Compile`, for examples: the empty pattern is refused, a pattern
ending in a star matches what starts with the rest of it, another pattern matches
itself. -/
def starCompile (pattern : String) : Except String Glob :=
  if pattern.data.isEmpty then .error "empty pattern"
  else if pattern.data.getLast? = some '*' then
    .ok (fun s => pattern.data.dropLast.isPrefixOf s.data)
  else .ok (fun s => s == pattern)

end ottlcommon

namespace CumulativeToDelta

/-- What identifies a resource entry of a batch and is never written by the processor: the
resource and the schema URL. -/
def resourceKey (rm : ResourceMetrics) : Resource × String := (rm.Resource, rm.SchemaUrl)

/-- What identifies a scope entry and is never written by the processor: the scope and the
schema URL. -/
def scopeKey (ilm : ScopeMetrics) : InstrumentationScope × String := (ilm.Scope, ilm.SchemaUrl)

/-- What identifies a metric and is never written by the processor: name, description, unit
and data type. -/
def metricKey (m : Metric) : String × String × String × MetricDataType :=
  (m.Name, m.Description, m.Unit, m.DataType)

/-- What identifies the data points of a metric, in order, and is never written by the
processor: the attributes and the timestamp of each point. -/
def Metric.pointKeys (m : Metric) : List (AttrMap × Nat) :=
  match m.Data with
  | .none => []
  | .gauge dps => dps.map (fun p => (p.Attributes, p.Timestamp))
  | .sum s => s.DataPoints.map (fun p => (p.Attributes, p.Timestamp))
  | .histogram h => h.DataPoints.map (fun p => (p.Attributes, p.Timestamp))
  | .exponentialHistogram e => e.DataPoints.map (fun p => (p.Attributes, p.Timestamp))
  | .summary dps => dps.map (fun p => (p.Attributes, p.Timestamp))

/-- The number of data points of a scope entry. -/
def ScopeMetrics.pointCount (ilm : ScopeMetrics) : Nat :=
  (ilm.Metrics.map Metric.pointCount).sum

/-- The number of data points of a resource entry. -/
def ResourceMetrics.pointCount (rm : ResourceMetrics) : Nat :=
  (rm.ScopeMetrics.map ScopeMetrics.pointCount).sum

/-- The number of data points of a batch. -/
def Metrics.pointCount (md : Metrics) : Nat :=
  (md.ResourceMetrics.map ResourceMetrics.pointCount).sum

/-! ## Lemmas on `RemoveIf` -/

theorem RemoveIf_nil {α σ : Type} (f : σ → α → (Bool × α) × σ) (st : σ) :
    RemoveIf f st [] = ([], st) := rfl

theorem RemoveIf_cons {α σ : Type} (f : σ → α → (Bool × α) × σ) (st : σ) (x : α) (xs : List α) :
    RemoveIf f st (x :: xs) =
      (if (f st x).1.1 then (RemoveIf f (f st x).2 xs).1
        else (f st x).1.2 :: (RemoveIf f (f st x).2 xs).1,
        (RemoveIf f (f st x).2 xs).2) := rfl

theorem RemoveIf_append {α σ : Type} (f : σ → α → (Bool × α) × σ) (xs ys : List α) (st : σ) :
    RemoveIf f st (xs ++ ys) =
      ((RemoveIf f st xs).1 ++ (RemoveIf f (RemoveIf f st xs).2 ys).1,
        (RemoveIf f (RemoveIf f st xs).2 ys).2) := by
  induction xs generalizing st with
  | nil => simp [RemoveIf_nil]
  | cons x xs ih =>
    rw [List.cons_append, RemoveIf_cons, RemoveIf_cons, ih (f st x).2]
    split <;> simp

theorem exists_mem_RemoveIf {α σ : Type} (f : σ → α → (Bool × α) × σ) (Q : α → Prop)
    (x : α) (xs : List α) (hx : x ∈ xs)
    (hf : ∀ s, (f s x).1.1 = false ∧ Q (f s x).1.2) (st : σ) :
    ∃ y ∈ (RemoveIf f st xs).1, Q y := by
  induction xs generalizing st with
  | nil => cases hx
  | cons a as ih =>
    rcases List.mem_cons.1 hx with rfl | h
    · refine ⟨(f st x).1.2, ?_, (hf st).2⟩
      simp [RemoveIf_cons, (hf st).1]
    · obtain ⟨y, hy, hq⟩ := ih h (f st a).2
      refine ⟨y, ?_, hq⟩
      rw [RemoveIf_cons]
      split <;> simp [hy]

theorem mem_RemoveIf {α σ : Type} (f : σ → α → (Bool × α) × σ) (xs : List α) (st : σ) (y : α)
    (hy : y ∈ (RemoveIf f st xs).1) :
    ∃ x ∈ xs, ∃ s, (f s x).1.1 = false ∧ (f s x).1.2 = y := by
  induction xs generalizing st with
  | nil => simp [RemoveIf_nil] at hy
  | cons a as ih =>
    rw [RemoveIf_cons] at hy
    by_cases hr : (f st a).1.1 = true
    · rw [if_pos hr] at hy
      obtain ⟨x, hx, s, hs⟩ := ih (f st a).2 hy
      exact ⟨x, List.mem_cons_of_mem _ hx, s, hs⟩
    · rw [if_neg hr] at hy
      rcases List.mem_cons.1 hy with h | h
      · exact ⟨a, List.mem_cons_self _ _, st, by simpa using hr, h.symm⟩
      · obtain ⟨x, hx, s, hs⟩ := ih (f st a).2 h
        exact ⟨x, List.mem_cons_of_mem _ hx, s, hs⟩

/-! ## The metric callback on a metric it does not convert -/

theorem processMetric_of_not_convertible {σ : Type} (ctdp : cumulativeToDeltaProcessor)
    (conv : ConvertFn σ) (resource : Resource) (scope : InstrumentationScope) (st : σ)
    (m : Metric) (h : convertible ctdp m = false) :
    processMetric ctdp conv resource scope st m = ((false, m), st) := by
  unfold processMetric
  unfold convertible at h
  cases hs : shouldConvertMetric ctdp m.Name
  · simp
  · rw [hs] at h
    cases hd : m.Data with
    | sum s =>
      rw [hd] at h
      by_cases h1 : s.AggregationTemporality = .Cumulative <;>
        cases h2 : s.IsMonotonic <;> simp_all
    | histogram hg =>
      rw [hd] at h
      by_cases h1 : hg.AggregationTemporality = .Cumulative <;>
        cases h2 : ctdp.histogramSupportEnabled <;>
        cases h3 : hg.DataPoints <;> simp_all
    | none => simp
    | gauge _ => simp
    | exponentialHistogram _ => simp
    | summary _ => simp

theorem RemoveIf_middle {α σ : Type} (f : σ → α → (Bool × α) × σ) (pre post : List α) (x : α)
    (st : σ) :
    (RemoveIf f st (pre ++ x :: post)).1 =
      (RemoveIf f st pre).1 ++
        (if (f (RemoveIf f st pre).2 x).1.1 then [] else [(f (RemoveIf f st pre).2 x).1.2]) ++
        (RemoveIf f (f (RemoveIf f st pre).2 x).2 post).1 := by
  rw [RemoveIf_append, RemoveIf_cons]
  split <;> simp

/-! ## The data point callbacks -/

theorem convertDataPoint_of_nan {σ : Type} (conv : ConvertFn σ) (base : MetricIdentity) (st : σ)
    (dp : NumberDataPoint) (h : isNaNPoint dp = true) :
    convertDataPoint conv base st dp = ((false, dp), st) := by
  unfold isNaNPoint at h
  simp only [Bool.and_eq_true, beq_iff_eq] at h
  simp [convertDataPoint, numberPointIdentity, MetricIdentity.IsFloatVal, h.1, h.2]

theorem submitNumberPoint_eq {σ : Type} (conv : ConvertFn σ) (id : MetricIdentity)
    (point : ValuePoint) (st : σ) (dp : NumberDataPoint) :
    submitNumberPoint conv id point st dp =
      (if (conv st { Identity := id, Value := point }).1.2 then
        ((false,
          { dp with
            StartTimestamp := (conv st { Identity := id, Value := point }).1.1.StartTimestamp
            Value :=
              if id.IsFloatVal then
                .double (conv st { Identity := id, Value := point }).1.1.FloatValue
              else .int (conv st { Identity := id, Value := point }).1.1.IntValue }),
          (conv st { Identity := id, Value := point }).2)
      else ((true, dp), (conv st { Identity := id, Value := point }).2)) := by
  unfold submitNumberPoint
  generalize conv st { Identity := id, Value := point } = r
  obtain ⟨⟨d, v⟩, s2⟩ := r
  cases v <;> cases id.IsFloatVal <;>
    simp [NumberDataPoint.SetStartTimestamp, NumberDataPoint.SetDoubleVal,
      NumberDataPoint.SetIntVal]

theorem convertDataPoint_eq_submit {σ : Type} (conv : ConvertFn σ) (base : MetricIdentity)
    (st : σ) (dp : NumberDataPoint) (h : isNaNPoint dp = false) :
    convertDataPoint conv base st dp =
      submitNumberPoint conv (numberMetricPoint base dp).Identity
        (numberMetricPoint base dp).Value st dp := by
  unfold isNaNPoint at h
  by_cases hd : dp.ValueType = .Double
  · have hn : dp.DoubleVal.IsNaN = false := by simpa [hd] using h
    simp [convertDataPoint, numberPointIdentity, MetricIdentity.IsFloatVal, hd, hn,
      numberMetricPoint]
  · simp [convertDataPoint, numberPointIdentity, MetricIdentity.IsFloatVal, hd,
      numberMetricPoint]

theorem convertDataPoint_of_submitted {σ : Type} (conv : ConvertFn σ) (base : MetricIdentity)
    (st : σ) (dp : NumberDataPoint) (h : isNaNPoint dp = false) :
    convertDataPoint conv base st dp =
      (if (conv st (numberMetricPoint base dp)).1.2 then
        ((false,
          { dp with
            StartTimestamp := (conv st (numberMetricPoint base dp)).1.1.StartTimestamp
            Value :=
              if dp.ValueType = .Double then
                .double (conv st (numberMetricPoint base dp)).1.1.FloatValue
              else .int (conv st (numberMetricPoint base dp)).1.1.IntValue }),
          (conv st (numberMetricPoint base dp)).2)
      else ((true, dp), (conv st (numberMetricPoint base dp)).2)) := by
  rw [convertDataPoint_eq_submit conv base st dp h, submitNumberPoint_eq]
  have hf : (numberMetricPoint base dp).Identity.IsFloatVal = true ↔ dp.ValueType = .Double := by
    simp [numberMetricPoint, numberPointIdentity, MetricIdentity.IsFloatVal]
  by_cases hd : dp.ValueType = .Double
  · simp only [hf.2 hd, hd, if_true]
  · have hfalse : (numberMetricPoint base dp).Identity.IsFloatVal = false := by
      cases hx : (numberMetricPoint base dp).Identity.IsFloatVal
      · rfl
      · exact absurd (hf.1 hx) hd
    simp only [hfalse, hd, if_false, Bool.false_eq_true]

theorem convertHistogramDataPoint_eq {σ : Type} (conv : ConvertFn σ) (base : MetricIdentity)
    (st : σ) (dp : HistogramDataPoint) :
    convertHistogramDataPoint conv base st dp =
      (if (conv st (histogramMetricPoint base dp)).1.2 then
        ((false,
          { dp with
            StartTimestamp := (conv st (histogramMetricPoint base dp)).1.1.StartTimestamp
            Count := (conv st (histogramMetricPoint base dp)).1.1.HistogramValue.Count
            OptSum :=
              if dp.HasSum && !dp.Sum.IsNaN then
                some (conv st (histogramMetricPoint base dp)).1.1.HistogramValue.Sum
              else dp.OptSum
            BucketCounts := (conv st (histogramMetricPoint base dp)).1.1.HistogramValue.Buckets }),
          (conv st (histogramMetricPoint base dp)).2)
      else ((true, dp), (conv st (histogramMetricPoint base dp)).2)) := by
  unfold convertHistogramDataPoint
  have hmp : ({ Identity := histogramPointIdentity base dp, Value := histogramValuePoint dp } :
      MetricPoint) = histogramMetricPoint base dp := rfl
  simp only [hmp]
  generalize conv st (histogramMetricPoint base dp) = r
  obtain ⟨⟨d, v⟩, s2⟩ := r
  cases v
  · simp
  · simp only [HistogramDataPoint.SetStartTimestamp, HistogramDataPoint.SetCount,
      HistogramDataPoint.SetBucketCounts, HistogramDataPoint.SetSum, HistogramDataPoint.HasSum,
      HistogramDataPoint.Sum]
    generalize (dp.OptSum.isSome && !(dp.OptSum.getD Float64.zero).IsNaN) = c
    cases c <;> simp

theorem Convert_of_lookup_none (fa : FloatArith) (ts : TrackerState) (mp : MetricPoint)
    (h : ts.lookup mp.Identity = none) :
    Convert fa ts mp = (({}, false), ts.store mp.Identity mp.Value) := by
  simp [Convert, h]

/-! ## The container callbacks -/

theorem processMetric_of_sum {σ : Type} (ctdp : cumulativeToDeltaProcessor) (conv : ConvertFn σ)
    (resource : Resource) (scope : InstrumentationScope) (st : σ) (m : Metric) (ms : Sum)
    (hd : m.Data = .sum ms) (hc : convertible ctdp m = true) :
    processMetric ctdp conv resource scope st m =
      (((convertDataPoints conv (sumBaseIdentity resource scope m ms) st
          ms.DataPoints).1.length == 0,
        { m with
          Data := .sum
            { ms with
              DataPoints :=
                (convertDataPoints conv (sumBaseIdentity resource scope m ms) st ms.DataPoints).1
              AggregationTemporality := .Delta } }),
        (convertDataPoints conv (sumBaseIdentity resource scope m ms) st ms.DataPoints).2) := by
  unfold convertible at hc
  rw [hd] at hc
  simp only [Bool.and_eq_true, beq_iff_eq] at hc
  obtain ⟨h1, h2, h3⟩ := hc
  unfold processMetric
  simp [hd, h1, h2, h3]

theorem processMetric_of_histogram {σ : Type} (ctdp : cumulativeToDeltaProcessor)
    (conv : ConvertFn σ) (resource : Resource) (scope : InstrumentationScope) (st : σ)
    (m : Metric) (ms : Histogram) (hd : m.Data = .histogram ms)
    (hc : convertible ctdp m = true) :
    processMetric ctdp conv resource scope st m =
      (((convertHistogramDataPoints conv (histogramBaseIdentity resource scope m) st
          ms.DataPoints).1.length == 0,
        { m with
          Data := .histogram
            { ms with
              DataPoints :=
                (convertHistogramDataPoints conv (histogramBaseIdentity resource scope m) st
                  ms.DataPoints).1
              AggregationTemporality := .Delta } }),
        (convertHistogramDataPoints conv (histogramBaseIdentity resource scope m) st
          ms.DataPoints).2) := by
  unfold convertible at hc
  rw [hd] at hc
  simp only [Bool.and_eq_true, beq_iff_eq, Bool.not_eq_true', List.isEmpty_eq_false] at hc
  obtain ⟨h1, ⟨h2, h3⟩, h4⟩ := hc
  have h5 : ms.DataPoints.length ≠ 0 := by
    intro h
    exact h4 (List.length_eq_zero.1 h)
  unfold processMetric
  simp [hd, h1, h2, h3, h4]

theorem convertible_data {ctdp : cumulativeToDeltaProcessor} {m : Metric}
    (hc : convertible ctdp m = true) :
    (∃ ms, m.Data = .sum ms) ∨ (∃ ms, m.Data = .histogram ms) := by
  unfold convertible at hc
  cases hd : m.Data with
  | sum ms => exact Or.inl ⟨ms, rfl⟩
  | histogram ms => exact Or.inr ⟨ms, rfl⟩
  | none => simp [hd] at hc
  | gauge _ => simp [hd] at hc
  | exponentialHistogram _ => simp [hd] at hc
  | summary _ => simp [hd] at hc

theorem processMetric_converted {σ : Type} (ctdp : cumulativeToDeltaProcessor)
    (conv : ConvertFn σ) (resource : Resource) (scope : InstrumentationScope) (st : σ)
    (m : Metric) (hc : convertible ctdp m = true) :
    ((processMetric ctdp conv resource scope st m).1.1 = true ↔
      (processMetric ctdp conv resource scope st m).1.2.pointCount = 0) ∧
    (processMetric ctdp conv resource scope st m).1.2.temporality = some .Delta := by
  rcases convertible_data hc with ⟨ms, hd⟩ | ⟨ms, hd⟩
  · rw [processMetric_of_sum ctdp conv resource scope st m ms hd hc]
    simp [Metric.pointCount, Metric.temporality]
  · rw [processMetric_of_histogram ctdp conv resource scope st m ms hd hc]
    simp [Metric.pointCount, Metric.temporality]

theorem processMetrics_provenance {σ : Type} (ctdp : cumulativeToDeltaProcessor)
    (conv : ConvertFn σ) (st : σ) (md : Metrics) (rmOut : ResourceMetrics)
    (hrm : rmOut ∈ (processMetrics ctdp conv st md).1.1.ResourceMetrics) :
    ∃ rm ∈ md.ResourceMetrics, ∃ s1,
      (processResourceMetrics ctdp conv s1 rm).1.1 = false ∧
      (processResourceMetrics ctdp conv s1 rm).1.2 = rmOut ∧
      ∀ ilmOut ∈ rmOut.ScopeMetrics, ∃ ilm ∈ rm.ScopeMetrics, ∃ s2,
        (processScopeMetrics ctdp conv rm.Resource s2 ilm).1.1 = false ∧
        (processScopeMetrics ctdp conv rm.Resource s2 ilm).1.2 = ilmOut ∧
        ∀ mOut ∈ ilmOut.Metrics, ∃ m ∈ ilm.Metrics, ∃ s3,
          (processMetric ctdp conv rm.Resource ilm.Scope s3 m).1.1 = false ∧
          (processMetric ctdp conv rm.Resource ilm.Scope s3 m).1.2 = mOut := by
  obtain ⟨rm, hrmIn, s1, hk1, he1⟩ := mem_RemoveIf _ _ _ _ hrm
  refine ⟨rm, hrmIn, s1, hk1, he1, ?_⟩
  intro ilmOut hilm
  rw [← he1] at hilm
  obtain ⟨ilm, hilmIn, s2, hk2, he2⟩ := mem_RemoveIf _ _ _ _ hilm
  refine ⟨ilm, hilmIn, s2, hk2, he2, ?_⟩
  intro mOut hm
  rw [← he2] at hm
  exact mem_RemoveIf _ _ _ _ hm

theorem exists_metric_in_output {σ : Type} (ctdp : cumulativeToDeltaProcessor)
    (conv : ConvertFn σ) (st : σ) (md : Metrics) (rm : ResourceMetrics) (ilm : ScopeMetrics)
    (m : Metric) (Q : Metric → Prop) (hrm : rm ∈ md.ResourceMetrics)
    (hilm : ilm ∈ rm.ScopeMetrics) (hm : m ∈ ilm.Metrics)
    (hkeep : ∀ s, (processMetric ctdp conv rm.Resource ilm.Scope s m).1.1 = false ∧
      Q (processMetric ctdp conv rm.Resource ilm.Scope s m).1.2) :
    ∃ rmOut ∈ (processMetrics ctdp conv st md).1.1.ResourceMetrics,
      rmOut.Resource = rm.Resource ∧
      ∃ ilmOut ∈ rmOut.ScopeMetrics, ilmOut.Scope = ilm.Scope ∧
      ∃ mOut ∈ ilmOut.Metrics, Q mOut := by
  have hscope : ∀ s : σ, ∃ y ∈ (RemoveIf (processScopeMetrics ctdp conv rm.Resource) s
      rm.ScopeMetrics).1, y.Scope = ilm.Scope ∧ ∃ mOut ∈ y.Metrics, Q mOut := by
    intro s
    refine exists_mem_RemoveIf (processScopeMetrics ctdp conv rm.Resource)
      (fun y => y.Scope = ilm.Scope ∧ ∃ mOut ∈ y.Metrics, Q mOut) ilm rm.ScopeMetrics hilm
      (fun t => ?_) s
    obtain ⟨y, hy, hq⟩ := exists_mem_RemoveIf (processMetric ctdp conv rm.Resource ilm.Scope)
      Q m ilm.Metrics hm hkeep t
    refine ⟨?_, rfl, y, hy, hq⟩
    simp only [processScopeMetrics]
    cases hl : (RemoveIf (processMetric ctdp conv rm.Resource ilm.Scope) t ilm.Metrics).1 with
    | nil => rw [hl] at hy; cases hy
    | cons a l => simp
  refine exists_mem_RemoveIf (processResourceMetrics ctdp conv)
    (fun y => y.Resource = rm.Resource ∧
      ∃ ilmOut ∈ y.ScopeMetrics, ilmOut.Scope = ilm.Scope ∧ ∃ mOut ∈ ilmOut.Metrics, Q mOut)
    rm md.ResourceMetrics hrm (fun t => ?_) st
  obtain ⟨y, hy, hq⟩ := hscope t
  refine ⟨?_, rfl, y, hy, hq⟩
  simp only [processResourceMetrics]
  cases hl : (RemoveIf (processScopeMetrics ctdp conv rm.Resource) t rm.ScopeMetrics).1 with
  | nil => rw [hl] at hy; cases hy
  | cons a l => simp

/-! ## The log of submitted points -/

theorem flatten_map_singleton {α β : Type} (f : α → β) (xs : List α) :
    (xs.map (fun x => [f x])).flatten = xs.map f := by
  induction xs with
  | nil => rfl
  | cons x xs ih => simp [ih]

theorem RemoveIf_recording {α σ : Type} (f : σ → α → (Bool × α) × σ)
    (fr : σ × List MetricPoint → α → (Bool × α) × (σ × List MetricPoint))
    (g : α → List MetricPoint)
    (h : ∀ s log x, fr (s, log) x = ((f s x).1, ((f s x).2, log ++ g x)))
    (xs : List α) (s : σ) (log : List MetricPoint) :
    RemoveIf fr (s, log) xs =
      ((RemoveIf f s xs).1, ((RemoveIf f s xs).2, log ++ (xs.map g).flatten)) := by
  induction xs generalizing s log with
  | nil => simp [RemoveIf_nil]
  | cons x xs ih =>
    rw [RemoveIf_cons, RemoveIf_cons, h s log x]
    simp only [ih, List.map_cons, List.flatten_cons, List.append_assoc]

theorem convertDataPoint_recording {σ : Type} (conv : ConvertFn σ) (base : MetricIdentity)
    (s : σ) (log : List MetricPoint) (dp : NumberDataPoint) :
    convertDataPoint (recording conv) base (s, log) dp =
      ((convertDataPoint conv base s dp).1,
        ((convertDataPoint conv base s dp).2, log ++ pointSubmissions base dp)) := by
  cases hn : isNaNPoint dp
  · rw [convertDataPoint_of_submitted _ base _ dp hn,
      convertDataPoint_of_submitted conv base s dp hn]
    simp only [recording, pointSubmissions, hn]
    cases (conv s (numberMetricPoint base dp)).1.2 <;> simp
  · rw [convertDataPoint_of_nan _ base _ dp hn, convertDataPoint_of_nan conv base s dp hn]
    simp [pointSubmissions, hn]

theorem convertHistogramDataPoint_recording {σ : Type} (conv : ConvertFn σ)
    (base : MetricIdentity) (s : σ) (log : List MetricPoint) (dp : HistogramDataPoint) :
    convertHistogramDataPoint (recording conv) base (s, log) dp =
      ((convertHistogramDataPoint conv base s dp).1,
        ((convertHistogramDataPoint conv base s dp).2,
          log ++ [histogramMetricPoint base dp])) := by
  rw [convertHistogramDataPoint_eq, convertHistogramDataPoint_eq conv base s dp]
  simp only [recording]
  cases (conv s (histogramMetricPoint base dp)).1.2 <;> simp

theorem processMetric_recording {σ : Type} (ctdp : cumulativeToDeltaProcessor)
    (conv : ConvertFn σ) (resource : Resource) (scope : InstrumentationScope) (s : σ)
    (log : List MetricPoint) (m : Metric) :
    processMetric ctdp (recording conv) resource scope (s, log) m =
      ((processMetric ctdp conv resource scope s m).1,
        ((processMetric ctdp conv resource scope s m).2,
          log ++ metricSubmissions ctdp resource scope m)) := by
  cases hc : convertible ctdp m
  · rw [processMetric_of_not_convertible ctdp _ _ _ _ m hc,
      processMetric_of_not_convertible ctdp conv _ _ _ m hc]
    simp [metricSubmissions, hc]
  · rcases convertible_data hc with ⟨ms, hd⟩ | ⟨ms, hd⟩
    · rw [processMetric_of_sum ctdp _ resource scope _ m ms hd hc,
        processMetric_of_sum ctdp conv resource scope s m ms hd hc]
      unfold convertDataPoints
      rw [RemoveIf_recording _ _ _ (convertDataPoint_recording conv _)]
      simp [metricSubmissions, hc, hd]
    · rw [processMetric_of_histogram ctdp _ resource scope _ m ms hd hc,
        processMetric_of_histogram ctdp conv resource scope s m ms hd hc]
      unfold convertHistogramDataPoints
      rw [RemoveIf_recording _ _ _ (convertHistogramDataPoint_recording conv _),
        flatten_map_singleton]
      simp [metricSubmissions, hc, hd]

theorem processScopeMetrics_recording {σ : Type} (ctdp : cumulativeToDeltaProcessor)
    (conv : ConvertFn σ) (resource : Resource) (s : σ) (log : List MetricPoint)
    (ilm : ScopeMetrics) :
    processScopeMetrics ctdp (recording conv) resource (s, log) ilm =
      ((processScopeMetrics ctdp conv resource s ilm).1,
        ((processScopeMetrics ctdp conv resource s ilm).2,
          log ++ scopeSubmissions ctdp resource ilm)) := by
  unfold processScopeMetrics
  rw [RemoveIf_recording _ _ _ (processMetric_recording ctdp conv resource ilm.Scope)]
  rfl

theorem processResourceMetrics_recording {σ : Type} (ctdp : cumulativeToDeltaProcessor)
    (conv : ConvertFn σ) (s : σ) (log : List MetricPoint) (rm : ResourceMetrics) :
    processResourceMetrics ctdp (recording conv) (s, log) rm =
      ((processResourceMetrics ctdp conv s rm).1,
        ((processResourceMetrics ctdp conv s rm).2, log ++ resourceSubmissions ctdp rm)) := by
  unfold processResourceMetrics
  rw [RemoveIf_recording _ _ _ (processScopeMetrics_recording ctdp conv rm.Resource)]
  rfl

/-! ## Series equality -/

theorem beqProd_eq {α β : Type} [DecidableEq α] [DecidableEq β] :
    (instBEqProd : BEq (α × β)) = instBEqOfDecidableEq := by
  have h : ∀ a b : α × β, @BEq.beq _ instBEqProd a b = @BEq.beq _ instBEqOfDecidableEq a b := by
    intro a b
    obtain ⟨a1, a2⟩ := a
    obtain ⟨b1, b2⟩ := b
    show (a1 == b1 && a2 == b2) = decide ((a1, a2) = (b1, b2))
    rw [Bool.eq_iff_iff]
    simp
  show BEq.mk _ = BEq.mk _
  congr
  funext a b
  exact h a b

theorem attributes_isPerm_iff (l₁ l₂ : AttrMap) : l₁.isPerm l₂ = true ↔ List.Perm l₁ l₂ := by
  rw [beqProd_eq]
  exact List.isPerm_iff

theorem sameSeries_iff (a b : MetricIdentity) :
    sameSeries a b = true ↔
      a.Resource = b.Resource ∧ a.InstrumentationLibrary = b.InstrumentationLibrary ∧
      a.MetricName = b.MetricName ∧ a.MetricUnit = b.MetricUnit ∧
      a.MetricDataType = b.MetricDataType ∧ a.MetricIsMonotonic = b.MetricIsMonotonic ∧
      a.MetricValueType = b.MetricValueType ∧ List.Perm a.Attributes b.Attributes := by
  unfold sameSeries
  simp only [Bool.and_eq_true, beq_iff_eq]
  constructor
  · rintro ⟨⟨⟨⟨⟨⟨⟨h1, h2⟩, h3⟩, h4⟩, h5⟩, h6⟩, h7⟩, h8⟩
    exact ⟨h1, h2, h3, h4, h5, h6, h7, (attributes_isPerm_iff _ _).1 h8⟩
  · rintro ⟨h1, h2, h3, h4, h5, h6, h7, h8⟩
    exact ⟨⟨⟨⟨⟨⟨⟨h1, h2⟩, h3⟩, h4⟩, h5⟩, h6⟩, h7⟩, (attributes_isPerm_iff _ _).2 h8⟩

theorem sameSeries_refl (a : MetricIdentity) : sameSeries a a = true :=
  (sameSeries_iff a a).2 ⟨rfl, rfl, rfl, rfl, rfl, rfl, rfl, List.Perm.refl _⟩

theorem sameSeries_symm {a b : MetricIdentity} (h : sameSeries a b = true) :
    sameSeries b a = true := by
  obtain ⟨h1, h2, h3, h4, h5, h6, h7, h8⟩ := (sameSeries_iff a b).1 h
  exact (sameSeries_iff b a).2 ⟨h1.symm, h2.symm, h3.symm, h4.symm, h5.symm, h6.symm, h7.symm,
    h8.symm⟩

theorem sameSeries_trans {a b c : MetricIdentity} (hab : sameSeries a b = true)
    (hbc : sameSeries b c = true) : sameSeries a c = true := by
  obtain ⟨h1, h2, h3, h4, h5, h6, h7, h8⟩ := (sameSeries_iff a b).1 hab
  obtain ⟨k1, k2, k3, k4, k5, k6, k7, k8⟩ := (sameSeries_iff b c).1 hbc
  exact (sameSeries_iff a c).2 ⟨h1.trans k1, h2.trans k2, h3.trans k3, h4.trans k4,
    h5.trans k5, h6.trans k6, h7.trans k7, h8.trans k8⟩

theorem flatten_map_pointSubmissions (base : MetricIdentity) (dps : List NumberDataPoint) :
    (dps.map (pointSubmissions base)).flatten =
      (dps.filter (fun p => !isNaNPoint p)).map (numberMetricPoint base) := by
  induction dps with
  | nil => rfl
  | cons p dps ih =>
    cases hp : isNaNPoint p <;> simp [pointSubmissions, hp, ih]

/-! ## The entry store -/

theorem find?_filter_of_imp {α : Type} (p q : α → Bool) (h : ∀ x, p x = true → q x = true)
    (l : List α) : (l.filter q).find? p = l.find? p := by
  induction l with
  | nil => rfl
  | cons a l ih =>
    cases hq : q a
    · have hp : p a = false := by
        cases hpa : p a
        · rfl
        · rw [h a hpa] at hq
          cases hq
      simp [List.filter_cons, hq, List.find?_cons, hp, ih]
    · cases hp : p a <;> simp [List.filter_cons, hq, List.find?_cons, hp, ih]

theorem find?_congr_pred {α : Type} (p q : α → Bool) (h : ∀ x, p x = q x) (l : List α) :
    l.find? p = l.find? q := by
  have : p = q := funext h
  rw [this]

theorem lookup_store_same (st : TrackerState) (id id2 : MetricIdentity) (p : ValuePoint)
    (h : sameSeries id id2 = true) :
    (st.store id p).lookup id2 = some ⟨id, p, st.Now⟩ := by
  simp [TrackerState.lookup, TrackerState.store, List.find?_cons, h]

theorem lookup_store_other (st : TrackerState) (id id2 : MetricIdentity) (p : ValuePoint)
    (h : sameSeries id id2 = false) :
    (st.store id p).lookup id2 = st.lookup id2 := by
  simp only [TrackerState.lookup, TrackerState.store, List.find?_cons, h]
  apply find?_filter_of_imp
  intro e he
  cases hx : sameSeries e.Identity id
  · rfl
  · have := sameSeries_trans (sameSeries_symm hx) he
    rw [this] at h
    cases h

theorem lookup_congr (st : TrackerState) (id id2 : MetricIdentity)
    (h : sameSeries id id2 = true) : st.lookup id = st.lookup id2 := by
  unfold TrackerState.lookup
  apply find?_congr_pred
  intro e
  cases h1 : sameSeries e.Identity id
  · cases h2 : sameSeries e.Identity id2
    · rfl
    · rw [sameSeries_trans h2 (sameSeries_symm h)] at h1
      cases h1
  · exact (sameSeries_trans h1 h).symm

theorem Convert_of_not_after (fa : FloatArith) (st : TrackerState) (mp : MetricPoint)
    (e : TrackerEntry) (he : st.lookup mp.Identity = some e)
    (hts : mp.Value.ObservedTimestamp ≤ e.Point.ObservedTimestamp) :
    Convert fa st mp = (({}, false), st) := by
  simp [Convert, he, hts]

theorem Convert_of_reset (fa : FloatArith) (st : TrackerState) (mp : MetricPoint)
    (e : TrackerEntry) (he : st.lookup mp.Identity = some e)
    (hts : e.Point.ObservedTimestamp < mp.Value.ObservedTimestamp)
    (hnan : (mp.Identity.IsFloatVal && mp.Value.FloatValue.IsNaN) = false)
    (hr : (mp.Identity.MetricIsMonotonic && isReset fa mp.Identity mp.Value e.Point) = true) :
    Convert fa st mp =
      ((resetDelta e.Point.ObservedTimestamp mp.Value, true),
        st.store mp.Identity mp.Value) := by
  have h1 : ¬ mp.Value.ObservedTimestamp ≤ e.Point.ObservedTimestamp := Nat.not_le.2 hts
  simp only [Convert, he, h1, hnan, hr, if_false, if_true, Bool.false_eq_true]

theorem Convert_of_advance (fa : FloatArith) (st : TrackerState) (mp : MetricPoint)
    (e : TrackerEntry) (he : st.lookup mp.Identity = some e)
    (hts : e.Point.ObservedTimestamp < mp.Value.ObservedTimestamp)
    (hnan : (mp.Identity.IsFloatVal && mp.Value.FloatValue.IsNaN) = false)
    (hr : (mp.Identity.MetricIsMonotonic && isReset fa mp.Identity mp.Value e.Point) = false) :
    Convert fa st mp =
      ((advanceDelta fa mp.Identity e.Point.ObservedTimestamp mp.Value e.Point, true),
        st.store mp.Identity mp.Value) := by
  have h1 : ¬ mp.Value.ObservedTimestamp ≤ e.Point.ObservedTimestamp := Nat.not_le.2 hts
  simp only [Convert, he, h1, hnan, hr, if_false, Bool.false_eq_true]

theorem subInt64_of_inRange (a b : Int) (h1 : -(2 ^ 63) ≤ a - b) (h2 : a - b < 2 ^ 63) :
    subInt64 a b = a - b := by
  unfold subInt64
  norm_num at h1 h2 ⊢
  omega

/-! ## Scalar deltas of the tracker -/

theorem Convert_int_advance (fa : FloatArith) (st : TrackerState) (mp : MetricPoint)
    (e : TrackerEntry) (he : st.lookup mp.Identity = some e)
    (hts : e.Point.ObservedTimestamp < mp.Value.ObservedTimestamp)
    (hint : mp.Identity.IsFloatVal = false) (hnh : mp.Value.HistogramValue = none)
    (hle : e.Point.IntValue ≤ mp.Value.IntValue) :
    Convert fa st mp =
      (({ StartTimestamp := e.Point.ObservedTimestamp
          IntValue := subInt64 mp.Value.IntValue e.Point.IntValue }, true),
        st.store mp.Identity mp.Value) := by
  have hr : (mp.Identity.MetricIsMonotonic && isReset fa mp.Identity mp.Value e.Point)
      = false := by
    have : isReset fa mp.Identity mp.Value e.Point = false := by
      simp [isReset, hnh, hint, Int.not_lt.2 hle]
    simp [this]
  rw [Convert_of_advance fa st mp e he hts (by simp [hint]) hr]
  simp [advanceDelta, hnh, hint]

theorem Convert_int_reset (fa : FloatArith) (st : TrackerState) (mp : MetricPoint)
    (e : TrackerEntry) (he : st.lookup mp.Identity = some e)
    (hts : e.Point.ObservedTimestamp < mp.Value.ObservedTimestamp)
    (hint : mp.Identity.IsFloatVal = false) (hmono : mp.Identity.MetricIsMonotonic = true)
    (hnh : mp.Value.HistogramValue = none) (hlt : mp.Value.IntValue < e.Point.IntValue) :
    Convert fa st mp =
      (({ StartTimestamp := e.Point.ObservedTimestamp
          FloatValue := mp.Value.FloatValue
          IntValue := mp.Value.IntValue }, true),
        st.store mp.Identity mp.Value) := by
  have hr : (mp.Identity.MetricIsMonotonic && isReset fa mp.Identity mp.Value e.Point)
      = true := by
    simp [isReset, hnh, hint, hlt, hmono]
  rw [Convert_of_reset fa st mp e he hts (by simp [hint]) hr]
  simp [resetDelta, hnh]

theorem Convert_float_advance (fa : FloatArith) (st : TrackerState) (mp : MetricPoint)
    (e : TrackerEntry) (he : st.lookup mp.Identity = some e)
    (hts : e.Point.ObservedTimestamp < mp.Value.ObservedTimestamp)
    (hfl : mp.Identity.IsFloatVal = true) (hnan : mp.Value.FloatValue.IsNaN = false)
    (hnh : mp.Value.HistogramValue = none)
    (hge : fa.lt mp.Value.FloatValue e.Point.FloatValue = false) :
    Convert fa st mp =
      (({ StartTimestamp := e.Point.ObservedTimestamp
          FloatValue := fa.sub mp.Value.FloatValue e.Point.FloatValue }, true),
        st.store mp.Identity mp.Value) := by
  have hr : (mp.Identity.MetricIsMonotonic && isReset fa mp.Identity mp.Value e.Point)
      = false := by
    have : isReset fa mp.Identity mp.Value e.Point = false := by
      simp [isReset, hnh, hfl, hge]
    simp [this]
  rw [Convert_of_advance fa st mp e he hts (by simp [hnan]) hr]
  simp [advanceDelta, hnh, hfl]

theorem Convert_float_reset (fa : FloatArith) (st : TrackerState) (mp : MetricPoint)
    (e : TrackerEntry) (he : st.lookup mp.Identity = some e)
    (hts : e.Point.ObservedTimestamp < mp.Value.ObservedTimestamp)
    (hfl : mp.Identity.IsFloatVal = true) (hnan : mp.Value.FloatValue.IsNaN = false)
    (hmono : mp.Identity.MetricIsMonotonic = true) (hnh : mp.Value.HistogramValue = none)
    (hlt : fa.lt mp.Value.FloatValue e.Point.FloatValue = true) :
    Convert fa st mp =
      (({ StartTimestamp := e.Point.ObservedTimestamp
          FloatValue := mp.Value.FloatValue
          IntValue := mp.Value.IntValue }, true),
        st.store mp.Identity mp.Value) := by
  have hr : (mp.Identity.MetricIsMonotonic && isReset fa mp.Identity mp.Value e.Point)
      = true := by
    simp [isReset, hnh, hfl, hlt, hmono]
  rw [Convert_of_reset fa st mp e he hts (by simp [hnan]) hr]
  simp [resetDelta, hnh]

/-! ## Histogram deltas of the tracker -/

theorem Convert_histogram_advance (fa : FloatArith) (st : TrackerState) (mp : MetricPoint)
    (e : TrackerEntry) (ch ph : HistogramPoint) (he : st.lookup mp.Identity = some e)
    (hts : e.Point.ObservedTimestamp < mp.Value.ObservedTimestamp)
    (hint : mp.Identity.IsFloatVal = false) (hc : mp.Value.HistogramValue = some ch)
    (hp : e.Point.HistogramValue = some ph) (hlen : ch.Buckets.length = ph.Buckets.length) :
    Convert fa st mp =
      (({ StartTimestamp := e.Point.ObservedTimestamp
          HistogramValue :=
            { Count := subUint64 ch.Count ph.Count
              Sum := if ch.Sum.IsNaN || ph.Sum.IsNaN then ch.Sum else fa.sub ch.Sum ph.Sum
              Buckets := List.zipWith subUint64 ch.Buckets ph.Buckets } }, true),
        st.store mp.Identity mp.Value) := by
  have hr : (mp.Identity.MetricIsMonotonic && isReset fa mp.Identity mp.Value e.Point)
      = false := by
    have : isReset fa mp.Identity mp.Value e.Point = false := by
      simp [isReset, hc, hp, hlen]
    simp [this]
  rw [Convert_of_advance fa st mp e he hts (by simp [hint]) hr]
  simp [advanceDelta, hc, hp, histogramDelta]

theorem subUint64_of_le (a b : Nat) (h1 : b ≤ a) (h2 : a < 2 ^ 64) : subUint64 a b = a - b := by
  unfold subUint64
  norm_num at h2 ⊢
  omega

/-! ## The baseline only moves forward -/

theorem Convert_state (fa : FloatArith) (st : TrackerState) (mp : MetricPoint) :
    (Convert fa st mp).2 = st ∨
    ((Convert fa st mp).2 = st.store mp.Identity mp.Value ∧
      ∀ e, st.lookup mp.Identity = some e →
        e.Point.ObservedTimestamp < mp.Value.ObservedTimestamp) := by
  unfold Convert
  cases hl : st.lookup mp.Identity with
  | none =>
    right
    exact ⟨rfl, fun e he => by cases he⟩
  | some e0 =>
    by_cases h1 : mp.Value.ObservedTimestamp ≤ e0.Point.ObservedTimestamp
    · left
      simp [h1]
    · have hlt : e0.Point.ObservedTimestamp < mp.Value.ObservedTimestamp := Nat.lt_of_not_le h1
      cases h2 : (mp.Identity.IsFloatVal && mp.Value.FloatValue.IsNaN)
      · right
        refine ⟨?_, fun e he => by cases he; exact hlt⟩
        cases h3 : (mp.Identity.MetricIsMonotonic && isReset fa mp.Identity mp.Value e0.Point) <;>
          simp only [h1, h3, if_false, if_true, Bool.false_eq_true]
      · left
        simp only [h1, if_false, if_true]

theorem Convert_lookup_mono (fa : FloatArith) (st : TrackerState) (mp : MetricPoint)
    (id : MetricIdentity) (e : TrackerEntry) (he : st.lookup id = some e) :
    ∃ e2, (Convert fa st mp).2.lookup id = some e2 ∧
      (e2 = e ∨ e.Point.ObservedTimestamp < e2.Point.ObservedTimestamp) := by
  rcases Convert_state fa st mp with h | ⟨h, hlt⟩
  · exact ⟨e, by rw [h]; exact he, Or.inl rfl⟩
  · rw [h]
    cases hs : sameSeries mp.Identity id
    · exact ⟨e, by rw [lookup_store_other st _ _ _ hs]; exact he, Or.inl rfl⟩
    · refine ⟨⟨mp.Identity, mp.Value, st.Now⟩, lookup_store_same st _ _ _ hs, Or.inr ?_⟩
      apply hlt e
      rw [lookup_congr st _ _ hs]
      exact he

theorem convertAll_lookup_mono (fa : FloatArith) (mps : List MetricPoint) (st : TrackerState)
    (id : MetricIdentity) (e : TrackerEntry) (he : st.lookup id = some e) :
    ∃ e2, (convertAll fa st mps).lookup id = some e2 ∧
      e.Point.ObservedTimestamp ≤ e2.Point.ObservedTimestamp := by
  induction mps generalizing st e with
  | nil => exact ⟨e, he, Nat.le_refl _⟩
  | cons mp mps ih =>
    obtain ⟨e1, h1, hle⟩ := Convert_lookup_mono fa st mp id e he
    obtain ⟨e2, h2, hle2⟩ := ih (Convert fa st mp).2 e1 h1
    refine ⟨e2, h2, ?_⟩
    rcases hle with rfl | hlt
    · exact hle2
    · exact Nat.le_trans (Nat.le_of_lt hlt) hle2

theorem lookup_sweep_of_stale (st : TrackerState) (maxStaleness : Nat) (id : MetricIdentity)
    (h : ∀ e ∈ st.Entries, sameSeries e.Identity id = true →
      st.Now - e.LastSeen > maxStaleness) :
    (st.sweep maxStaleness).lookup id = none := by
  simp only [TrackerState.lookup, TrackerState.sweep, List.find?_eq_none, List.mem_filter]
  intro e ⟨hmem, hkeep⟩ hs
  have := h e hmem hs
  simp [this] at hkeep

/-! ## `RemoveIf` only removes -/

theorem RemoveIf_of_keep_all {α σ : Type} (f : σ → α → (Bool × α) × σ) (xs : List α)
    (h : ∀ x ∈ xs, ∀ s, f s x = ((false, x), s)) (st : σ) :
    RemoveIf f st xs = (xs, st) := by
  induction xs generalizing st with
  | nil => rfl
  | cons x xs ih =>
    rw [RemoveIf_cons, h x (List.mem_cons_self _ _) st]
    simp [ih (fun y hy => h y (List.mem_cons_of_mem _ hy))]

theorem RemoveIf_skip {α σ : Type} (f : σ → α → (Bool × α) × σ) (pre post : List α) (x : α)
    (h : ∀ s, (f s x).1.1 = true ∧ (f s x).2 = s) (st : σ) :
    RemoveIf f st (pre ++ x :: post) = RemoveIf f st (pre ++ post) := by
  rw [RemoveIf_append, RemoveIf_append, RemoveIf_cons, (h _).1, (h _).2]
  simp

theorem RemoveIf_pass {α σ : Type} (f : σ → α → (Bool × α) × σ) (pre post : List α) (x : α)
    (h : ∀ s, f s x = ((false, x), s)) (st : σ) :
    RemoveIf f st (pre ++ x :: post) =
      ((RemoveIf f st pre).1 ++ x :: (RemoveIf f (RemoveIf f st pre).2 post).1,
        (RemoveIf f (RemoveIf f st pre).2 post).2) := by
  rw [RemoveIf_append, RemoveIf_cons, h]
  simp

theorem RemoveIf_map_sublist {α σ κ : Type} (f : σ → α → (Bool × α) × σ) (key : α → κ)
    (h : ∀ s x, key (f s x).1.2 = key x) (xs : List α) (st : σ) :
    List.Sublist ((RemoveIf f st xs).1.map key) (xs.map key) := by
  induction xs generalizing st with
  | nil => simp [RemoveIf_nil]
  | cons x xs ih =>
    rw [RemoveIf_cons]
    by_cases hr : (f st x).1.1 = true
    · simp only [hr, if_true, List.map_cons]
      exact List.Sublist.cons _ (ih _)
    · simp only [hr, if_false, List.map_cons, h st x, Bool.false_eq_true]
      exact List.Sublist.cons₂ _ (ih _)

theorem RemoveIf_weight_le {α σ : Type} (f : σ → α → (Bool × α) × σ) (w : α → Nat)
    (h : ∀ s x, w (f s x).1.2 ≤ w x) (xs : List α) (st : σ) :
    ((RemoveIf f st xs).1.map w).sum ≤ (xs.map w).sum := by
  induction xs generalizing st with
  | nil => simp [RemoveIf_nil]
  | cons x xs ih =>
    rw [RemoveIf_cons]
    by_cases hr : (f st x).1.1 = true
    · simp only [hr, if_true, List.map_cons, List.sum_cons]
      exact Nat.le_trans (ih _) (Nat.le_add_left _ _)
    · simp only [hr, if_false, List.map_cons, List.sum_cons, Bool.false_eq_true]
      exact Nat.add_le_add (h st x) (ih _)

theorem convertDataPoint_key {σ : Type} (conv : ConvertFn σ) (base : MetricIdentity) (s : σ)
    (p : NumberDataPoint) :
    (convertDataPoint conv base s p).1.2.Attributes = p.Attributes ∧
    (convertDataPoint conv base s p).1.2.Timestamp = p.Timestamp := by
  cases hn : isNaNPoint p
  · rw [convertDataPoint_of_submitted conv base s p hn]
    split <;> exact ⟨rfl, rfl⟩
  · rw [convertDataPoint_of_nan conv base s p hn]
    exact ⟨rfl, rfl⟩

theorem convertHistogramDataPoint_key {σ : Type} (conv : ConvertFn σ) (base : MetricIdentity)
    (s : σ) (p : HistogramDataPoint) :
    (convertHistogramDataPoint conv base s p).1.2.Attributes = p.Attributes ∧
    (convertHistogramDataPoint conv base s p).1.2.Timestamp = p.Timestamp := by
  rw [convertHistogramDataPoint_eq conv base s p]
  split <;> exact ⟨rfl, rfl⟩

theorem RemoveIf_length_le {α σ : Type} (f : σ → α → (Bool × α) × σ) (xs : List α) (st : σ) :
    (RemoveIf f st xs).1.length ≤ xs.length := by
  have h := RemoveIf_map_sublist f (fun _ => ()) (fun _ _ => rfl) xs st
  simpa using h.length_le

theorem processMetric_key {σ : Type} (ctdp : cumulativeToDeltaProcessor) (conv : ConvertFn σ)
    (resource : Resource) (scope : InstrumentationScope) (s : σ) (m : Metric) :
    metricKey (processMetric ctdp conv resource scope s m).1.2 = metricKey m ∧
    List.Sublist (processMetric ctdp conv resource scope s m).1.2.pointKeys m.pointKeys ∧
    (processMetric ctdp conv resource scope s m).1.2.pointCount ≤ m.pointCount := by
  cases hc : convertible ctdp m
  · rw [processMetric_of_not_convertible ctdp conv resource scope s m hc]
    exact ⟨rfl, List.Sublist.refl _, Nat.le_refl _⟩
  · rcases convertible_data hc with ⟨ms, hd⟩ | ⟨ms, hd⟩
    · rw [processMetric_of_sum ctdp conv resource scope s m ms hd hc]
      refine ⟨by simp [metricKey, Metric.DataType, hd], ?_, ?_⟩
      · simp only [Metric.pointKeys, hd]
        exact RemoveIf_map_sublist
          (convertDataPoint conv (sumBaseIdentity resource scope m ms))
          (fun p : NumberDataPoint => (p.Attributes, p.Timestamp))
          (fun t x => by
            obtain ⟨h1, h2⟩ := convertDataPoint_key conv
              (sumBaseIdentity resource scope m ms) t x
            simp only [h1, h2]) ms.DataPoints s
      · simp only [Metric.pointCount, hd]
        exact RemoveIf_length_le _ _ _
    · rw [processMetric_of_histogram ctdp conv resource scope s m ms hd hc]
      refine ⟨by simp [metricKey, Metric.DataType, hd], ?_, ?_⟩
      · simp only [Metric.pointKeys, hd]
        exact RemoveIf_map_sublist
          (convertHistogramDataPoint conv (histogramBaseIdentity resource scope m))
          (fun p : HistogramDataPoint => (p.Attributes, p.Timestamp))
          (fun t x => by
            obtain ⟨h1, h2⟩ := convertHistogramDataPoint_key conv
              (histogramBaseIdentity resource scope m) t x
            simp only [h1, h2]) ms.DataPoints s
      · simp only [Metric.pointCount, hd]
        exact RemoveIf_length_le _ _ _

theorem processScopeMetrics_key {σ : Type} (ctdp : cumulativeToDeltaProcessor)
    (conv : ConvertFn σ) (resource : Resource) (s : σ) (ilm : ScopeMetrics) :
    scopeKey (processScopeMetrics ctdp conv resource s ilm).1.2 = scopeKey ilm ∧
    List.Sublist ((processScopeMetrics ctdp conv resource s ilm).1.2.Metrics.map metricKey)
      (ilm.Metrics.map metricKey) ∧
    (processScopeMetrics ctdp conv resource s ilm).1.2.pointCount ≤ ilm.pointCount := by
  refine ⟨rfl, ?_, ?_⟩
  · exact RemoveIf_map_sublist _ metricKey
      (fun t x => (processMetric_key ctdp conv resource ilm.Scope t x).1) _ _
  · exact RemoveIf_weight_le _ Metric.pointCount
      (fun t x => (processMetric_key ctdp conv resource ilm.Scope t x).2.2) _ _

theorem processResourceMetrics_key {σ : Type} (ctdp : cumulativeToDeltaProcessor)
    (conv : ConvertFn σ) (s : σ) (rm : ResourceMetrics) :
    resourceKey (processResourceMetrics ctdp conv s rm).1.2 = resourceKey rm ∧
    List.Sublist ((processResourceMetrics ctdp conv s rm).1.2.ScopeMetrics.map scopeKey)
      (rm.ScopeMetrics.map scopeKey) ∧
    (processResourceMetrics ctdp conv s rm).1.2.pointCount ≤ rm.pointCount := by
  refine ⟨rfl, ?_, ?_⟩
  · exact RemoveIf_map_sublist _ scopeKey
      (fun t x => (processScopeMetrics_key ctdp conv rm.Resource t x).1) _ _
  · exact RemoveIf_weight_le _ ScopeMetrics.pointCount
      (fun t x => (processScopeMetrics_key ctdp conv rm.Resource t x).2.2) _ _

/-! ## A batch the processor has been through -/

theorem processMetric_result_not_convertible {σ : Type} (ctdp : cumulativeToDeltaProcessor)
    (conv : ConvertFn σ) (resource : Resource) (scope : InstrumentationScope) (s : σ)
    (m : Metric) :
    convertible ctdp (processMetric ctdp conv resource scope s m).1.2 = false := by
  cases hc : convertible ctdp m
  · rw [processMetric_of_not_convertible ctdp conv resource scope s m hc]
    exact hc
  · rcases convertible_data hc with ⟨ms, hd⟩ | ⟨ms, hd⟩
    · rw [processMetric_of_sum ctdp conv resource scope s m ms hd hc]
      simp [convertible]
    · rw [processMetric_of_histogram ctdp conv resource scope s m ms hd hc]
      simp [convertible]

theorem processScopeMetrics_of_stable {σ : Type} (ctdp : cumulativeToDeltaProcessor)
    (conv : ConvertFn σ) (resource : Resource) (s : σ) (ilm : ScopeMetrics)
    (hne : ilm.Metrics ≠ []) (hst : ∀ m ∈ ilm.Metrics, convertible ctdp m = false) :
    processScopeMetrics ctdp conv resource s ilm = ((false, ilm), s) := by
  unfold processScopeMetrics
  rw [RemoveIf_of_keep_all _ _
    (fun m hm t => processMetric_of_not_convertible ctdp conv resource ilm.Scope t m (hst m hm))]
  cases hl : ilm.Metrics with
  | nil => exact absurd hl hne
  | cons a l =>
    have : ({ ilm with Metrics := a :: l } : ScopeMetrics) = ilm := by
      rw [← hl]
    simp [this]

theorem processResourceMetrics_of_stable {σ : Type} (ctdp : cumulativeToDeltaProcessor)
    (conv : ConvertFn σ) (s : σ) (rm : ResourceMetrics) (hne : rm.ScopeMetrics ≠ [])
    (hst : ∀ ilm ∈ rm.ScopeMetrics, ilm.Metrics ≠ [] ∧
      ∀ m ∈ ilm.Metrics, convertible ctdp m = false) :
    processResourceMetrics ctdp conv s rm = ((false, rm), s) := by
  unfold processResourceMetrics
  rw [RemoveIf_of_keep_all _ _
    (fun ilm hilm t =>
      processScopeMetrics_of_stable ctdp conv rm.Resource t ilm (hst ilm hilm).1
        (hst ilm hilm).2)]
  cases hl : rm.ScopeMetrics with
  | nil => exact absurd hl hne
  | cons a l =>
    have : ({ rm with ScopeMetrics := a :: l } : ResourceMetrics) = rm := by
      rw [← hl]
    simp [this]

theorem processMetrics_output_stable {σ : Type} (ctdp : cumulativeToDeltaProcessor)
    (conv : ConvertFn σ) (st : σ) (md : Metrics) :
    ∀ rmOut ∈ (processMetrics ctdp conv st md).1.1.ResourceMetrics,
      rmOut.ScopeMetrics ≠ [] ∧
      ∀ ilmOut ∈ rmOut.ScopeMetrics, ilmOut.Metrics ≠ [] ∧
        ∀ mOut ∈ ilmOut.Metrics, convertible ctdp mOut = false := by
  intro rmOut hrm
  obtain ⟨rm, -, s1, hk1, he1, hscopes⟩ := processMetrics_provenance ctdp conv st md rmOut hrm
  constructor
  · intro h0
    rw [← he1] at h0
    have : (processResourceMetrics ctdp conv s1 rm).1.1 = true := by
      simp only [processResourceMetrics] at h0 ⊢
      simp [h0]
    rw [this] at hk1
    cases hk1
  · intro ilmOut hilm
    obtain ⟨ilm, -, s2, hk2, he2, hmetrics⟩ := hscopes ilmOut hilm
    constructor
    · intro h0
      rw [← he2] at h0
      have : (processScopeMetrics ctdp conv rm.Resource s2 ilm).1.1 = true := by
        simp only [processScopeMetrics] at h0 ⊢
        simp [h0]
      rw [this] at hk2
      cases hk2
    · intro mOut hm
      obtain ⟨m, -, s3, -, he3⟩ := hmetrics mOut hm
      rw [← he3]
      exact processMetric_result_not_convertible ctdp conv rm.Resource ilm.Scope s3 m

/-! ## The claims -/

/-- C1: a metric name is eligible exactly when no include filter set is configured or the
include filter set matches it, and no exclude filter set is configured or the exclude filter
set does not match it; a name the exclude filter set matches is never eligible, whatever the
include filter set says; and a processor built from a configuration with an empty include
list and an empty exclude list treats every name as eligible. -/
theorem shouldConvertMetric_iff (ctdp : cumulativeToDeltaProcessor) (n : String) :
    (shouldConvertMetric ctdp n = true ↔
      (ctdp.includeFS = none ∨ ∃ fs, ctdp.includeFS = some fs ∧ fs n = true) ∧
      (ctdp.excludeFS = none ∨ ∃ fs, ctdp.excludeFS = some fs ∧ fs n = false)) ∧
    (∀ fs, ctdp.excludeFS = some fs → fs n = true → shouldConvertMetric ctdp n = false) ∧
    (∀ (createFilterSet : List String → FilterConfig → Option FilterSet) (gateEnabled : Bool)
      (config : Config), config.Include.Metrics = [] → config.Exclude.Metrics = [] →
      shouldConvertMetric (newCumulativeToDeltaProcessor createFilterSet gateEnabled config) n
        = true) := by
  refine ⟨?_, ?_, ?_⟩
  · unfold shouldConvertMetric
    cases hi : ctdp.includeFS <;> cases he : ctdp.excludeFS <;> simp
  · intro fs he hm
    unfold shouldConvertMetric
    cases hi : ctdp.includeFS <;> simp [he, hm]
  · intro createFilterSet gateEnabled config hinc hexc
    simp [newCumulativeToDeltaProcessor, shouldConvertMetric, hinc, hexc]

/-- C1, at a processor whose include and exclude filter sets both match the name "a": the
name is not eligible. -/
theorem shouldConvertMetric_iff_witness :
    shouldConvertMetric
      { includeFS := some (fun s => s == "a"), excludeFS := some (fun s => s == "a") } "a"
      = false :=
  (shouldConvertMetric_iff
    { includeFS := some (fun s => s == "a"), excludeFS := some (fun s => s == "a") } "a").2.1
    (fun s => s == "a") rfl (by decide)

/-- C2: a metric the processor does not convert (its name is not eligible, or it is a sum
that is not cumulative or not monotonic, or a histogram while histogram support is off, or
not cumulative, or without data points, or of any other data type) is left in the output, in
its scope and resource, exactly as it came in, and the callback run on it submits nothing to
the tracker: the tracker state and the log of submitted points are the ones from before.
Histogram support is off in a processor built while the feature gate has its registered
default. -/
theorem processMetrics_passes_through {σ : Type} (ctdp : cumulativeToDeltaProcessor)
    (conv : ConvertFn σ) (st : σ) (md : Metrics) (rm : ResourceMetrics) (ilm : ScopeMetrics)
    (m : Metric) (hrm : rm ∈ md.ResourceMetrics) (hilm : ilm ∈ rm.ScopeMetrics)
    (hm : m ∈ ilm.Metrics) (hc : convertible ctdp m = false) :
    (∀ (s : σ) (log : List MetricPoint),
      processMetric ctdp (recording conv) rm.Resource ilm.Scope (s, log) m
        = ((false, m), (s, log))) ∧
    (∃ rmOut ∈ (processMetrics ctdp conv st md).1.1.ResourceMetrics,
      rmOut.Resource = rm.Resource ∧
      ∃ ilmOut ∈ rmOut.ScopeMetrics, ilmOut.Scope = ilm.Scope ∧ m ∈ ilmOut.Metrics) ∧
    (∀ (createFilterSet : List String → FilterConfig → Option FilterSet) (config : Config),
      (newCumulativeToDeltaProcessor createFilterSet enableHistogramSupportGateDefault
        config).histogramSupportEnabled = false) := by
  refine ⟨fun s log => processMetric_of_not_convertible ctdp _ _ _ _ m hc, ?_, ?_⟩
  · have hmet : ∀ s : σ, m ∈ (RemoveIf (processMetric ctdp conv rm.Resource ilm.Scope) s
        ilm.Metrics).1 := by
      intro s
      obtain ⟨y, hy, rfl⟩ := exists_mem_RemoveIf
        (processMetric ctdp conv rm.Resource ilm.Scope) (fun y => y = m) m ilm.Metrics hm
        (fun t => by rw [processMetric_of_not_convertible ctdp conv _ _ t m hc]; exact ⟨rfl, rfl⟩)
        s
      exact hy
    have hscope : ∀ s : σ, ∃ y ∈ (RemoveIf (processScopeMetrics ctdp conv rm.Resource) s
        rm.ScopeMetrics).1, y.Scope = ilm.Scope ∧ m ∈ y.Metrics := by
      intro s
      refine exists_mem_RemoveIf (processScopeMetrics ctdp conv rm.Resource)
        (fun y => y.Scope = ilm.Scope ∧ m ∈ y.Metrics) ilm rm.ScopeMetrics hilm (fun t => ?_) s
      have h1 := hmet t
      refine ⟨?_, rfl, h1⟩
      simp only [processScopeMetrics]
      cases hl : (RemoveIf (processMetric ctdp conv rm.Resource ilm.Scope) t ilm.Metrics).1 with
      | nil => rw [hl] at h1; cases h1
      | cons a l => simp
    refine exists_mem_RemoveIf (processResourceMetrics ctdp conv)
      (fun y => y.Resource = rm.Resource ∧
        ∃ ilmOut ∈ y.ScopeMetrics, ilmOut.Scope = ilm.Scope ∧ m ∈ ilmOut.Metrics)
      rm md.ResourceMetrics hrm (fun t => ?_) st
    obtain ⟨y, hy, hq⟩ := hscope t
    refine ⟨?_, rfl, y, hy, hq⟩
    simp only [processResourceMetrics]
    cases hl : (RemoveIf (processScopeMetrics ctdp conv rm.Resource) t rm.ScopeMetrics).1 with
    | nil => rw [hl] at hy; cases hy
    | cons a l => simp
  · intro createFilterSet config
    simp only [newCumulativeToDeltaProcessor, enableHistogramSupportGateDefault]
    split <;> split <;> rfl

/-- C2, on a batch whose only metric is a gauge: the gauge is in the output as it came
in. -/
theorem processMetrics_passes_through_witness :
    ∃ rmOut ∈ (processMetrics {} (Convert FloatArith.bitwise) {}
        (singleScopeBatch [temperatureGauge])).1.1.ResourceMetrics,
      rmOut.Resource = {} ∧
      ∃ ilmOut ∈ rmOut.ScopeMetrics, ilmOut.Scope = {} ∧ temperatureGauge ∈ ilmOut.Metrics :=
  (processMetrics_passes_through {} (Convert FloatArith.bitwise) {}
    (singleScopeBatch [temperatureGauge]) { ScopeMetrics := [{ Metrics := [temperatureGauge] }] }
    { Metrics := [temperatureGauge] } temperatureGauge
    (List.mem_singleton.2 rfl) (List.mem_singleton.2 rfl) (List.mem_singleton.2 rfl) rfl).2.1

/-- C3: a data point of a converted metric that is submitted to the tracker is absent from
the output collection when `Convert` returns `valid = false` and present, as rewritten by the
callback and with its timestamp and attributes, when it returns `valid = true`; this holds
for number points and for histogram points, at every position of the collection and for
every tracker. With the tracker of the specification, a point whose identity has no baseline
yet produces no output point and becomes the baseline. -/
theorem convert_valid_iff_point_present {σ : Type} (conv : ConvertFn σ) (base : MetricIdentity)
    (st : σ) :
    (∀ (pre post : List NumberDataPoint) (p : NumberDataPoint), isNaNPoint p = false →
      (convertDataPoints conv base st (pre ++ p :: post)).1 =
        (convertDataPoints conv base st pre).1 ++
          (if (conv (convertDataPoints conv base st pre).2 (numberMetricPoint base p)).1.2 then
            [(convertDataPoint conv base (convertDataPoints conv base st pre).2 p).1.2]
          else []) ++
          (convertDataPoints conv base
            (conv (convertDataPoints conv base st pre).2 (numberMetricPoint base p)).2 post).1) ∧
    (∀ (pre post : List HistogramDataPoint) (p : HistogramDataPoint),
      (convertHistogramDataPoints conv base st (pre ++ p :: post)).1 =
        (convertHistogramDataPoints conv base st pre).1 ++
          (if (conv (convertHistogramDataPoints conv base st pre).2
              (histogramMetricPoint base p)).1.2 then
            [(convertHistogramDataPoint conv base
              (convertHistogramDataPoints conv base st pre).2 p).1.2]
          else []) ++
          (convertHistogramDataPoints conv base
            (conv (convertHistogramDataPoints conv base st pre).2
              (histogramMetricPoint base p)).2 post).1) ∧
    (∀ (s : σ) (p : NumberDataPoint),
      (convertDataPoint conv base s p).1.2.Timestamp = p.Timestamp ∧
      (convertDataPoint conv base s p).1.2.Attributes = p.Attributes) ∧
    (∀ (s : σ) (p : HistogramDataPoint),
      (convertHistogramDataPoint conv base s p).1.2.Timestamp = p.Timestamp ∧
      (convertHistogramDataPoint conv base s p).1.2.Attributes = p.Attributes) ∧
    (∀ (fa : FloatArith) (ts : TrackerState) (pre post : List NumberDataPoint)
      (p : NumberDataPoint), isNaNPoint p = false →
      (convertDataPoints (Convert fa) base ts pre).2.lookup (numberMetricPoint base p).Identity
        = none →
      (convertDataPoints (Convert fa) base ts (pre ++ p :: post)).1 =
        (convertDataPoints (Convert fa) base ts pre).1 ++
          (convertDataPoints (Convert fa) base
            ((convertDataPoints (Convert fa) base ts pre).2.store
              (numberMetricPoint base p).Identity (numberMetricPoint base p).Value) post).1) ∧
    (∀ (fa : FloatArith) (ts : TrackerState) (pre post : List HistogramDataPoint)
      (p : HistogramDataPoint),
      (convertHistogramDataPoints (Convert fa) base ts pre).2.lookup
        (histogramMetricPoint base p).Identity = none →
      (convertHistogramDataPoints (Convert fa) base ts (pre ++ p :: post)).1 =
        (convertHistogramDataPoints (Convert fa) base ts pre).1 ++
          (convertHistogramDataPoints (Convert fa) base
            ((convertHistogramDataPoints (Convert fa) base ts pre).2.store
              (histogramMetricPoint base p).Identity (histogramMetricPoint base p).Value)
            post).1) := by
  have hnum : ∀ {τ : Type} (cv : ConvertFn τ) (t : τ) (pre post : List NumberDataPoint)
      (p : NumberDataPoint), isNaNPoint p = false →
      (convertDataPoints cv base t (pre ++ p :: post)).1 =
        (convertDataPoints cv base t pre).1 ++
          (if (cv (convertDataPoints cv base t pre).2 (numberMetricPoint base p)).1.2 then
            [(convertDataPoint cv base (convertDataPoints cv base t pre).2 p).1.2]
          else []) ++
          (convertDataPoints cv base
            (cv (convertDataPoints cv base t pre).2 (numberMetricPoint base p)).2 post).1 := by
    intro τ cv t pre post p hp
    unfold convertDataPoints
    rw [RemoveIf_middle]
    rw [convertDataPoint_of_submitted cv base _ p hp]
    cases (cv (RemoveIf (convertDataPoint cv base) t pre).2 (numberMetricPoint base p)).1.2 <;>
      simp
  have hhist : ∀ {τ : Type} (cv : ConvertFn τ) (t : τ) (pre post : List HistogramDataPoint)
      (p : HistogramDataPoint),
      (convertHistogramDataPoints cv base t (pre ++ p :: post)).1 =
        (convertHistogramDataPoints cv base t pre).1 ++
          (if (cv (convertHistogramDataPoints cv base t pre).2
              (histogramMetricPoint base p)).1.2 then
            [(convertHistogramDataPoint cv base
              (convertHistogramDataPoints cv base t pre).2 p).1.2]
          else []) ++
          (convertHistogramDataPoints cv base
            (cv (convertHistogramDataPoints cv base t pre).2
              (histogramMetricPoint base p)).2 post).1 := by
    intro τ cv t pre post p
    unfold convertHistogramDataPoints
    rw [RemoveIf_middle]
    rw [convertHistogramDataPoint_eq cv base _ p]
    cases (cv (RemoveIf (convertHistogramDataPoint cv base) t pre).2
      (histogramMetricPoint base p)).1.2 <;> simp
  refine ⟨hnum conv st, hhist conv st, ?_, ?_, ?_, ?_⟩
  · intro s p
    cases hn : isNaNPoint p
    · rw [convertDataPoint_of_submitted conv base s p hn]
      split <;> exact ⟨rfl, rfl⟩
    · rw [convertDataPoint_of_nan conv base s p hn]
      exact ⟨rfl, rfl⟩
  · intro s p
    rw [convertHistogramDataPoint_eq conv base s p]
    split <;> exact ⟨rfl, rfl⟩
  · intro fa ts pre post p hp hl
    rw [hnum (Convert fa) ts pre post p hp, Convert_of_lookup_none fa _ _ hl]
    simp
  · intro fa ts pre post p hl
    rw [hhist (Convert fa) ts pre post p, Convert_of_lookup_none fa _ _ hl]
    simp

/-- C3, on a fresh tracker: the first observation of "requests_total" produces no output
point. -/
theorem convert_valid_iff_point_present_witness :
    (convertDataPoints (Convert FloatArith.bitwise) { MetricName := "requests_total" } {}
      ([] ++ { Timestamp := 100, Value := .int 50 } :: [])).1 = [] :=
  (convert_valid_iff_point_present (Convert FloatArith.bitwise)
    { MetricName := "requests_total" } {}).2.2.2.2.1 FloatArith.bitwise {} [] []
    { Timestamp := 100, Value := .int 50 } rfl rfl

/-- C4, as the code has it: for a number data point submitted to the tracker for which
`Convert` returns a delta with `valid = true`, the point is kept, its start timestamp is the
one of the delta, and its value is the float value of the delta when the point is a double
and the integer value of the delta otherwise; the value type is preserved when it is double
or int, and a point whose value is unset comes out as an int point; the observed timestamp,
the attribute set and the flags are unchanged. -/
theorem convertDataPoint_valid_sets_delta {σ : Type} (conv : ConvertFn σ)
    (base : MetricIdentity) (st : σ) (p : NumberDataPoint) (hn : isNaNPoint p = false)
    (hv : (conv st (numberMetricPoint base p)).1.2 = true) :
    (convertDataPoint conv base st p).1.1 = false ∧
    (convertDataPoint conv base st p).1.2.StartTimestamp =
      (conv st (numberMetricPoint base p)).1.1.StartTimestamp ∧
    (p.ValueType = .Double → (convertDataPoint conv base st p).1.2.Value =
      .double (conv st (numberMetricPoint base p)).1.1.FloatValue) ∧
    (p.ValueType = .Int → (convertDataPoint conv base st p).1.2.Value =
      .int (conv st (numberMetricPoint base p)).1.1.IntValue) ∧
    (p.ValueType = .None → (convertDataPoint conv base st p).1.2.Value =
      .int (conv st (numberMetricPoint base p)).1.1.IntValue) ∧
    (p.ValueType ≠ .None →
      (convertDataPoint conv base st p).1.2.ValueType = p.ValueType) ∧
    (convertDataPoint conv base st p).1.2.Timestamp = p.Timestamp ∧
    (convertDataPoint conv base st p).1.2.Attributes = p.Attributes ∧
    (convertDataPoint conv base st p).1.2.Flags = p.Flags := by
  rw [convertDataPoint_of_submitted conv base st p hn, if_pos hv]
  refine ⟨rfl, rfl, ?_, ?_, ?_, ?_, rfl, rfl, rfl⟩
  · intro h
    simp [h]
  · intro h
    simp [h]
  · intro h
    simp [h]
  · intro h
    cases hp : p.ValueType with
    | None => exact absurd hp h
    | Int => simp [hp, NumberDataPoint.ValueType]
    | Double => simp [hp, NumberDataPoint.ValueType]

/-- C4, on the second observation of "requests_total" (50 at 100, then 70 at 200): the start
timestamp of the output point is the one of the delta. -/
theorem convertDataPoint_valid_sets_delta_witness :
    (convertDataPoint (Convert FloatArith.bitwise) requestsTotalIdentity
      (trackerAfterNumberPoint { Timestamp := 100, Value := .int 50 })
      { Timestamp := 200, Value := .int 70 }).1.2.StartTimestamp =
    ((Convert FloatArith.bitwise)
      (trackerAfterNumberPoint { Timestamp := 100, Value := .int 50 })
      (numberMetricPoint requestsTotalIdentity
        { Timestamp := 200, Value := .int 70 })).1.1.StartTimestamp :=
  (convertDataPoint_valid_sets_delta (Convert FloatArith.bitwise) requestsTotalIdentity
    (trackerAfterNumberPoint { Timestamp := 100, Value := .int 50 })
    { Timestamp := 200, Value := .int 70 } (by decide) (by decide)).2.1

/-- C4 as stated fails on a point whose value is unset: after a baseline at 100, the point
at 200 is submitted, `Convert` returns `valid = true`, and the point comes out with the
integer value 0, so its value type went from none to int. -/
theorem unset_value_comes_out_as_int :
    (({ Timestamp := 200 } : NumberDataPoint).ValueType = .None) ∧
    ((Convert FloatArith.bitwise) (trackerAfterNumberPoint { Timestamp := 100 })
      (numberMetricPoint requestsTotalIdentity { Timestamp := 200 })).1.2 = true ∧
    (convertDataPoint (Convert FloatArith.bitwise) requestsTotalIdentity
      (trackerAfterNumberPoint { Timestamp := 100 }) { Timestamp := 200 }).1 =
      (false, { StartTimestamp := 100, Timestamp := 200, Value := .int 0 }) ∧
    (convertDataPoint (Convert FloatArith.bitwise) requestsTotalIdentity
      (trackerAfterNumberPoint { Timestamp := 100 }) { Timestamp := 200 }).1.2.ValueType ≠
      ({ Timestamp := 200 } : NumberDataPoint).ValueType := by
  decide

/-- C5: for a histogram data point for which `Convert` returns a delta with `valid = true`,
the point is kept, its start timestamp, count and bucket counts are the ones of the delta,
and its observed timestamp, explicit bounds, attribute set and flags are unchanged. -/
theorem convertHistogramDataPoint_valid_sets_delta {σ : Type} (conv : ConvertFn σ)
    (base : MetricIdentity) (st : σ) (p : HistogramDataPoint)
    (hv : (conv st (histogramMetricPoint base p)).1.2 = true) :
    (convertHistogramDataPoint conv base st p).1.1 = false ∧
    (convertHistogramDataPoint conv base st p).1.2.StartTimestamp =
      (conv st (histogramMetricPoint base p)).1.1.StartTimestamp ∧
    (convertHistogramDataPoint conv base st p).1.2.Count =
      (conv st (histogramMetricPoint base p)).1.1.HistogramValue.Count ∧
    (convertHistogramDataPoint conv base st p).1.2.BucketCounts =
      (conv st (histogramMetricPoint base p)).1.1.HistogramValue.Buckets ∧
    (convertHistogramDataPoint conv base st p).1.2.Timestamp = p.Timestamp ∧
    (convertHistogramDataPoint conv base st p).1.2.ExplicitBounds = p.ExplicitBounds ∧
    (convertHistogramDataPoint conv base st p).1.2.Attributes = p.Attributes ∧
    (convertHistogramDataPoint conv base st p).1.2.Flags = p.Flags := by
  rw [convertHistogramDataPoint_eq conv base st p, if_pos hv]
  exact ⟨rfl, rfl, rfl, rfl, rfl, rfl, rfl, rfl⟩

/-- C5, on the second observation of "latency" (buckets 4, 2, 3, 7 at 100, then 10, 5, 9, 20
at 200): the output point carries the bucket deltas 6, 3, 6, 13. -/
theorem convertHistogramDataPoint_valid_sets_delta_witness :
    (convertHistogramDataPoint (Convert FloatArith.bitwise) latencyIdentity
      (trackerAfterHistogramPoint { Timestamp := 100, Count := 16, BucketCounts := [4, 2, 3, 7] })
      { Timestamp := 200, Count := 40, BucketCounts := [10, 5, 9, 20] }).1.2.BucketCounts =
    [6, 3, 6, 13] :=
  ((convertHistogramDataPoint_valid_sets_delta (Convert FloatArith.bitwise) latencyIdentity
    (trackerAfterHistogramPoint { Timestamp := 100, Count := 16, BucketCounts := [4, 2, 3, 7] })
    { Timestamp := 200, Count := 40, BucketCounts := [10, 5, 9, 20] }
    (by decide)).2.2.2.1).trans (by decide)

/-- C6: the callback removes a metric it converts exactly when the metric has no data point
left after the conversion of its points, and a converted metric it keeps has at least one
data point and delta temporality. Every metric of the returned batch is either a metric of
the input that was not convertible, unchanged, or what the callback left of a convertible
metric of the input, and then it has at least one data point and delta temporality. -/
theorem converted_metric_removed_iff_no_points {σ : Type} (ctdp : cumulativeToDeltaProcessor)
    (conv : ConvertFn σ) (st : σ) (md : Metrics) :
    (∀ (resource : Resource) (scope : InstrumentationScope) (s : σ) (m : Metric),
      convertible ctdp m = true →
      ((processMetric ctdp conv resource scope s m).1.1 = true ↔
        (processMetric ctdp conv resource scope s m).1.2.pointCount = 0) ∧
      ((processMetric ctdp conv resource scope s m).1.1 = false →
        0 < (processMetric ctdp conv resource scope s m).1.2.pointCount ∧
        (processMetric ctdp conv resource scope s m).1.2.temporality = some .Delta)) ∧
    (∀ rmOut ∈ (processMetrics ctdp conv st md).1.1.ResourceMetrics,
      ∀ ilmOut ∈ rmOut.ScopeMetrics, ∀ mOut ∈ ilmOut.Metrics,
      ∃ rm ∈ md.ResourceMetrics, ∃ ilm ∈ rm.ScopeMetrics, ∃ m ∈ ilm.Metrics,
        (convertible ctdp m = false ∧ mOut = m) ∨
        (convertible ctdp m = true ∧
          (∃ s, mOut = (processMetric ctdp conv rm.Resource ilm.Scope s m).1.2) ∧
          0 < mOut.pointCount ∧ mOut.temporality = some .Delta)) := by
  have hmetric : ∀ (resource : Resource) (scope : InstrumentationScope) (s : σ) (m : Metric),
      convertible ctdp m = true →
      ((processMetric ctdp conv resource scope s m).1.1 = true ↔
        (processMetric ctdp conv resource scope s m).1.2.pointCount = 0) ∧
      ((processMetric ctdp conv resource scope s m).1.1 = false →
        0 < (processMetric ctdp conv resource scope s m).1.2.pointCount ∧
        (processMetric ctdp conv resource scope s m).1.2.temporality = some .Delta) := by
    intro resource scope s m hc
    obtain ⟨h1, h2⟩ := processMetric_converted ctdp conv resource scope s m hc
    refine ⟨h1, fun hk => ⟨?_, h2⟩⟩
    apply Nat.pos_of_ne_zero
    intro h0
    rw [h1.2 h0] at hk
    cases hk
  refine ⟨hmetric, ?_⟩
  intro rmOut hrm ilmOut hilm mOut hm
  obtain ⟨rm, hrmIn, s1, -, -, hscopes⟩ := processMetrics_provenance ctdp conv st md rmOut hrm
  obtain ⟨ilm, hilmIn, s2, -, -, hmetrics⟩ := hscopes ilmOut hilm
  obtain ⟨m, hmIn, s3, hk, he⟩ := hmetrics mOut hm
  refine ⟨rm, hrmIn, ilm, hilmIn, m, hmIn, ?_⟩
  cases hc : convertible ctdp m
  · left
    rw [processMetric_of_not_convertible ctdp conv _ _ s3 m hc] at he
    exact ⟨rfl, he.symm⟩
  · right
    have h := (hmetric rm.Resource ilm.Scope s3 m hc).2 hk
    rw [he] at h
    exact ⟨rfl, ⟨s3, he.symm⟩, h⟩

/-- C6, on the first observation of "requests_total": the callback removes the metric
exactly when it has no point left. -/
theorem converted_metric_removed_iff_no_points_witness :
    ((processMetric {} (Convert FloatArith.bitwise) {} {} {}
        (requestsTotal [{ Timestamp := 100, Value := .int 50 }])).1.1 = true ↔
      (processMetric {} (Convert FloatArith.bitwise) {} {} {}
        (requestsTotal [{ Timestamp := 100, Value := .int 50 }])).1.2.pointCount = 0) :=
  ((converted_metric_removed_iff_no_points {} (Convert FloatArith.bitwise) {}
    (singleScopeBatch [])).1 {} {} {} (requestsTotal [{ Timestamp := 100, Value := .int 50 }])
    rfl).1

/-- C7: the batch `processMetrics` returns holds no resource without scopes and no scope
without metrics; the scope callback removes a scope exactly when no metric is left in it
after its metrics were processed, and the resource callback removes a resource exactly when
no scope is left in it. -/
theorem processMetrics_prunes_empty {σ : Type} (ctdp : cumulativeToDeltaProcessor)
    (conv : ConvertFn σ) (st : σ) (md : Metrics) :
    (∀ rmOut ∈ (processMetrics ctdp conv st md).1.1.ResourceMetrics,
      rmOut.ScopeMetrics ≠ [] ∧ ∀ ilmOut ∈ rmOut.ScopeMetrics, ilmOut.Metrics ≠ []) ∧
    (∀ (resource : Resource) (s : σ) (ilm : ScopeMetrics),
      (processScopeMetrics ctdp conv resource s ilm).1.1 = true ↔
        (processScopeMetrics ctdp conv resource s ilm).1.2.Metrics = []) ∧
    (∀ (s : σ) (rm : ResourceMetrics),
      (processResourceMetrics ctdp conv s rm).1.1 = true ↔
        (processResourceMetrics ctdp conv s rm).1.2.ScopeMetrics = []) := by
  have hscope : ∀ (resource : Resource) (s : σ) (ilm : ScopeMetrics),
      (processScopeMetrics ctdp conv resource s ilm).1.1 = true ↔
        (processScopeMetrics ctdp conv resource s ilm).1.2.Metrics = [] := by
    intro resource s ilm
    simp [processScopeMetrics]
  have hres : ∀ (s : σ) (rm : ResourceMetrics),
      (processResourceMetrics ctdp conv s rm).1.1 = true ↔
        (processResourceMetrics ctdp conv s rm).1.2.ScopeMetrics = [] := by
    intro s rm
    simp [processResourceMetrics]
  refine ⟨?_, hscope, hres⟩
  intro rmOut hrm
  obtain ⟨rm, -, s1, hk1, he1, hscopes⟩ := processMetrics_provenance ctdp conv st md rmOut hrm
  constructor
  · intro h0
    rw [← he1] at h0
    rw [(hres s1 rm).2 h0] at hk1
    cases hk1
  · intro ilmOut hilm h0
    obtain ⟨ilm, -, s2, hk2, he2, -⟩ := hscopes ilmOut hilm
    rw [← he2] at h0
    rw [(hscope rm.Resource s2 ilm).2 h0] at hk2
    cases hk2

/-- C7, on a batch with a gauge: the resource that comes out has a scope. -/
theorem processMetrics_prunes_empty_witness :
    ({ ScopeMetrics := [{ Metrics := [temperatureGauge] }] } : ResourceMetrics).ScopeMetrics
      ≠ [] :=
  ((processMetrics_prunes_empty {} (Convert FloatArith.bitwise) {}
    (singleScopeBatch [temperatureGauge])).1
    { ScopeMetrics := [{ Metrics := [temperatureGauge] }] } (by decide)).1

/-- C8, as the code has it: in an eligible monotonic cumulative sum, a double data point
whose value is NaN is not transformed: the callback submits nothing to the tracker for it
(tracker state and log of submitted points stay as they were) and keeps it, so the point is
in the batch `processMetrics` returns, unchanged, in a sum of the same name in its scope and
resource. -/
theorem nan_point_kept {σ : Type} (ctdp : cumulativeToDeltaProcessor) (conv : ConvertFn σ)
    (st : σ) (md : Metrics) (rm : ResourceMetrics) (ilm : ScopeMetrics) (m : Metric) (ms : Sum)
    (p : NumberDataPoint) (hrm : rm ∈ md.ResourceMetrics) (hilm : ilm ∈ rm.ScopeMetrics)
    (hm : m ∈ ilm.Metrics) (hd : m.Data = .sum ms) (hc : convertible ctdp m = true)
    (hp : p ∈ ms.DataPoints) (hnan : isNaNPoint p = true) :
    (∀ (base : MetricIdentity) (s : σ) (log : List MetricPoint),
      convertDataPoint (recording conv) base (s, log) p = ((false, p), (s, log))) ∧
    (∃ rmOut ∈ (processMetrics ctdp conv st md).1.1.ResourceMetrics,
      rmOut.Resource = rm.Resource ∧
      ∃ ilmOut ∈ rmOut.ScopeMetrics, ilmOut.Scope = ilm.Scope ∧
      ∃ mOut ∈ ilmOut.Metrics, mOut.Name = m.Name ∧
        ∃ msOut, mOut.Data = .sum msOut ∧ p ∈ msOut.DataPoints) := by
  refine ⟨fun base s log => convertDataPoint_of_nan _ base _ p hnan, ?_⟩
  refine exists_metric_in_output ctdp conv st md rm ilm m
    (fun y => y.Name = m.Name ∧ ∃ msOut, y.Data = .sum msOut ∧ p ∈ msOut.DataPoints)
    hrm hilm hm (fun s => ?_)
  have hin : p ∈ (convertDataPoints conv (sumBaseIdentity rm.Resource ilm.Scope m ms) s
      ms.DataPoints).1 := by
    obtain ⟨y, hy, rfl⟩ := exists_mem_RemoveIf
      (convertDataPoint conv (sumBaseIdentity rm.Resource ilm.Scope m ms)) (fun y => y = p) p
      ms.DataPoints hp
      (fun t => by rw [convertDataPoint_of_nan conv _ t p hnan]; exact ⟨rfl, rfl⟩) s
    exact hy
  rw [processMetric_of_sum ctdp conv rm.Resource ilm.Scope s m ms hd hc]
  refine ⟨?_, rfl, _, rfl, hin⟩
  cases hl : (convertDataPoints conv (sumBaseIdentity rm.Resource ilm.Scope m ms) s
    ms.DataPoints).1 with
  | nil => rw [hl] at hin; cases hin
  | cons a l => simp

/-- C8, on "requests_total" with a single NaN point: the callback leaves the point and the
tracker alone. -/
theorem nan_point_kept_witness :
    convertDataPoint (recording (Convert FloatArith.bitwise)) requestsTotalIdentity ({}, [])
      { Timestamp := 100, Value := .double Float64.nan } =
      ((false, { Timestamp := 100, Value := .double Float64.nan }), ({}, [])) :=
  (nan_point_kept {} (Convert FloatArith.bitwise) {}
    (singleScopeBatch [requestsTotal [{ Timestamp := 100, Value := .double Float64.nan }]])
    { ScopeMetrics :=
        [{ Metrics := [requestsTotal [{ Timestamp := 100, Value := .double Float64.nan }]] }] }
    { Metrics := [requestsTotal [{ Timestamp := 100, Value := .double Float64.nan }]] }
    (requestsTotal [{ Timestamp := 100, Value := .double Float64.nan }])
    { AggregationTemporality := .Cumulative, IsMonotonic := true,
      DataPoints := [{ Timestamp := 100, Value := .double Float64.nan }] }
    { Timestamp := 100, Value := .double Float64.nan }
    (List.mem_singleton.2 rfl) (List.mem_singleton.2 rfl) (List.mem_singleton.2 rfl) rfl rfl
    (List.mem_singleton.2 rfl) (by decide)).1 requestsTotalIdentity {} []

/-- C8 as stated fails: a NaN double point of the eligible monotonic cumulative sum
"requests_total" is still in the batch `processMetrics` returns, with its NaN value, and the
tracker has stored nothing. -/
theorem nan_point_is_in_output :
    Float64.nan.IsNaN = true ∧
    processMetrics {} (Convert FloatArith.bitwise) {}
      (singleScopeBatch
        [requestsTotal [{ Timestamp := 100, Value := .double Float64.nan }]]) =
      ((singleScopeBatch
        [{ Name := "requests_total"
           Data := .sum
            { AggregationTemporality := .Delta, IsMonotonic := true,
              DataPoints := [{ Timestamp := 100, Value := .double Float64.nan }] } }],
        none), {}) := by
  decide

/-- C9: per-item isolation. For every batch, tracker and tracker state, the points
`processMetrics` submits to `Convert` are exactly the non-NaN number points of the converted
sums and the points of the converted histograms, each once, in document order (resource,
scope, metric, point), whatever `Convert` answers for any of them; keeping the log changes
neither the returned batch nor the tracker state. -/
theorem processMetrics_submits_every_point {σ : Type} (ctdp : cumulativeToDeltaProcessor)
    (conv : ConvertFn σ) (st : σ) (log : List MetricPoint) (md : Metrics) :
    processMetrics ctdp (recording conv) (st, log) md =
      ((processMetrics ctdp conv st md).1,
        ((processMetrics ctdp conv st md).2, log ++ submissions ctdp md)) := by
  unfold processMetrics
  rw [RemoveIf_recording _ _ _ (processResourceMetrics_recording ctdp conv)]
  rfl

/-- C10: for every batch, tracker and tracker state, `processMetrics` returns a nil error,
and the batch it returns is the one it was given with its resources run through
`RemoveIf`. -/
theorem processMetrics_returns_nil_error {σ : Type} (ctdp : cumulativeToDeltaProcessor)
    (conv : ConvertFn σ) (st : σ) (md : Metrics) :
    (processMetrics ctdp conv st md).1.2 = none ∧
    (processMetrics ctdp conv st md).1.1 =
      { md with
        ResourceMetrics :=
          (RemoveIf (processResourceMetrics ctdp conv) st md.ResourceMetrics).1 } :=
  ⟨rfl, rfl⟩

/-- C11, as the code has it: the callbacks copy the start timestamp of a data point into the
identity they build for it. For two data points of the same metric, scope and resource with
the same attribute set and value type, the identities built agree in every field but
`StartTimestamp`, which holds the start timestamp of each point; under the series equality of
the specification, which leaves the start timestamp out, they are the same series. The same
holds for histogram points. -/
theorem identity_carries_start_timestamp (base : MetricIdentity) :
    (∀ p q : NumberDataPoint, p.Attributes = q.Attributes → p.ValueType = q.ValueType →
      (numberPointIdentity base p).StartTimestamp = p.StartTimestamp ∧
      (numberPointIdentity base q).StartTimestamp = q.StartTimestamp ∧
      { numberPointIdentity base p with StartTimestamp := 0 } =
        { numberPointIdentity base q with StartTimestamp := 0 } ∧
      sameSeries (numberPointIdentity base p) (numberPointIdentity base q) = true) ∧
    (∀ p q : HistogramDataPoint, p.Attributes = q.Attributes →
      (histogramPointIdentity base p).StartTimestamp = p.StartTimestamp ∧
      (histogramPointIdentity base q).StartTimestamp = q.StartTimestamp ∧
      { histogramPointIdentity base p with StartTimestamp := 0 } =
        { histogramPointIdentity base q with StartTimestamp := 0 } ∧
      sameSeries (histogramPointIdentity base p) (histogramPointIdentity base q) = true) := by
  constructor
  · intro p q ha hv
    refine ⟨rfl, rfl, ?_, ?_⟩
    · simp [numberPointIdentity, ha, hv]
    · rw [sameSeries_iff]
      simp [numberPointIdentity, ha, hv]
  · intro p q ha
    refine ⟨rfl, rfl, ?_, ?_⟩
    · simp [histogramPointIdentity, ha]
    · rw [sameSeries_iff]
      simp [histogramPointIdentity, ha]

/-- C11, on two points of "requests_total" that differ only in their start timestamp (1 and
2): the identities built for them are the same series. -/
theorem identity_carries_start_timestamp_witness :
    sameSeries
      (numberPointIdentity requestsTotalIdentity
        { StartTimestamp := 1, Timestamp := 100, Value := .int 5 })
      (numberPointIdentity requestsTotalIdentity
        { StartTimestamp := 2, Timestamp := 100, Value := .int 5 }) = true :=
  ((identity_carries_start_timestamp requestsTotalIdentity).1
    { StartTimestamp := 1, Timestamp := 100, Value := .int 5 }
    { StartTimestamp := 2, Timestamp := 100, Value := .int 5 } rfl rfl).2.2.2

/-- C11 as stated fails: for two points of "requests_total" that differ only in their start
timestamp (1 and 2), the identities the processor builds are not equal; they carry the start
timestamps 1 and 2. -/
theorem identities_differ_in_start_timestamp :
    numberPointIdentity requestsTotalIdentity
        { StartTimestamp := 1, Timestamp := 100, Value := .int 5 } ≠
      numberPointIdentity requestsTotalIdentity
        { StartTimestamp := 2, Timestamp := 100, Value := .int 5 } ∧
    (numberPointIdentity requestsTotalIdentity
        { StartTimestamp := 1, Timestamp := 100, Value := .int 5 }).StartTimestamp = 1 ∧
    (numberPointIdentity requestsTotalIdentity
        { StartTimestamp := 2, Timestamp := 100, Value := .int 5 }).StartTimestamp = 2 := by
  decide

/-- C12: the points `processMetric` passes to `Convert` for a converted sum are those of its
number points that are not NaN, in order, and the identity passed for a point has the
resource of the resource, the scope of the scope, the name and unit of the metric, data type
Sum, the monotonic flag of the sum (which is true), and the start timestamp, value type and
attribute set of the point. Hence two identities so built that are equal, or that are the
same series, have the same name, unit and value type, and the same attributes (up to order
for the series equality). -/
theorem sum_identity_fields {σ : Type} (ctdp : cumulativeToDeltaProcessor) (conv : ConvertFn σ)
    (resource : Resource) (scope : InstrumentationScope) (st : σ) (m : Metric) (ms : Sum)
    (hd : m.Data = .sum ms) (hc : convertible ctdp m = true) :
    (processMetric ctdp (recording conv) resource scope (st, []) m).2.2 =
      (ms.DataPoints.filter (fun p => !isNaNPoint p)).map
        (numberMetricPoint (sumBaseIdentity resource scope m ms)) ∧
    (∀ p : NumberDataPoint,
      (numberMetricPoint (sumBaseIdentity resource scope m ms) p).Identity =
        { Resource := resource
          InstrumentationLibrary := scope
          MetricDataType := .Sum
          MetricIsMonotonic := ms.IsMonotonic
          MetricName := m.Name
          MetricUnit := m.Unit
          StartTimestamp := p.StartTimestamp
          Attributes := p.Attributes
          MetricValueType := p.ValueType }) ∧
    ms.IsMonotonic = true ∧
    (∀ (resource2 : Resource) (scope2 : InstrumentationScope) (m2 : Metric) (ms2 : Sum)
      (p p2 : NumberDataPoint),
      ((numberMetricPoint (sumBaseIdentity resource scope m ms) p).Identity =
          (numberMetricPoint (sumBaseIdentity resource2 scope2 m2 ms2) p2).Identity →
        m.Name = m2.Name ∧ m.Unit = m2.Unit ∧ p.ValueType = p2.ValueType ∧
          p.Attributes = p2.Attributes) ∧
      (sameSeries (numberMetricPoint (sumBaseIdentity resource scope m ms) p).Identity
          (numberMetricPoint (sumBaseIdentity resource2 scope2 m2 ms2) p2).Identity = true →
        m.Name = m2.Name ∧ m.Unit = m2.Unit ∧ p.ValueType = p2.ValueType ∧
          List.Perm p.Attributes p2.Attributes)) := by
  have hmono : ms.IsMonotonic = true := by
    unfold convertible at hc
    rw [hd] at hc
    simp only [Bool.and_eq_true] at hc
    exact hc.2.2
  have htype : m.DataType = .Sum := by simp [Metric.DataType, hd]
  refine ⟨?_, ?_, hmono, ?_⟩
  · rw [processMetric_recording]
    simp [metricSubmissions, hc, hd, flatten_map_pointSubmissions]
  · intro p
    simp [numberMetricPoint, numberPointIdentity, sumBaseIdentity, htype]
  · intro resource2 scope2 m2 ms2 p p2
    constructor
    · intro h
      have h1 := congrArg MetricIdentity.MetricName h
      have h2 := congrArg MetricIdentity.MetricUnit h
      have h3 := congrArg MetricIdentity.MetricValueType h
      have h4 := congrArg MetricIdentity.Attributes h
      exact ⟨h1, h2, h3, h4⟩
    · intro h
      obtain ⟨-, -, h3, h4, -, -, h7, h8⟩ := (sameSeries_iff _ _).1 h
      exact ⟨h3, h4, h7, h8⟩

/-- C12, on "requests_total" with the points 50 at 100 and NaN at 200: the point passed to
the tracker is the one of the first point. -/
theorem sum_identity_fields_witness :
    (processMetric {} (recording (Convert FloatArith.bitwise)) {} {} ({}, [])
      (requestsTotal
        [{ Timestamp := 100, Value := .int 50 },
          { Timestamp := 200, Value := .double Float64.nan }])).2.2 =
      ([{ Timestamp := 100, Value := .int 50 },
          { Timestamp := 200, Value := .double Float64.nan }].filter
        (fun p => !isNaNPoint p)).map
        (numberMetricPoint (sumBaseIdentity {} {}
          (requestsTotal
            [{ Timestamp := 100, Value := .int 50 },
              { Timestamp := 200, Value := .double Float64.nan }])
          { AggregationTemporality := .Cumulative, IsMonotonic := true,
            DataPoints :=
              [{ Timestamp := 100, Value := .int 50 },
                { Timestamp := 200, Value := .double Float64.nan }] })) :=
  (sum_identity_fields {} (Convert FloatArith.bitwise) {} {} {}
    (requestsTotal
      [{ Timestamp := 100, Value := .int 50 },
        { Timestamp := 200, Value := .double Float64.nan }])
    { AggregationTemporality := .Cumulative, IsMonotonic := true,
      DataPoints :=
        [{ Timestamp := 100, Value := .int 50 },
          { Timestamp := 200, Value := .double Float64.nan }] } rfl rfl).1

/-- C13: every call of `shutdown` returns a nil error and calls the cancel function once;
after the first call the sweep context is cancelled, and it stays cancelled however many
further times `shutdown` is called: on a cancelled context a call changes nothing but the
count of calls. -/
theorem shutdown_idempotent (ctx : SweepContext) (n : Nat) :
    (shutdown ctx).1 = none ∧
    (shutdown ctx).2 = cancelFunc ctx ∧
    (shutdown ctx).2.CancelCalls = ctx.CancelCalls + 1 ∧
    (shutdown ctx).2.Cancelled = true ∧
    (shutdown (shutdown ctx).2).2.Cancelled = (shutdown ctx).2.Cancelled ∧
    (shutdownTimes (n + 1) ctx).Cancelled = (shutdown ctx).2.Cancelled ∧
    (shutdownTimes n ctx).CancelCalls = ctx.CancelCalls + n ∧
    (shutdown (shutdownTimes n ctx)).1 = none := by
  have hcalls : ∀ (k : Nat) (c : SweepContext),
      (shutdownTimes k c).CancelCalls = c.CancelCalls + k := by
    intro k
    induction k with
    | zero => intro c; rfl
    | succ k ih =>
      intro c
      show (shutdownTimes k (shutdown c).2).CancelCalls = _
      rw [ih]
      simp [shutdown, cancelFunc]
      omega
  have hcanc : ∀ (k : Nat) (c : SweepContext), c.Cancelled = true →
      (shutdownTimes k c).Cancelled = true := by
    intro k
    induction k with
    | zero => intro c h; exact h
    | succ k ih => intro c _; exact ih (shutdown c).2 rfl
  exact ⟨rfl, rfl, rfl, rfl, rfl, hcanc n (shutdown ctx).2 rfl, hcalls n ctx, rfl⟩

/-- C15: the series "requests_total", a monotonic cumulative integer sum, fed through the
processor with a fresh tracker of the specification. 50 at time 100 is dropped and stored
as baseline; 70 at 200 is emitted with value 20 and start timestamp 100; 999 at 150 is
dropped and leaves the tracker as it was; 30 at 300 is emitted as a reset with value 30 and
becomes the baseline. In general, when the tracker holds observation A as the baseline of a
monotonic scalar series and B arrives with a later timestamp, the point comes out with start
timestamp A.timestamp and with value B.value - A.value (in 64-bit arithmetic, the plain
difference when it fits; the float difference for doubles) when B.value is not below
A.value, and with value B.value when it is; B becomes the baseline. -/
theorem requests_total_scenario (fa : FloatArith) :
    ((observeRequestsTotal fa {} 100 50).1.1 = { ResourceMetrics := [] } ∧
      (observeRequestsTotal fa {} 100 50).2.lookup requestsTotalIntIdentity =
        some ⟨requestsTotalIntIdentity, { ObservedTimestamp := 100, IntValue := 50 }, 0⟩ ∧
      (observeRequestsTotal fa (observeRequestsTotal fa {} 100 50).2 200 70).1.1 =
        emittedRequestsTotal 100 200 20 ∧
      (observeRequestsTotal fa
        (observeRequestsTotal fa (observeRequestsTotal fa {} 100 50).2 200 70).2 150 999).1.1 =
        { ResourceMetrics := [] } ∧
      (observeRequestsTotal fa
        (observeRequestsTotal fa (observeRequestsTotal fa {} 100 50).2 200 70).2 150 999).2 =
        (observeRequestsTotal fa (observeRequestsTotal fa {} 100 50).2 200 70).2 ∧
      (observeRequestsTotal fa
        (observeRequestsTotal fa
          (observeRequestsTotal fa (observeRequestsTotal fa {} 100 50).2 200 70).2
          150 999).2 300 30).1.1 = emittedRequestsTotal 200 300 30 ∧
      (observeRequestsTotal fa
        (observeRequestsTotal fa
          (observeRequestsTotal fa (observeRequestsTotal fa {} 100 50).2 200 70).2
          150 999).2 300 30).2.lookup requestsTotalIntIdentity =
        some ⟨requestsTotalIntIdentity, { ObservedTimestamp := 300, IntValue := 30 }, 0⟩) ∧
    (∀ (st : TrackerState) (idA idB : MetricIdentity) (a : ValuePoint),
      sameSeries idA idB = true → (st.store idA a).lookup idB = some ⟨idA, a, st.Now⟩) ∧
    (∀ (st : TrackerState) (base : MetricIdentity) (p : NumberDataPoint) (e : TrackerEntry)
      (b : Int), p.Value = .int b →
      st.lookup (numberMetricPoint base p).Identity = some e →
      e.Point.ObservedTimestamp < p.Timestamp → base.MetricIsMonotonic = true →
      (e.Point.IntValue ≤ b →
        convertDataPoint (Convert fa) base st p =
          ((false,
            { p with
              StartTimestamp := e.Point.ObservedTimestamp
              Value := .int (subInt64 b e.Point.IntValue) }),
            st.store (numberMetricPoint base p).Identity (numberMetricPoint base p).Value) ∧
        (b - e.Point.IntValue < 2 ^ 63 → subInt64 b e.Point.IntValue = b - e.Point.IntValue)) ∧
      (b < e.Point.IntValue →
        convertDataPoint (Convert fa) base st p =
          ((false, { p with StartTimestamp := e.Point.ObservedTimestamp, Value := .int b }),
            st.store (numberMetricPoint base p).Identity (numberMetricPoint base p).Value))) ∧
    (∀ (st : TrackerState) (base : MetricIdentity) (p : NumberDataPoint) (e : TrackerEntry)
      (b : Float64), p.Value = .double b → b.IsNaN = false →
      st.lookup (numberMetricPoint base p).Identity = some e →
      e.Point.ObservedTimestamp < p.Timestamp → base.MetricIsMonotonic = true →
      (fa.lt b e.Point.FloatValue = false →
        convertDataPoint (Convert fa) base st p =
          ((false,
            { p with
              StartTimestamp := e.Point.ObservedTimestamp
              Value := .double (fa.sub b e.Point.FloatValue) }),
            st.store (numberMetricPoint base p).Identity (numberMetricPoint base p).Value)) ∧
      (fa.lt b e.Point.FloatValue = true →
        convertDataPoint (Convert fa) base st p =
          ((false, { p with StartTimestamp := e.Point.ObservedTimestamp, Value := .double b }),
            st.store (numberMetricPoint base p).Identity
              (numberMetricPoint base p).Value))) := by
  refine ⟨⟨rfl, rfl, rfl, rfl, rfl, rfl, rfl⟩, ?_, ?_, ?_⟩
  · intro st idA idB a h
    exact lookup_store_same st idA idB a h
  · intro st base p e b hv he hts hmono
    have hn : isNaNPoint p = false := by simp [isNaNPoint, NumberDataPoint.ValueType, hv]
    have hty : p.ValueType = .Int := by simp [NumberDataPoint.ValueType, hv]
    have hint : (numberMetricPoint base p).Identity.IsFloatVal = false := by
      simp [numberMetricPoint, numberPointIdentity, MetricIdentity.IsFloatVal, hty]
    have hval : (numberMetricPoint base p).Value =
        { ObservedTimestamp := p.Timestamp, IntValue := b } := by
      simp [numberMetricPoint, hty, NumberDataPoint.IntVal, hv]
    have hts2 : e.Point.ObservedTimestamp < (numberMetricPoint base p).Value.ObservedTimestamp := by
      rw [hval]; exact hts
    have hnh : (numberMetricPoint base p).Value.HistogramValue = none := by rw [hval]
    have hm : (numberMetricPoint base p).Identity.MetricIsMonotonic = true := hmono
    constructor
    · intro hle
      have hle2 : e.Point.IntValue ≤ (numberMetricPoint base p).Value.IntValue := by
        rw [hval]; exact hle
      refine ⟨?_, ?_⟩
      · rw [convertDataPoint_of_submitted _ base st p hn,
          Convert_int_advance fa st _ e he hts2 hint hnh hle2]
        simp [hty, hval]
      · intro hfit
        apply subInt64_of_inRange
        · have : (0 : Int) ≤ b - e.Point.IntValue := by omega
          have h2 : -(2 ^ 63 : Int) ≤ 0 := by norm_num
          exact le_trans h2 this
        · exact hfit
    · intro hlt
      have hlt2 : (numberMetricPoint base p).Value.IntValue < e.Point.IntValue := by
        rw [hval]; exact hlt
      rw [convertDataPoint_of_submitted _ base st p hn,
        Convert_int_reset fa st _ e he hts2 hint hm hnh hlt2]
      simp [hty, hval]
  · intro st base p e b hv hnb he hts hmono
    have hdv : p.DoubleVal = b := by simp [NumberDataPoint.DoubleVal, hv]
    have hty : p.ValueType = .Double := by simp [NumberDataPoint.ValueType, hv]
    have hn : isNaNPoint p = false := by simp [isNaNPoint, hty, hdv, hnb]
    have hfl : (numberMetricPoint base p).Identity.IsFloatVal = true := by
      simp [numberMetricPoint, numberPointIdentity, MetricIdentity.IsFloatVal, hty]
    have hval : (numberMetricPoint base p).Value =
        { ObservedTimestamp := p.Timestamp, FloatValue := b } := by
      simp [numberMetricPoint, hty, hdv]
    have hts2 : e.Point.ObservedTimestamp < (numberMetricPoint base p).Value.ObservedTimestamp := by
      rw [hval]; exact hts
    have hnh : (numberMetricPoint base p).Value.HistogramValue = none := by rw [hval]
    have hnan2 : (numberMetricPoint base p).Value.FloatValue.IsNaN = false := by
      rw [hval]; exact hnb
    have hm : (numberMetricPoint base p).Identity.MetricIsMonotonic = true := hmono
    constructor
    · intro hge
      have hge2 : fa.lt (numberMetricPoint base p).Value.FloatValue e.Point.FloatValue
          = false := by rw [hval]; exact hge
      rw [convertDataPoint_of_submitted _ base st p hn,
        Convert_float_advance fa st _ e he hts2 hfl hnan2 hnh hge2]
      simp [hty, hval]
    · intro hlt
      have hlt2 : fa.lt (numberMetricPoint base p).Value.FloatValue e.Point.FloatValue
          = true := by rw [hval]; exact hlt
      rw [convertDataPoint_of_submitted _ base st p hn,
        Convert_float_reset fa st _ e he hts2 hfl hnan2 hm hnh hlt2]
      simp [hty, hval]

/-- C15, on the second observation of "requests_total" (50 at 100, then 70 at 200): the
point comes out with start timestamp 100 and value 20. -/
theorem requests_total_scenario_witness :
    (convertDataPoint (Convert FloatArith.ieee) requestsTotalIdentity
      ((TrackerState.store {} requestsTotalIntIdentity
        { ObservedTimestamp := 100, IntValue := 50 }))
      { Timestamp := 200, Value := .int 70 }).1 =
      (false, { StartTimestamp := 100, Timestamp := 200, Value := .int 20 }) :=
  (congrArg Prod.fst
    (((requests_total_scenario FloatArith.ieee).2.2.1
      ((TrackerState.store {} requestsTotalIntIdentity
        { ObservedTimestamp := 100, IntValue := 50 }))
      requestsTotalIdentity { Timestamp := 200, Value := .int 70 }
      ⟨requestsTotalIntIdentity, { ObservedTimestamp := 100, IntValue := 50 }, 0⟩ 70
      rfl (by decide) (by decide) rfl).1 (by decide)).1).trans (by decide)

/-- C16: for a histogram point that arrives after the baseline of its identity, with as many
buckets as the baseline, where the sum of the point and the sum of the baseline are numbers,
the tracker of the specification emits the elementwise difference of the bucket counts
together with the difference of the counts and the difference of the sums, with the timestamp
of the baseline as start timestamp, and the processor sets the count, the sum and the bucket
counts of the output point to these values. Counts subtract as 64-bit unsigned numbers, which
is the plain difference when the counter did not decrease. In the example of the
specification (buckets 4, 2, 3, 7, sum 100, count 16, then buckets 10, 5, 9, 20, sum 250,
count 40) the tracker emits buckets 6, 3, 6, 13, sum 150 and count 24, and the point comes
out with these values. -/
theorem histogram_delta_elementwise (fa : FloatArith) :
    (∀ (st : TrackerState) (base : MetricIdentity) (p : HistogramDataPoint) (e : TrackerEntry)
      (ph : HistogramPoint) (c : Float64), base.MetricValueType = .Int →
      st.lookup (histogramMetricPoint base p).Identity = some e →
      e.Point.HistogramValue = some ph → e.Point.ObservedTimestamp < p.Timestamp →
      p.BucketCounts.length = ph.Buckets.length →
      p.OptSum = some c → c.IsNaN = false → ph.Sum.IsNaN = false →
      (Convert fa st (histogramMetricPoint base p)).1 =
        ({ StartTimestamp := e.Point.ObservedTimestamp
           HistogramValue :=
            { Count := subUint64 p.Count ph.Count
              Sum := fa.sub c ph.Sum
              Buckets := List.zipWith subUint64 p.BucketCounts ph.Buckets } }, true) ∧
      (convertHistogramDataPoint (Convert fa) base st p).1 =
        (false,
          { p with
            StartTimestamp := e.Point.ObservedTimestamp
            Count := subUint64 p.Count ph.Count
            OptSum := some (fa.sub c ph.Sum)
            BucketCounts := List.zipWith subUint64 p.BucketCounts ph.Buckets })) ∧
    (∀ a b : Nat, b ≤ a → a < 2 ^ 64 → subUint64 a b = a - b) ∧
    (Convert FloatArith.ieee (ieeeTrackerAfterHistogramPoint latencyFirst)
      (histogramMetricPoint latencyIdentity latencySecond)).1 =
      ({ StartTimestamp := 100
         HistogramValue := { Count := 24, Sum := Float64.f150, Buckets := [6, 3, 6, 13] } },
        true) ∧
    (convertHistogramDataPoint (Convert FloatArith.ieee) latencyIdentity
      (ieeeTrackerAfterHistogramPoint latencyFirst) latencySecond).1 =
      (false,
        { StartTimestamp := 100, Timestamp := 200, Count := 24, OptSum := some Float64.f150,
          BucketCounts := [6, 3, 6, 13] }) := by
  refine ⟨?_, subUint64_of_le, by decide, by decide⟩
  intro st base p e ph c hbase he hph hts hlen hsum hc hphs
  have hint : (histogramMetricPoint base p).Identity.IsFloatVal = false := by
    simp [histogramMetricPoint, histogramPointIdentity, MetricIdentity.IsFloatVal, hbase]
  have hps : p.Sum = c := by simp [HistogramDataPoint.Sum, hsum]
  have hhs : p.HasSum = true := by simp [HistogramDataPoint.HasSum, hsum]
  have hconv := Convert_histogram_advance fa st (histogramMetricPoint base p) e
    { Count := p.Count, Sum := p.Sum, Buckets := p.BucketCounts } ph he hts hint rfl hph hlen
  rw [hps] at hconv
  simp only [hc, hphs, Bool.or_self, Bool.false_eq_true, if_false] at hconv
  refine ⟨by rw [hconv], ?_⟩
  rw [convertHistogramDataPoint_eq, hconv]
  simp [hhs, hps, hc]

/-- C16, on the example of the specification: the point comes out with start timestamp 100,
count 24, sum 150 and buckets 6, 3, 6, 13. -/
theorem histogram_delta_elementwise_witness :
    (convertHistogramDataPoint (Convert FloatArith.ieee) latencyIdentity
      (ieeeTrackerAfterHistogramPoint latencyFirst) latencySecond).1 =
      (false,
        { StartTimestamp := 100, Timestamp := 200, Count := 24, OptSum := some Float64.f150,
          BucketCounts := [6, 3, 6, 13] }) :=
  (((histogram_delta_elementwise FloatArith.ieee).1
    (ieeeTrackerAfterHistogramPoint latencyFirst) latencyIdentity latencySecond
    ⟨latencyIdentity, histogramValuePoint latencyFirst, 0⟩
    { Count := 16, Sum := Float64.f100, Buckets := [4, 2, 3, 7] } Float64.f250
    rfl (by decide) rfl (by decide) rfl rfl (by decide) (by decide)).2).trans (by decide)

/-- C17: on the tracker of the specification, a `Convert` call whose point has a timestamp
less than or equal to the one of the stored entry of its identity returns `valid = false`
and leaves the state, and with it the entry, as it was, and the processor removes that
point, be it a number point or a histogram point. After one `Convert` call the entry of
any identity is the same or has a later timestamp, and over every sequence of `Convert`
calls an identity that has a baseline keeps one, with a timestamp that never decreases. -/
theorem baseline_timestamp_only_increases (fa : FloatArith) :
    (∀ (st : TrackerState) (mp : MetricPoint) (e : TrackerEntry),
      st.lookup mp.Identity = some e →
      mp.Value.ObservedTimestamp ≤ e.Point.ObservedTimestamp →
      Convert fa st mp = (({}, false), st)) ∧
    (∀ (st : TrackerState) (base : MetricIdentity) (p : NumberDataPoint) (e : TrackerEntry),
      isNaNPoint p = false → st.lookup (numberMetricPoint base p).Identity = some e →
      p.Timestamp ≤ e.Point.ObservedTimestamp →
      convertDataPoint (Convert fa) base st p = ((true, p), st)) ∧
    (∀ (st : TrackerState) (base : MetricIdentity) (p : HistogramDataPoint) (e : TrackerEntry),
      st.lookup (histogramMetricPoint base p).Identity = some e →
      p.Timestamp ≤ e.Point.ObservedTimestamp →
      convertHistogramDataPoint (Convert fa) base st p = ((true, p), st)) ∧
    (∀ (st : TrackerState) (mp : MetricPoint) (id : MetricIdentity) (e : TrackerEntry),
      st.lookup id = some e →
      ∃ e2, (Convert fa st mp).2.lookup id = some e2 ∧
        (e2 = e ∨ e.Point.ObservedTimestamp < e2.Point.ObservedTimestamp)) ∧
    (∀ (st : TrackerState) (mps : List MetricPoint) (id : MetricIdentity) (e : TrackerEntry),
      st.lookup id = some e →
      ∃ e2, (convertAll fa st mps).lookup id = some e2 ∧
        e.Point.ObservedTimestamp ≤ e2.Point.ObservedTimestamp) := by
  refine ⟨fun st mp e he hts => Convert_of_not_after fa st mp e he hts, ?_, ?_,
    fun st mp id e he => Convert_lookup_mono fa st mp id e he,
    fun st mps id e he => convertAll_lookup_mono fa mps st id e he⟩
  · intro st base p e hn he hts
    have hts2 : (numberMetricPoint base p).Value.ObservedTimestamp ≤
        e.Point.ObservedTimestamp := by
      unfold numberMetricPoint
      split <;> exact hts
    rw [convertDataPoint_of_submitted _ base st p hn,
      Convert_of_not_after fa st _ e he hts2]
    simp
  · intro st base p e he hts
    rw [convertHistogramDataPoint_eq, Convert_of_not_after fa st _ e he hts]
    simp

/-- C17, on "requests_total" with the baseline 70 at 200: the point 999 at 150 is removed
and the tracker stays as it was. -/
theorem baseline_timestamp_only_increases_witness :
    convertDataPoint (Convert FloatArith.ieee) requestsTotalIdentity
      (TrackerState.store {} requestsTotalIntIdentity
        { ObservedTimestamp := 200, IntValue := 70 })
      { Timestamp := 150, Value := .int 999 } =
      ((true, { Timestamp := 150, Value := .int 999 }),
        TrackerState.store {} requestsTotalIntIdentity
          { ObservedTimestamp := 200, IntValue := 70 }) :=
  (baseline_timestamp_only_increases FloatArith.ieee).2.1
    (TrackerState.store {} requestsTotalIntIdentity
      { ObservedTimestamp := 200, IntValue := 70 })
    requestsTotalIdentity { Timestamp := 150, Value := .int 999 }
    ⟨requestsTotalIntIdentity, { ObservedTimestamp := 200, IntValue := 70 }, 0⟩
    (by decide) (by decide) (by decide)

/-- C18: one pass of the staleness sweep of the specification removes the entries of an
identity when their last-seen mark is older than `MaxStaleness`; once the sweep has left no
entry for an identity, the next `Convert` for it answers as on a tracker that never saw the
identity: `valid = false` with the point stored as the new baseline, and the processor
emits no output point for it, number point or histogram point. -/
theorem convert_after_eviction_is_first_observation (fa : FloatArith) (st : TrackerState)
    (maxStaleness : Nat) :
    (∀ id : MetricIdentity,
      (∀ e ∈ st.Entries, sameSeries e.Identity id = true →
        st.Now - e.LastSeen > maxStaleness) →
      (st.sweep maxStaleness).lookup id = none) ∧
    (∀ mp : MetricPoint, (st.sweep maxStaleness).lookup mp.Identity = none →
      (Convert fa (st.sweep maxStaleness) mp).1 = (Convert fa {} mp).1 ∧
      (Convert fa (st.sweep maxStaleness) mp).1.2 = false ∧
      (Convert fa (st.sweep maxStaleness) mp).2 =
        (st.sweep maxStaleness).store mp.Identity mp.Value ∧
      (Convert fa (st.sweep maxStaleness) mp).2.lookup mp.Identity =
        some ⟨mp.Identity, mp.Value, st.Now⟩) ∧
    (∀ (base : MetricIdentity) (p : NumberDataPoint), isNaNPoint p = false →
      (st.sweep maxStaleness).lookup (numberMetricPoint base p).Identity = none →
      (convertDataPoints (Convert fa) base (st.sweep maxStaleness) [p]).1 = []) ∧
    (∀ (base : MetricIdentity) (p : HistogramDataPoint),
      (st.sweep maxStaleness).lookup (histogramMetricPoint base p).Identity = none →
      (convertHistogramDataPoints (Convert fa) base (st.sweep maxStaleness) [p]).1 = []) := by
  refine ⟨fun id h => lookup_sweep_of_stale st maxStaleness id h, ?_, ?_, ?_⟩
  · intro mp h
    rw [Convert_of_lookup_none fa _ mp h]
    refine ⟨?_, rfl, rfl, ?_⟩
    · rw [Convert_of_lookup_none fa {} mp rfl]
    · exact lookup_store_same _ _ _ _ (sameSeries_refl _)
  · intro base p hn h
    unfold convertDataPoints
    rw [RemoveIf_cons, convertDataPoint_of_submitted _ base _ p hn,
      Convert_of_lookup_none fa _ _ h]
    simp [RemoveIf_nil]
  · intro base p h
    unfold convertHistogramDataPoints
    rw [RemoveIf_cons, convertHistogramDataPoint_eq, Convert_of_lookup_none fa _ _ h]
    simp [RemoveIf_nil]

/-- C18, on "requests_total": the baseline 50 at 100 was last seen at clock 0; at clock 10
a sweep with `MaxStaleness` 5 evicts it. -/
theorem convert_after_eviction_is_first_observation_witness :
    (((TrackerState.store {} requestsTotalIntIdentity
      { ObservedTimestamp := 100, IntValue := 50 }).advanceClock 10).sweep 5).lookup
      requestsTotalIntIdentity = none :=
  (convert_after_eviction_is_first_observation FloatArith.ieee
    ((TrackerState.store {} requestsTotalIntIdentity
      { ObservedTimestamp := 100, IntValue := 50 }).advanceClock 10) 5).1
    requestsTotalIntIdentity (by decide)

/-- C19: series equality does not depend on the order in which attributes were inserted.
Two number points of the same metric, scope and resource with the same value type whose
attribute lists are permutations of each other get identities that are the same series; so
when the first is a first observation, the entry the tracker then finds for the second is
the baseline stored by the first, and a later integer point that is not below it comes out
with the difference of the two values and the timestamp of the first as start timestamp. -/
theorem series_ignores_attribute_order (fa : FloatArith) (base : MetricIdentity)
    (p q : NumberDataPoint) (hperm : List.Perm p.Attributes q.Attributes)
    (hty : p.ValueType = q.ValueType) :
    sameSeries (numberPointIdentity base p) (numberPointIdentity base q) = true ∧
    (∀ st : TrackerState, st.lookup (numberMetricPoint base p).Identity = none →
      (Convert fa st (numberMetricPoint base p)).2.lookup (numberMetricPoint base q).Identity =
        some ⟨(numberMetricPoint base p).Identity, (numberMetricPoint base p).Value, st.Now⟩) ∧
    (∀ (st : TrackerState) (a b : Int), p.Value = .int a → q.Value = .int b →
      st.lookup (numberMetricPoint base p).Identity = none →
      p.Timestamp < q.Timestamp → a ≤ b →
      (convertDataPoint (Convert fa) base
        (convertDataPoint (Convert fa) base st p).2 q).1 =
        (false, { q with StartTimestamp := p.Timestamp, Value := .int (subInt64 b a) })) := by
  have hs : sameSeries (numberPointIdentity base p) (numberPointIdentity base q) = true := by
    rw [sameSeries_iff]
    simp [numberPointIdentity, hty, hperm]
  have hstore : ∀ st : TrackerState, st.lookup (numberMetricPoint base p).Identity = none →
      (Convert fa st (numberMetricPoint base p)).2.lookup (numberMetricPoint base q).Identity =
        some ⟨(numberMetricPoint base p).Identity, (numberMetricPoint base p).Value,
          st.Now⟩ := by
    intro st hnone
    rw [Convert_of_lookup_none fa st _ hnone]
    exact lookup_store_same st _ _ _ hs
  refine ⟨hs, hstore, ?_⟩
  intro st a b hpa hqb hnone hts hle
  have hnp : isNaNPoint p = false := by simp [isNaNPoint, NumberDataPoint.ValueType, hpa]
  have hnq : isNaNPoint q = false := by simp [isNaNPoint, NumberDataPoint.ValueType, hqb]
  have hqt : q.ValueType = .Int := by simp [NumberDataPoint.ValueType, hqb]
  have hpt : p.ValueType = .Int := by simp [NumberDataPoint.ValueType, hpa]
  have hst1 : (convertDataPoint (Convert fa) base st p).2 =
      (Convert fa st (numberMetricPoint base p)).2 := by
    rw [convertDataPoint_of_submitted _ base st p hnp]
    split <;> rfl
  rw [hst1]
  have hpv : (numberMetricPoint base p).Value =
      { ObservedTimestamp := p.Timestamp, IntValue := a } := by
    simp [numberMetricPoint, hpt, NumberDataPoint.IntVal, hpa]
  have hqv : (numberMetricPoint base q).Value =
      { ObservedTimestamp := q.Timestamp, IntValue := b } := by
    simp [numberMetricPoint, hqt, NumberDataPoint.IntVal, hqb]
  have hint : (numberMetricPoint base q).Identity.IsFloatVal = false := by
    simp [numberMetricPoint, numberPointIdentity, MetricIdentity.IsFloatVal, hqt]
  rw [convertDataPoint_of_submitted _ base _ q hnq,
    Convert_int_advance fa _ _ _ (hstore st hnone) (by rw [hpv, hqv]; exact hts) hint
      (by rw [hqv]) (by rw [hpv, hqv]; exact hle)]
  simp [hqt, hpv, hqv]

/-- C19, on "requests_total" with the attributes a = 1, b = 2 on the first point (50 at 100)
and b = 2, a = 1 on the second (70 at 200): the second comes out with value 20 and start
timestamp 100. -/
theorem series_ignores_attribute_order_witness :
    (convertDataPoint (Convert FloatArith.ieee) requestsTotalIdentity
      (convertDataPoint (Convert FloatArith.ieee) requestsTotalIdentity {}
        (attributedPoint [("a", .str "1"), ("b", .str "2")] 100 50)).2
      (attributedPoint [("b", .str "2"), ("a", .str "1")] 200 70)).1 =
      (false,
        { Attributes := [("b", .str "2"), ("a", .str "1")], StartTimestamp := 100,
          Timestamp := 200, Value := .int 20 }) :=
  ((series_ignores_attribute_order FloatArith.ieee requestsTotalIdentity
    (attributedPoint [("a", .str "1"), ("b", .str "2")] 100 50)
    (attributedPoint [("b", .str "2"), ("a", .str "1")] 200 70)
    (List.Perm.swap _ _ _) rfl).2.2 {} 50 70 rfl rfl rfl (by decide) (by decide)).trans
    (by decide)

/-- C22: NaN values are not transformed. For a double data point with a NaN value in a
converted sum, the callback makes no `Convert` call: it returns the point as it is, with the
tracker state it was given, for every tracker; in the collection the point stays at its
place and the points after it meet the tracker state the points before it left. The point is
in the batch `processMetrics` returns, unchanged, in a sum of the same name whose temporality
is delta. A sum with nothing but NaN points comes out with its points as they were, delta
temporality and the tracker untouched. -/
theorem nan_point_not_transformed {σ : Type} (ctdp : cumulativeToDeltaProcessor)
    (conv : ConvertFn σ) (st : σ) (md : Metrics) (rm : ResourceMetrics) (ilm : ScopeMetrics)
    (m : Metric) (ms : Sum) (p : NumberDataPoint) (hrm : rm ∈ md.ResourceMetrics)
    (hilm : ilm ∈ rm.ScopeMetrics) (hm : m ∈ ilm.Metrics) (hd : m.Data = .sum ms)
    (hc : convertible ctdp m = true) (hp : p ∈ ms.DataPoints) (hnan : isNaNPoint p = true) :
    (∀ (base : MetricIdentity) (s : σ), convertDataPoint conv base s p = ((false, p), s)) ∧
    (∀ (base : MetricIdentity) (s : σ) (pre post : List NumberDataPoint),
      convertDataPoints conv base s (pre ++ p :: post) =
        ((convertDataPoints conv base s pre).1 ++
            p :: (convertDataPoints conv base (convertDataPoints conv base s pre).2 post).1,
          (convertDataPoints conv base (convertDataPoints conv base s pre).2 post).2)) ∧
    (∀ base : MetricIdentity, pointSubmissions base p = []) ∧
    (∃ rmOut ∈ (processMetrics ctdp conv st md).1.1.ResourceMetrics,
      rmOut.Resource = rm.Resource ∧
      ∃ ilmOut ∈ rmOut.ScopeMetrics, ilmOut.Scope = ilm.Scope ∧
      ∃ mOut ∈ ilmOut.Metrics, mOut.Name = m.Name ∧ mOut.temporality = some .Delta ∧
        ∃ msOut, mOut.Data = .sum msOut ∧ p ∈ msOut.DataPoints) ∧
    ((∀ q ∈ ms.DataPoints, isNaNPoint q = true) →
      ∀ (resource : Resource) (scope : InstrumentationScope) (s : σ),
        processMetric ctdp conv resource scope s m =
          ((false, { m with Data := .sum { ms with AggregationTemporality := .Delta } }), s)) := by
  refine ⟨fun base s => convertDataPoint_of_nan conv base s p hnan, ?_, ?_, ?_, ?_⟩
  · intro base s pre post
    exact RemoveIf_pass (convertDataPoint conv base) pre post p
      (fun t => convertDataPoint_of_nan conv base t p hnan) s
  · intro base
    simp [pointSubmissions, hnan]
  · refine exists_metric_in_output ctdp conv st md rm ilm m
      (fun y => y.Name = m.Name ∧ y.temporality = some .Delta ∧
        ∃ msOut, y.Data = .sum msOut ∧ p ∈ msOut.DataPoints)
      hrm hilm hm (fun s => ?_)
    have hin : p ∈ (convertDataPoints conv (sumBaseIdentity rm.Resource ilm.Scope m ms) s
        ms.DataPoints).1 := by
      obtain ⟨y, hy, rfl⟩ := exists_mem_RemoveIf
        (convertDataPoint conv (sumBaseIdentity rm.Resource ilm.Scope m ms)) (fun y => y = p) p
        ms.DataPoints hp
        (fun t => by rw [convertDataPoint_of_nan conv _ t p hnan]; exact ⟨rfl, rfl⟩) s
      exact hy
    rw [processMetric_of_sum ctdp conv rm.Resource ilm.Scope s m ms hd hc]
    refine ⟨?_, rfl, rfl, _, rfl, hin⟩
    cases hl : (convertDataPoints conv (sumBaseIdentity rm.Resource ilm.Scope m ms) s
      ms.DataPoints).1 with
    | nil => rw [hl] at hin; cases hin
    | cons a l => simp
  · intro hall resource scope s
    rw [processMetric_of_sum ctdp conv resource scope s m ms hd hc]
    unfold convertDataPoints
    rw [RemoveIf_of_keep_all _ _
      (fun q hq t => convertDataPoint_of_nan conv _ t q (hall q hq))]
    cases hl : ms.DataPoints with
    | nil => rw [hl] at hp; cases hp
    | cons a l =>
      have : ({ ms with DataPoints := a :: l, AggregationTemporality := .Delta } : Sum) =
          { ms with AggregationTemporality := .Delta } := by
        rw [← hl]
      simp [this]

/-- C22, on "requests_total" with its only point NaN: the metric comes out with the point as
it was, delta temporality, and a tracker that has stored nothing. -/
theorem nan_point_not_transformed_witness :
    processMetric {} (Convert FloatArith.ieee) {} {} {}
      (requestsTotal [{ Timestamp := 100, Value := .double Float64.nan }]) =
      ((false,
        { requestsTotal [{ Timestamp := 100, Value := .double Float64.nan }] with
          Data := .sum
            { AggregationTemporality := .Delta, IsMonotonic := true,
              DataPoints := [{ Timestamp := 100, Value := .double Float64.nan }] } }), {}) :=
  (nan_point_not_transformed {} (Convert FloatArith.ieee) {}
    (singleScopeBatch [requestsTotal [{ Timestamp := 100, Value := .double Float64.nan }]])
    { ScopeMetrics :=
        [{ Metrics := [requestsTotal [{ Timestamp := 100, Value := .double Float64.nan }]] }] }
    { Metrics := [requestsTotal [{ Timestamp := 100, Value := .double Float64.nan }]] }
    (requestsTotal [{ Timestamp := 100, Value := .double Float64.nan }])
    { AggregationTemporality := .Cumulative, IsMonotonic := true,
      DataPoints := [{ Timestamp := 100, Value := .double Float64.nan }] }
    { Timestamp := 100, Value := .double Float64.nan }
    (List.mem_singleton.2 rfl) (List.mem_singleton.2 rfl) (List.mem_singleton.2 rfl) rfl rfl
    (List.mem_singleton.2 rfl) (by decide)).2.2.2.2 (by decide) {} {} {}

/-- C23: for a histogram data point for which `Convert` returns a delta with `valid = true`,
the sum of the point is left exactly as it came in when the point has no sum or its sum is
NaN, whatever the sum of the delta is, and is set to the sum of the delta otherwise. -/
theorem histogram_sum_written_iff_present {σ : Type} (conv : ConvertFn σ)
    (base : MetricIdentity) (st : σ) (p : HistogramDataPoint)
    (hv : (conv st (histogramMetricPoint base p)).1.2 = true) :
    (p.HasSum = false → (convertHistogramDataPoint conv base st p).1.2.OptSum = p.OptSum) ∧
    (p.Sum.IsNaN = true → (convertHistogramDataPoint conv base st p).1.2.OptSum = p.OptSum) ∧
    (p.HasSum = true → p.Sum.IsNaN = false →
      (convertHistogramDataPoint conv base st p).1.2.OptSum =
        some (conv st (histogramMetricPoint base p)).1.1.HistogramValue.Sum ∧
      (convertHistogramDataPoint conv base st p).1.2.Sum =
        (conv st (histogramMetricPoint base p)).1.1.HistogramValue.Sum ∧
      (convertHistogramDataPoint conv base st p).1.2.HasSum = true) ∧
    ((convertHistogramDataPoint conv base st p).1.2.OptSum ≠ p.OptSum →
      p.HasSum = true ∧ p.Sum.IsNaN = false) := by
  rw [convertHistogramDataPoint_eq conv base st p, if_pos hv]
  refine ⟨?_, ?_, ?_, ?_⟩
  · intro h
    simp [h]
  · intro h
    simp [h]
  · intro h1 h2
    have hb : (p.HasSum && !p.Sum.IsNaN) = true := by simp [h1, h2]
    rw [if_pos hb]
    exact ⟨rfl, rfl, rfl⟩
  · intro h
    cases h1 : p.HasSum
    · simp [h1] at h
    · cases h2 : p.Sum.IsNaN
      · exact ⟨rfl, rfl⟩
      · simp [h1, h2] at h

/-- C23, on the second observation of "latency" when the point carries no sum: the point
comes out without a sum. -/
theorem histogram_sum_written_iff_present_witness :
    (convertHistogramDataPoint (Convert FloatArith.ieee) latencyIdentity
      (ieeeTrackerAfterHistogramPoint latencyFirst)
      { latencySecond with OptSum := none }).1.2.OptSum = none :=
  (histogram_sum_written_iff_present (Convert FloatArith.ieee) latencyIdentity
    (ieeeTrackerAfterHistogramPoint latencyFirst) { latencySecond with OptSum := none }
    (by decide)).1 rfl

/-- C24: an eligible monotonic cumulative sum that arrives without data points is removed by
the metric callback without a `Convert` call: the tracker state and the log of submitted
points stay as they were, and the metrics of its scope are processed as if it were not
there. When it is the only metric of its scope the scope is removed, and a resource that
holds nothing but this scope is removed too, so a batch of that one resource comes out
empty. -/
theorem empty_sum_removed {σ : Type} (ctdp : cumulativeToDeltaProcessor) (conv : ConvertFn σ)
    (m : Metric) (ms : Sum) (hd : m.Data = .sum ms) (hc : convertible ctdp m = true)
    (he : ms.DataPoints = []) :
    (∀ (resource : Resource) (scope : InstrumentationScope) (s : σ) (log : List MetricPoint),
      (processMetric ctdp (recording conv) resource scope (s, log) m).1.1 = true ∧
      (processMetric ctdp (recording conv) resource scope (s, log) m).2 = (s, log)) ∧
    (∀ (resource : Resource) (scope : InstrumentationScope) (s : σ) (pre post : List Metric),
      RemoveIf (processMetric ctdp conv resource scope) s (pre ++ m :: post) =
        RemoveIf (processMetric ctdp conv resource scope) s (pre ++ post)) ∧
    (∀ (resource : Resource) (s : σ) (ilm : ScopeMetrics), ilm.Metrics = [m] →
      (processScopeMetrics ctdp conv resource s ilm).1.1 = true ∧
      (processScopeMetrics ctdp conv resource s ilm).2 = s) ∧
    (∀ (s : σ) (rm : ResourceMetrics) (ilm : ScopeMetrics), ilm.Metrics = [m] →
      rm.ScopeMetrics = [ilm] →
      (processResourceMetrics ctdp conv s rm).1.1 = true ∧
      (processResourceMetrics ctdp conv s rm).2 = s ∧
      processMetrics ctdp conv s { ResourceMetrics := [rm] } =
        (({ ResourceMetrics := [] }, none), s)) := by
  have hmetric : ∀ {τ : Type} (cv : ConvertFn τ) (resource : Resource)
      (scope : InstrumentationScope) (t : τ),
      (processMetric ctdp cv resource scope t m).1.1 = true ∧
      (processMetric ctdp cv resource scope t m).2 = t := by
    intro τ cv resource scope t
    rw [processMetric_of_sum ctdp cv resource scope t m ms hd hc]
    simp [convertDataPoints, he, RemoveIf_nil]
  have hscope : ∀ (resource : Resource) (s : σ) (ilm : ScopeMetrics), ilm.Metrics = [m] →
      (processScopeMetrics ctdp conv resource s ilm).1.1 = true ∧
      (processScopeMetrics ctdp conv resource s ilm).2 = s := by
    intro resource s ilm hl
    simp only [processScopeMetrics, hl, RemoveIf_cons, RemoveIf_nil,
      (hmetric conv resource ilm.Scope s).1, (hmetric conv resource ilm.Scope s).2]
    simp
  refine ⟨fun resource scope s log => hmetric (recording conv) resource scope (s, log), ?_,
    hscope, ?_⟩
  · intro resource scope s pre post
    exact RemoveIf_skip _ pre post m (fun t => hmetric conv resource scope t) s
  · intro s rm ilm hl hrm
    have hres : (processResourceMetrics ctdp conv s rm).1.1 = true ∧
        (processResourceMetrics ctdp conv s rm).2 = s := by
      simp only [processResourceMetrics, hrm, RemoveIf_cons, RemoveIf_nil,
        (hscope rm.Resource s ilm hl).1, (hscope rm.Resource s ilm hl).2]
      simp
    refine ⟨hres.1, hres.2, ?_⟩
    simp only [processMetrics, RemoveIf_cons, RemoveIf_nil, hres.1, hres.2]
    simp

/-- C24, on a batch whose only metric is "requests_total" without points: the batch comes
out empty and the tracker is as it was. -/
theorem empty_sum_removed_witness :
    processMetrics {} (Convert FloatArith.ieee) {}
      { ResourceMetrics := [{ ScopeMetrics := [{ Metrics := [requestsTotal []] }] }] } =
      (({ ResourceMetrics := [] }, none), {}) :=
  ((empty_sum_removed {} (Convert FloatArith.ieee) (requestsTotal [])
    { AggregationTemporality := .Cumulative, IsMonotonic := true, DataPoints := [] }
    rfl rfl rfl).2.2.2 {} { ScopeMetrics := [{ Metrics := [requestsTotal []] }] }
    { Metrics := [requestsTotal []] } rfl rfl).2.2

/-- C25: the points `processMetric` passes to `Convert` for a converted histogram are those
of all its data points, in order. The identity passed for a point has monotonic flag true
and value type Int whatever the point holds, with the resource, scope, name and unit of the
metric, data type Histogram, and the start timestamp and attributes of the point; the value
passed carries the timestamp of the point and a histogram payload with its count, sum and
bucket counts, the scalar values being zero. -/
theorem histogram_identity_fields {σ : Type} (ctdp : cumulativeToDeltaProcessor)
    (conv : ConvertFn σ) (resource : Resource) (scope : InstrumentationScope) (st : σ)
    (m : Metric) (ms : Histogram) (hd : m.Data = .histogram ms)
    (hc : convertible ctdp m = true) :
    (processMetric ctdp (recording conv) resource scope (st, []) m).2.2 =
      ms.DataPoints.map (histogramMetricPoint (histogramBaseIdentity resource scope m)) ∧
    (∀ p : HistogramDataPoint,
      (histogramMetricPoint (histogramBaseIdentity resource scope m) p).Identity =
        { Resource := resource
          InstrumentationLibrary := scope
          MetricDataType := .Histogram
          MetricIsMonotonic := true
          MetricName := m.Name
          MetricUnit := m.Unit
          StartTimestamp := p.StartTimestamp
          Attributes := p.Attributes
          MetricValueType := .Int } ∧
      (histogramMetricPoint (histogramBaseIdentity resource scope m) p).Value =
        { ObservedTimestamp := p.Timestamp
          FloatValue := Float64.zero
          IntValue := 0
          HistogramValue :=
            some { Count := p.Count, Sum := p.Sum, Buckets := p.BucketCounts } }) := by
  have htype : m.DataType = .Histogram := by simp [Metric.DataType, hd]
  refine ⟨?_, ?_⟩
  · rw [processMetric_recording]
    simp [metricSubmissions, hc, hd]
  · intro p
    constructor
    · simp [histogramMetricPoint, histogramPointIdentity, histogramBaseIdentity, htype]
    · rfl

/-- C25, on a histogram "latency" with the first point of the example, histogram support
enabled: the point passed to the tracker is the one of that point. -/
theorem histogram_identity_fields_witness :
    (processMetric { histogramSupportEnabled := true } (recording (Convert FloatArith.ieee))
      {} {} ({}, [])
      { Name := "latency"
        Data := .histogram
          { AggregationTemporality := .Cumulative, DataPoints := [latencyFirst] } }).2.2 =
      [latencyFirst].map
        (histogramMetricPoint (histogramBaseIdentity {} {}
          { Name := "latency"
            Data := .histogram
              { AggregationTemporality := .Cumulative, DataPoints := [latencyFirst] } })) :=
  (histogram_identity_fields { histogramSupportEnabled := true } (Convert FloatArith.ieee)
    {} {} {}
    { Name := "latency"
      Data := .histogram { AggregationTemporality := .Cumulative, DataPoints := [latencyFirst] } }
    { AggregationTemporality := .Cumulative, DataPoints := [latencyFirst] } rfl rfl).1

/-- C26: `processMetrics` only removes. The resources of the returned batch are, by resource
and schema URL, a subsequence of those of the input in the same order; every resource of the
output comes from a resource of the input with the same key, and its scopes are a
subsequence of the scopes of that one; every scope of it comes from a scope of that resource
with the same key, and its metrics are a subsequence of the metrics of that one; and every
metric of it comes from a metric of that scope with the same name, description, unit and
data type, and its data points are, by attributes and timestamp, a subsequence of the data
points of that one. The returned batch never has more data points than the input. -/
theorem processMetrics_only_removes {σ : Type} (ctdp : cumulativeToDeltaProcessor)
    (conv : ConvertFn σ) (st : σ) (md : Metrics) :
    List.Sublist ((processMetrics ctdp conv st md).1.1.ResourceMetrics.map resourceKey)
      (md.ResourceMetrics.map resourceKey) ∧
    (∀ rmOut ∈ (processMetrics ctdp conv st md).1.1.ResourceMetrics,
      ∃ rm ∈ md.ResourceMetrics, resourceKey rmOut = resourceKey rm ∧
        List.Sublist (rmOut.ScopeMetrics.map scopeKey) (rm.ScopeMetrics.map scopeKey) ∧
        ∀ ilmOut ∈ rmOut.ScopeMetrics,
          ∃ ilm ∈ rm.ScopeMetrics, scopeKey ilmOut = scopeKey ilm ∧
            List.Sublist (ilmOut.Metrics.map metricKey) (ilm.Metrics.map metricKey) ∧
            ∀ mOut ∈ ilmOut.Metrics,
              ∃ m ∈ ilm.Metrics, metricKey mOut = metricKey m ∧
                List.Sublist mOut.pointKeys m.pointKeys ∧ mOut.pointCount ≤ m.pointCount) ∧
    (processMetrics ctdp conv st md).1.1.pointCount ≤ md.pointCount := by
  refine ⟨?_, ?_, ?_⟩
  · exact RemoveIf_map_sublist _ resourceKey
      (fun t x => (processResourceMetrics_key ctdp conv t x).1) _ _
  · intro rmOut hrm
    obtain ⟨rm, hrmIn, s1, -, he1, hscopes⟩ :=
      processMetrics_provenance ctdp conv st md rmOut hrm
    refine ⟨rm, hrmIn, ?_, ?_, ?_⟩
    · rw [← he1]
      exact (processResourceMetrics_key ctdp conv s1 rm).1
    · rw [← he1]
      exact (processResourceMetrics_key ctdp conv s1 rm).2.1
    · intro ilmOut hilm
      obtain ⟨ilm, hilmIn, s2, -, he2, hmetrics⟩ := hscopes ilmOut hilm
      refine ⟨ilm, hilmIn, ?_, ?_, ?_⟩
      · rw [← he2]
        exact (processScopeMetrics_key ctdp conv rm.Resource s2 ilm).1
      · rw [← he2]
        exact (processScopeMetrics_key ctdp conv rm.Resource s2 ilm).2.1
      · intro mOut hm
        obtain ⟨m, hmIn, s3, -, he3⟩ := hmetrics mOut hm
        refine ⟨m, hmIn, ?_⟩
        rw [← he3]
        exact processMetric_key ctdp conv rm.Resource ilm.Scope s3 m
  · exact RemoveIf_weight_le _ ResourceMetrics.pointCount
      (fun t x => (processResourceMetrics_key ctdp conv t x).2.2) _ _

/-- C26, on the second observation of "requests_total" next to a gauge: the batch that comes
out has no more data points than the one that went in. -/
theorem processMetrics_only_removes_witness :
    (processMetrics {} (Convert FloatArith.ieee)
      (TrackerState.store {} requestsTotalIntIdentity
        { ObservedTimestamp := 100, IntValue := 50 })
      (singleScopeBatch
        [requestsTotal [{ Timestamp := 200, Value := .int 70 }], temperatureGauge])).1.1.pointCount
      ≤ (singleScopeBatch
        [requestsTotal [{ Timestamp := 200, Value := .int 70 }], temperatureGauge]).pointCount :=
  (processMetrics_only_removes {} (Convert FloatArith.ieee)
    (TrackerState.store {} requestsTotalIntIdentity
      { ObservedTimestamp := 100, IntValue := 50 })
    (singleScopeBatch
      [requestsTotal [{ Timestamp := 200, Value := .int 70 }], temperatureGauge])).2.2

/-- C27: a resource that has no scopes and a scope that has no metrics are removed by their
callbacks, with the tracker as it was, though no metric of them was converted; the entries
around them are processed as if they were not there. A resource all of whose scopes are
without metrics is removed as well, and a batch of one resource without scopes comes out
with no resource. -/
theorem empty_containers_pruned {σ : Type} (ctdp : cumulativeToDeltaProcessor)
    (conv : ConvertFn σ) :
    (∀ (s : σ) (rm : ResourceMetrics), rm.ScopeMetrics = [] →
      processResourceMetrics ctdp conv s rm = ((true, rm), s)) ∧
    (∀ (resource : Resource) (s : σ) (ilm : ScopeMetrics), ilm.Metrics = [] →
      processScopeMetrics ctdp conv resource s ilm = ((true, ilm), s)) ∧
    (∀ (s : σ) (rm : ResourceMetrics) (pre post : List ResourceMetrics),
      rm.ScopeMetrics = [] →
      RemoveIf (processResourceMetrics ctdp conv) s (pre ++ rm :: post) =
        RemoveIf (processResourceMetrics ctdp conv) s (pre ++ post)) ∧
    (∀ (resource : Resource) (s : σ) (ilm : ScopeMetrics) (pre post : List ScopeMetrics),
      ilm.Metrics = [] →
      RemoveIf (processScopeMetrics ctdp conv resource) s (pre ++ ilm :: post) =
        RemoveIf (processScopeMetrics ctdp conv resource) s (pre ++ post)) ∧
    (∀ (s : σ) (rm : ResourceMetrics), (∀ ilm ∈ rm.ScopeMetrics, ilm.Metrics = []) →
      (processResourceMetrics ctdp conv s rm).1.1 = true ∧
      (processResourceMetrics ctdp conv s rm).2 = s) ∧
    (∀ (s : σ) (rm : ResourceMetrics), rm.ScopeMetrics = [] →
      processMetrics ctdp conv s { ResourceMetrics := [rm] } =
        (({ ResourceMetrics := [] }, none), s)) := by
  have hres : ∀ (s : σ) (rm : ResourceMetrics), rm.ScopeMetrics = [] →
      processResourceMetrics ctdp conv s rm = ((true, rm), s) := by
    intro s rm h
    have hrm : ({ rm with ScopeMetrics := [] } : ResourceMetrics) = rm := by rw [← h]
    simp [processResourceMetrics, h, RemoveIf_nil, hrm]
  have hscope : ∀ (resource : Resource) (s : σ) (ilm : ScopeMetrics), ilm.Metrics = [] →
      processScopeMetrics ctdp conv resource s ilm = ((true, ilm), s) := by
    intro resource s ilm h
    have hilm : ({ ilm with Metrics := [] } : ScopeMetrics) = ilm := by rw [← h]
    simp [processScopeMetrics, h, RemoveIf_nil, hilm]
  refine ⟨hres, hscope, ?_, ?_, ?_, ?_⟩
  · intro s rm pre post h
    exact RemoveIf_skip _ pre post rm (fun t => by rw [hres t rm h]; exact ⟨rfl, rfl⟩) s
  · intro resource s ilm pre post h
    exact RemoveIf_skip _ pre post ilm
      (fun t => by rw [hscope resource t ilm h]; exact ⟨rfl, rfl⟩) s
  · intro s rm hall
    have hgen : ∀ (l : List ScopeMetrics) (t : σ), (∀ ilm ∈ l, ilm.Metrics = []) →
        RemoveIf (processScopeMetrics ctdp conv rm.Resource) t l = ([], t) := by
      intro l
      induction l with
      | nil => intro t _; rfl
      | cons a l ih =>
        intro t hl
        rw [RemoveIf_cons, hscope rm.Resource t a (hl a (List.mem_cons_self _ _))]
        simp [ih t (fun x hx => hl x (List.mem_cons_of_mem _ hx))]
    simp [processResourceMetrics, hgen rm.ScopeMetrics s hall]
  · intro s rm h
    simp [processMetrics, RemoveIf_cons, RemoveIf_nil, hres s rm h]

/-- C27, on a batch of one resource without scopes: the batch comes out with no resource. -/
theorem empty_containers_pruned_witness :
    processMetrics {} (Convert FloatArith.ieee) {} { ResourceMetrics := [{}] } =
      (({ ResourceMetrics := [] }, none), {}) :=
  (empty_containers_pruned {} (Convert FloatArith.ieee)).2.2.2.2.2 {} {} rfl

/-- C28: `processMetrics` is idempotent on its own output. For every batch, every tracker
and every tracker state, running `processMetrics` of the same processor again on the batch
it returned, with any tracker in any state, returns that batch unchanged with a nil error
and leaves that tracker state as it was; with a tracker that keeps the log of the points
submitted, nothing is added to the log. Every metric of the returned batch is one the
processor does not convert, and no scope or resource of it is empty. -/
theorem processMetrics_idempotent {σ τ : Type} (ctdp : cumulativeToDeltaProcessor)
    (conv : ConvertFn σ) (st : σ) (md : Metrics) (conv2 : ConvertFn τ) (st2 : τ)
    (log : List MetricPoint) :
    processMetrics ctdp conv2 st2 (processMetrics ctdp conv st md).1.1 =
      (((processMetrics ctdp conv st md).1.1, none), st2) ∧
    processMetrics ctdp (recording conv2) (st2, log) (processMetrics ctdp conv st md).1.1 =
      (((processMetrics ctdp conv st md).1.1, none), (st2, log)) ∧
    (∀ rmOut ∈ (processMetrics ctdp conv st md).1.1.ResourceMetrics,
      rmOut.ScopeMetrics ≠ [] ∧
      ∀ ilmOut ∈ rmOut.ScopeMetrics, ilmOut.Metrics ≠ [] ∧
        ∀ mOut ∈ ilmOut.Metrics, convertible ctdp mOut = false) := by
  have hstable := processMetrics_output_stable ctdp conv st md
  have hrun : ∀ {ρ : Type} (cv : ConvertFn ρ) (t : ρ),
      processMetrics ctdp cv t (processMetrics ctdp conv st md).1.1 =
        (((processMetrics ctdp conv st md).1.1, none), t) := by
    intro ρ cv t
    have h := RemoveIf_of_keep_all (processResourceMetrics ctdp cv)
      (processMetrics ctdp conv st md).1.1.ResourceMetrics
      (fun rmOut hrm u =>
        processResourceMetrics_of_stable ctdp cv u rmOut (hstable rmOut hrm).1
          (hstable rmOut hrm).2) t
    show ((({ (processMetrics ctdp conv st md).1.1 with
        ResourceMetrics := (RemoveIf (processResourceMetrics ctdp cv) t
          (processMetrics ctdp conv st md).1.1.ResourceMetrics).1 } : Metrics), none),
        (RemoveIf (processResourceMetrics ctdp cv) t
          (processMetrics ctdp conv st md).1.1.ResourceMetrics).2) = _
    rw [h]
  exact ⟨hrun conv2 st2, hrun (recording conv2) (st2, log), hstable⟩

/-- C28, on the batch that comes out of the second observation of "requests_total": running
it through the processor again returns it unchanged and leaves the tracker as it was. -/
theorem processMetrics_idempotent_witness :
    processMetrics {} (Convert FloatArith.ieee) (observeRequestsTotal FloatArith.ieee {} 100 50).2
      (observeRequestsTotal FloatArith.ieee
        (observeRequestsTotal FloatArith.ieee {} 100 50).2 200 70).1.1 =
      (((observeRequestsTotal FloatArith.ieee
        (observeRequestsTotal FloatArith.ieee {} 100 50).2 200 70).1.1, none),
        (observeRequestsTotal FloatArith.ieee {} 100 50).2) :=
  (processMetrics_idempotent {} (Convert FloatArith.ieee)
    (observeRequestsTotal FloatArith.ieee {} 100 50).2
    (singleScopeBatch [requestsTotal [{ Timestamp := 200, Value := .int 70 }]])
    (Convert FloatArith.ieee) (observeRequestsTotal FloatArith.ieee {} 100 50).2 []).1

end CumulativeToDelta

namespace SolaceReceiver

/-- C20: the decision table of `receiveMessage`. When receiving succeeds, unmarshal is called
once and exactly one of ack and nack is called; nack is called exactly when unmarshalling
fails with the unknown-message-version error or the next consumer returns an error that is
not permanent, and ack otherwise. The returned error is the receive error when receiving
failed (nothing else is called then), the version error when that occurred, and otherwise
the error of the ack or nack that was called, nil when it succeeded. The model passes every
row of the table of `TestReceiveMessage`. -/
theorem receiveMessage_decision_table (c : Collaborators) :
    (c.receiveMessageErr = none →
      (receiveMessage c).calls.count .unmarshal = 1 ∧
      (receiveMessage c).calls.count .ack + (receiveMessage c).calls.count .nack = 1 ∧
      (.nack ∈ (receiveMessage c).calls ↔ rejects c = true) ∧
      (.ack ∈ (receiveMessage c).calls ↔ rejects c = false)) ∧
    (∀ e, c.receiveMessageErr = some e →
      (receiveMessage c).err = some e ∧ (receiveMessage c).calls = [.receive]) ∧
    (c.receiveMessageErr = none → c.unmarshalErr = some .errUnknownTraceMessgeVersion →
      (receiveMessage c).err = some .errUnknownTraceMessgeVersion) ∧
    (c.receiveMessageErr = none → c.unmarshalErr ≠ some .errUnknownTraceMessgeVersion →
      (receiveMessage c).err = if rejects c then c.nackErr else c.ackErr) ∧
    testCases.all TestCase.passes = true := by
  refine ⟨?_, ?_, ?_, ?_, by decide⟩
  · intro hr
    obtain ⟨r, u, ce, a, n⟩ := c
    simp only at hr
    subst hr
    cases u with
    | some ue => cases ue <;> simp [receiveMessage, settle, rejects]
    | none =>
      cases ce with
      | none => simp [receiveMessage, settle, rejects]
      | some x =>
        obtain ⟨x, perm⟩ := x
        cases perm <;> simp [receiveMessage, settle, rejects]
  · intro e he
    simp [receiveMessage, he]
  · intro hr hu
    simp [receiveMessage, hr, hu, settle]
  · intro hr hu
    obtain ⟨r, u, ce, a, n⟩ := c
    simp only at hr hu
    subst hr
    cases u with
    | some ue =>
      cases ue with
      | errUnknownTraceMessgeVersion => exact absurd rfl hu
      | errUnknownTraceMessgeType => simp [receiveMessage, settle, rejects]
      | other t => simp [receiveMessage, settle, rejects]
    | none =>
      cases ce with
      | none => simp [receiveMessage, settle, rejects]
      | some x =>
        obtain ⟨x, perm⟩ := x
        cases perm <;> simp [receiveMessage, settle, rejects]

/-- C20, on the row "Forward Temporary Error with Nack Error": the message is rejected and
the error of the nack comes back. -/
theorem receiveMessage_decision_table_witness :
    (receiveMessage
      { consumeErr := some ⟨.other "a temporary error", false⟩, nackErr := some someError }).err
      = some someError :=
  ((receiveMessage_decision_table
    { consumeErr := some ⟨.other "a temporary error", false⟩,
      nackErr := some someError }).2.2.2.1 rfl (by decide)).trans (by decide)

end SolaceReceiver

namespace SignalFx

/-- C21: `ConvertDimension` applies the renaming of the translator first, if there is a
translator and it renames the dimension, and then replaces by an underscore every character
that is neither alphanumeric nor one of the allowed characters: the result has, position by
position, the character of the renamed key or an underscore, every character of it is
alphanumeric, allowed or an underscore, and a renamed key made of alphanumeric and allowed
characters only comes out as it is. With allowed characters "_-", "d.i.m" becomes "d_i_m",
and "di_m" under the renaming of d.i.m to di.m; with allowed characters "_-." the periods
are kept. -/
theorem ConvertDimension_renames_then_filters (alnum : Char → Bool) (allowed : String)
    (dim : String) :
    ConvertDimension alnum { metricTranslator := none, nonAlphanumericDimChars := allowed } dim =
      filterKeyChars alnum allowed dim ∧
    (∀ (mapping : DimensionMapping) (renamed : String), mapping.lookup dim = some renamed →
      ConvertDimension alnum
        { metricTranslator := some mapping, nonAlphanumericDimChars := allowed } dim =
        filterKeyChars alnum allowed renamed) ∧
    (∀ mapping : DimensionMapping, mapping.lookup dim = none →
      ConvertDimension alnum
        { metricTranslator := some mapping, nonAlphanumericDimChars := allowed } dim =
        filterKeyChars alnum allowed dim) ∧
    (∀ key : String,
      (filterKeyChars alnum allowed key).data =
        key.data.map (fun r => if alnum r || allowed.data.contains r then r else '_') ∧
      (filterKeyChars alnum allowed key).data.length = key.data.length ∧
      (∀ r ∈ (filterKeyChars alnum allowed key).data,
        alnum r = true ∨ r ∈ allowed.data ∨ r = '_') ∧
      ((∀ r ∈ key.data, alnum r = true ∨ r ∈ allowed.data) →
        filterKeyChars alnum allowed key = key)) ∧
    testCases.all TestCase.passes = true := by
  refine ⟨rfl, ?_, ?_, ?_, by decide⟩
  · intro mapping renamed h
    simp [ConvertDimension, translateDimension, h]
  · intro mapping h
    simp [ConvertDimension, translateDimension, h]
  · intro key
    refine ⟨rfl, by simp [filterKeyChars], ?_, ?_⟩
    · intro r hr
      simp only [filterKeyChars, List.mem_map] at hr
      obtain ⟨a, -, rfl⟩ := hr
      unfold filterChar
      by_cases h1 : alnum a = true
      · simp [h1]
      · by_cases h2 : a ∈ allowed.data
        · simp [h2]
        · simp [h1, h2]
    · intro h
      have hmap : key.data.map (filterChar alnum allowed) = key.data := by
        conv_rhs => rw [← List.map_id key.data]
        apply List.map_congr_left
        intro r hr
        unfold filterChar
        rcases h r hr with h1 | h2
        · simp [h1]
        · simp [h2]
      simp [filterKeyChars, hmap]

/-- C21, on the row "With translations": "d.i.m" is renamed to "di.m" and comes out as
"di_m". -/
theorem ConvertDimension_renames_then_filters_witness :
    ConvertDimension Char.isAlphanum
      { metricTranslator := some [("d.i.m", "di.m")], nonAlphanumericDimChars := "_-" } "d.i.m"
      = "di_m" :=
  ((ConvertDimension_renames_then_filters Char.isAlphanum "_-" "d.i.m").2.1
    [("d.i.m", "di.m")] "di.m" (by decide)).trans (by decide)

end SignalFx

namespace ottlcommon

/-- C29: `Set` always constructs a function and no error. For every context the function
returns nil; when the value got from the context is not nil the context it leaves is the one
the setter of the target leaves when given that value, and when the value is nil the context
is left as it was. -/
theorem Set_writes_non_nil {Ctx : Type} (target : Setter Ctx) (value : Getter Ctx) :
    ∃ f : ExprFunc Ctx, Set target value = .ok f ∧
      ∀ ctx : Ctx,
        (f ctx).1 = none ∧
        (∀ v, value.Get ctx = some v → (f ctx).2 = target.Set ctx v) ∧
        (value.Get ctx = none → (f ctx).2 = ctx) := by
  refine ⟨_, rfl, ?_⟩
  intro ctx
  cases h : value.Get ctx with
  | none => simp [h]
  | some v => simp [h]

/-- C29, on a context with one field: setting it from a getter that gives "x" leaves "x" in
the field. -/
theorem Set_writes_non_nil_witness :
    ∃ f : ExprFunc FieldContext,
      Set ⟨fieldTarget.Set⟩ ⟨fun _ => some (.str "x")⟩ = .ok f ∧
      (f none).2 = some (.str "x") := by
  obtain ⟨f, hf, h⟩ := @Set_writes_non_nil FieldContext ⟨fieldTarget.Set⟩
    ⟨fun _ => some (.str "x")⟩
  exact ⟨f, hf, (h none).2.1 (.str "x") rfl⟩

/-- C30: `ReplaceMatch` returns an error and no function exactly when the pattern does not
compile to a glob. When it compiles, the function returned gives nil for every context, sets
the target to the replacement when the value of the target is a string the glob matches, and
leaves the context as it was when the value is nil, is not a string, or is a string the glob
does not match. -/
theorem ReplaceMatch_replaces_matching_string {Ctx : Type}
    (compile : String → Except String Glob) (target : GetSetter Ctx) (pattern : String)
    (replacement : String) :
    ((∃ err, ReplaceMatch compile target pattern replacement = .error err) ↔
      ∃ err, compile pattern = .error err) ∧
    (∀ glob : Glob, compile pattern = .ok glob →
      ∃ f : ExprFunc Ctx, ReplaceMatch compile target pattern replacement = .ok f ∧
        ∀ ctx : Ctx,
          (f ctx).1 = none ∧
          (∀ s, target.Get ctx = some (.str s) → glob s = true →
            (f ctx).2 = target.Set ctx (.str replacement)) ∧
          (∀ s, target.Get ctx = some (.str s) → glob s = false → (f ctx).2 = ctx) ∧
          (target.Get ctx = none → (f ctx).2 = ctx) ∧
          (∀ v, target.Get ctx = some v → (∀ s, v ≠ .str s) → (f ctx).2 = ctx)) := by
  constructor
  · cases h : compile pattern with
    | error e => simp [ReplaceMatch, h]
    | ok g => simp [ReplaceMatch, h]
  · intro glob hg
    have hR : ReplaceMatch compile target pattern replacement =
        .ok (fun ctx =>
          match target.Get ctx with
          | none => (none, ctx)
          | some (.str valStr) =>
            if glob valStr then (none, target.Set ctx (.str replacement)) else (none, ctx)
          | some _ => (none, ctx)) := by
      simp only [ReplaceMatch, hg]
    refine ⟨_, hR, ?_⟩
    intro ctx
    cases hv : target.Get ctx with
    | none => simp
    | some v =>
      cases v with
      | str s => cases hm : glob s <;> simp [hm]
      | int i => simp
      | double b => simp
      | bool b => simp

/-- C30, on a context with one field holding "hello world" and the pattern "hello*": the
field is replaced. -/
theorem ReplaceMatch_replaces_matching_string_witness :
    ∃ f : ExprFunc FieldContext,
      ReplaceMatch starCompile fieldTarget "hello*" "bye" = .ok f ∧
      (f (some (.str "hello world"))).2 = some (.str "bye") := by
  obtain ⟨f, hf, h⟩ := (ReplaceMatch_replaces_matching_string starCompile fieldTarget "hello*"
    "bye").2 (fun s => "hello*".data.dropLast.isPrefixOf s.data) rfl
  exact ⟨f, hf, (h (some (.str "hello world"))).2.1 "hello world" rfl (by decide)⟩

end ottlcommon
